import Mathlib

set_option autoImplicit false

/-!
# Zeno lowering pipeline (RISC-V backend passes): shallow embedding

The passes under `llvm/lib/Target/RISCV/RISCVZeno*.cpp` rewrite machine
instructions in place.  Here a basic block is a list of instructions, an
instruction is an opcode with a list of operands, and a register is its
number, as in the sources.  An assertion failure or `llvm_unreachable` in the
sources is the result `none`.
-/

namespace Zeno

/-! ## Machine integers -/

/-- Subtraction of two `unsigned` (32-bit) values, as in `Reg.id() - base`. -/
def subU32 (a b : Nat) : Nat := (a % 4294967296 + 4294967296 - b % 4294967296) % 4294967296

/-- Addition of two `unsigned` (32-bit) values, as in `RISCV::X0 + (...)`. -/
def addU32 (a b : Nat) : Nat := (a + b) % 4294967296

/-- Conversion of an `int64_t` to the `unsigned` held by a `Register`. -/
def toU32 (v : Int) : Nat := (v % 4294967296).toNat

/-- Wrap-around of a mathematical integer into the range of `int64_t`. -/
def wrapI64 (v : Int) : Int := (v + 9223372036854775808) % 18446744073709551616 - 9223372036854775808

/-- The value is representable as an `int64_t`. -/
def isInt64 (v : Int) : Prop := -9223372036854775808 ≤ v ∧ v < 9223372036854775808

instance (v : Int) : Decidable (isInt64 v) := by unfold isInt64; infer_instance

/-! ## Registers

`RISCV::X0`, `RISCV::E0`, `RISCV::PXE0` (and the thirty-one registers that
follow each of them) come from the generated register enumeration, which is
not part of the pass sources: their numbers are a parameter.  The sources
compute `RISCV::X0 + (id - RISCV::PXE0)` and compare against `RISCV::X31`,
so they rely on each bank being numbered consecutively; `X i`, `E i` and
`PXE i` below are the `i`-th register of each bank. -/

/-- Numbers of the first register of each of the three banks. -/
structure RegLayout where
  /-- `RISCV::X0` -/
  X0 : Nat
  /-- `RISCV::E0` -/
  E0 : Nat
  /-- `RISCV::PXE0` -/
  PXE0 : Nat
deriving DecidableEq, Repr

namespace RegLayout

/-- Address-class register `X_i`. -/
def X (L : RegLayout) (i : Nat) : Nat := L.X0 + i

/-- Extended-class register `E_i`. -/
def E (L : RegLayout) (i : Nat) : Nat := L.E0 + i

/-- Unified-class register `PXE_i`. -/
def PXE (L : RegLayout) (i : Nat) : Nat := L.PXE0 + i

/-- The three banks are physical registers (non-zero, below the virtual
register bit) and are pairwise disjoint, as distinct enumerators are. -/
def WF (L : RegLayout) : Prop :=
  0 < L.X0 ∧ 0 < L.E0 ∧ 0 < L.PXE0 ∧
  L.X0 + 31 < 2147483648 ∧ L.E0 + 31 < 2147483648 ∧ L.PXE0 + 31 < 2147483648 ∧
  (L.X0 + 31 < L.E0 ∨ L.E0 + 31 < L.X0) ∧
  (L.X0 + 31 < L.PXE0 ∨ L.PXE0 + 31 < L.X0) ∧
  (L.E0 + 31 < L.PXE0 ∨ L.PXE0 + 31 < L.E0)

instance (L : RegLayout) : Decidable L.WF := by unfold WF; infer_instance

end RegLayout

/-- A concrete numbering used to evaluate the definitions. -/
def sampleLayout : RegLayout := { X0 := 300, E0 := 40, PXE0 := 200 }

/-- `Register::isVirtual`: the top bit of the 32-bit number is set. -/
def isVirtual (r : Nat) : Bool := decide (2147483648 ≤ r)

/-- `Register::index2VirtReg`. -/
def index2VirtReg (idx : Nat) : Nat := idx + 2147483648

/-- `zeno::isPseudoReg`. -/
def isPseudoReg (L : RegLayout) (r : Nat) : Bool := decide (L.PXE0 ≤ r) && decide (r ≤ L.PXE 31)

/-- `zeno::isGPRReg`. -/
def isGPRReg (L : RegLayout) (r : Nat) : Bool := decide (L.X0 ≤ r) && decide (r ≤ L.X 31)

/-- `zeno::isExtendedReg`. -/
def isExtendedReg (L : RegLayout) (r : Nat) : Bool := decide (L.E0 ≤ r) && decide (r ≤ L.E 31)

/-- `zeno::getPseudoReg`; `none` is `llvm_unreachable("Could not convert register")`. -/
def getPseudoReg (L : RegLayout) (r : Nat) : Option Nat :=
  if isPseudoReg L r then some (addU32 L.PXE0 (subU32 r L.PXE0))
  else if isGPRReg L r then some (addU32 L.PXE0 (subU32 r L.X0))
  else if isExtendedReg L r then some (addU32 L.PXE0 (subU32 r L.E0))
  else none

/-- `zeno::getGPRReg`; `none` is `llvm_unreachable("Could not convert register")`. -/
def getGPRReg (L : RegLayout) (r : Nat) : Option Nat :=
  if isPseudoReg L r then some (addU32 L.X0 (subU32 r L.PXE0))
  else if isGPRReg L r then some (addU32 L.X0 (subU32 r L.X0))
  else if isExtendedReg L r then some (addU32 L.X0 (subU32 r L.E0))
  else none

/-- `zeno::getExtendedReg`; `none` is `llvm_unreachable("Could not convert register")`. -/
def getExtendedReg (L : RegLayout) (r : Nat) : Option Nat :=
  if isPseudoReg L r then some (addU32 L.E0 (subU32 r L.PXE0))
  else if isGPRReg L r then some (addU32 L.E0 (subU32 r L.X0))
  else if isExtendedReg L r then some (addU32 L.E0 (subU32 r L.E0))
  else none

/-- The three register kinds of the extension (used to state properties). -/
inductive RegKind
  | unified
  | address
  | extended
deriving DecidableEq, Repr

/-- Register of kind `k` and index `i`. -/
def RegKind.reg (L : RegLayout) : RegKind → Nat → Nat
  | .unified, i => L.PXE i
  | .address, i => L.X i
  | .extended, i => L.E i

/-- The helper that converts to kind `k`. -/
def RegKind.conv (L : RegLayout) : RegKind → Nat → Option Nat
  | .unified => getPseudoReg L
  | .address => getGPRReg L
  | .extended => getExtendedReg L

/-! ## Instructions -/

/-- Opcodes named by the passes; every other opcode of the target is `other`. -/
inductive Opcode
  | PseudoELP | PseudoELD | PseudoELW | PseudoELH | PseudoELHU | PseudoELB | PseudoELBU | PseudoELE
  | PseudoESP | PseudoESD | PseudoESW | PseudoESH | PseudoESB | PseudoESE
  | PseudoEADDIE
  | ELP | ELD | ELW | ELH | ELHU | ELB | ELBU | ELE
  | ESP | ESD | ESW | ESH | ESB | ESE
  | EADDIE | EADDIX | ADDI | COPY
  | PseudoZenoGetPtr | PseudoZenoSetPtr | PseudoZenoGetNSID | PseudoZenoSetNSID
  | PseudoZenoCombinePtrNSID
  | other (n : Nat)
deriving DecidableEq, Repr

/-- A machine operand: a register (with its definition flag), an immediate
(`int64_t`), or anything else (frame index, symbol, block, ...). -/
inductive MachineOperand
  | reg (r : Nat) (isDef : Bool)
  | imm (v : Int)
  | other (tag : Nat)
deriving DecidableEq, Repr

namespace MachineOperand

/-- `MachineOperand::isReg`. -/
def isReg : MachineOperand → Bool
  | .reg _ _ => true
  | _ => false

/-- `MachineOperand::isImm`. -/
def isImm : MachineOperand → Bool
  | .imm _ => true
  | _ => false

/-- `MachineOperand::getReg`; `none` is the failed assertion on a non-register. -/
def getReg : MachineOperand → Option Nat
  | .reg r _ => some r
  | _ => none

/-- `MachineOperand::getImm`; `none` is the failed assertion on a non-immediate. -/
def getImm : MachineOperand → Option Int
  | .imm v => some v
  | _ => none

end MachineOperand

/-- A machine instruction.  `FrameSetup` and `FrameDestroy` are its flags;
`isCall`, `isReturn` and `isDebugInstr` are the answers of the host's
instruction descriptor, carried with the instruction. -/
structure MachineInstr where
  opcode : Opcode
  operands : List MachineOperand
  FrameSetup : Bool := false
  FrameDestroy : Bool := false
  isCall : Bool := false
  isReturn : Bool := false
  isDebugInstr : Bool := false
deriving DecidableEq, Repr

namespace MachineInstr

/-- `MachineInstr::getNumOperands`. -/
def getNumOperands (mi : MachineInstr) : Nat := mi.operands.length

/-- `MachineInstr::getOperand`; `none` is the failed bound assertion. -/
def getOperand (mi : MachineInstr) (i : Nat) : Option MachineOperand := mi.operands.get? i

/-- The instruction with operand `i` overwritten (`setReg`, `setImm` on it). -/
def setOperand (mi : MachineInstr) (i : Nat) (mo : MachineOperand) : MachineInstr :=
  { mi with operands := mi.operands.set i mo }

end MachineInstr

/-- `BuildMI(...)` followed by `.addReg`/`.addImm`: a fresh instruction without
flags.  A destination given to `BuildMI` is a `reg _ true` operand, a register
given to `.addReg` is a `reg _ false` operand. -/
def BuildMI (opc : Opcode) (ops : List MachineOperand) : MachineInstr :=
  { opcode := opc, operands := ops }

/-- The operand is a register of the unified bank. -/
def isUnifiedOp (L : RegLayout) : MachineOperand → Bool
  | .reg r _ => isPseudoReg L r
  | _ => false

/-! ## Placeholder Expander (`RISCVZenoExpandPseudo.cpp`) -/

namespace ExpandPseudo

/-- `RISCVZenoExpandPseudo::isExtendedOpcode`. -/
def isExtendedOpcode : Opcode → Bool
  | .PseudoELP | .PseudoELD | .PseudoELW | .PseudoELH | .PseudoELHU | .PseudoELB
  | .PseudoELBU | .PseudoELE
  | .PseudoESP | .PseudoESD | .PseudoESW | .PseudoESH | .PseudoESB | .PseudoESE
  | .PseudoEADDIE => true
  | _ => false

/-- The `switch` of `expandExtendedLoadStore` choosing the real opcode and
`isLoad`; `none` is `llvm_unreachable("Unimplemented pseudo instruction!")`. -/
def realOpcode : Opcode → Option (Opcode × Bool)
  | .PseudoELP => some (.ELP, true)
  | .PseudoELD => some (.ELD, true)
  | .PseudoELW => some (.ELW, true)
  | .PseudoELH => some (.ELH, true)
  | .PseudoELHU => some (.ELHU, true)
  | .PseudoELB => some (.ELB, true)
  | .PseudoELBU => some (.ELBU, true)
  | .PseudoELE => some (.ELE, true)
  | .PseudoESP => some (.ESP, false)
  | .PseudoESD => some (.ESD, false)
  | .PseudoESW => some (.ESW, false)
  | .PseudoESH => some (.ESH, false)
  | .PseudoESB => some (.ESB, false)
  | .PseudoESE => some (.ESE, false)
  | _ => none

/-- The guard `getNumOperands() == 4 && getOperand(3).getImm() >= 0` of
`expandExtendedLoadStore`; `none` when `getImm` is asked of a non-immediate. -/
def unselected (mi : MachineInstr) : Option Bool :=
  if mi.getNumOperands = 4 then
    match mi.getOperand 3 with
    | some (.imm v) => some (decide (0 ≤ v))
    | _ => none
  else some false

/-- The instructions built at the end of `expandExtendedLoadStore`. -/
def emit (L : RegLayout) (opc : Opcode) (isLoad isPtrLS : Bool) (dst src : Nat) (imm : Int) :
    List MachineInstr :=
  if isLoad then
    BuildMI opc [.reg dst true, .reg src false, .imm imm] ::
      (if isPtrLS then
        [BuildMI .ELE [.reg (addU32 L.E0 (subU32 dst L.X0)) true, .reg src false,
          .imm (wrapI64 (imm + 8))]]
      else [])
  else
    BuildMI opc [.reg dst false, .reg src false, .imm imm] ::
      (if isPtrLS then
        [BuildMI .ESE [.reg (addU32 L.E0 (subU32 dst L.X0)) false, .reg src false,
          .imm (wrapI64 (imm + 8))]]
      else [])

/-- `RISCVZenoExpandPseudo::expandExtendedLoadStore` on the instruction `mi`.
The result is the list of instructions standing in the place of `mi`
afterwards (`[mi]` when nothing is done) and the returned flag; `none` is an
abort (`llvm_unreachable` or a failed assertion). -/
def expandExtendedLoadStore (L : RegLayout) (mi : MachineInstr) :
    Option (List MachineInstr × Bool) :=
  if isExtendedOpcode mi.opcode then
    match mi.getOperand 0 with
    | none => none
    | some (.reg dst0 _) =>
      match mi.getOperand 1 with
      | none => none
      | some (.reg srcPseudo _) =>
        match unselected mi with
        | none => none
        | some true => some ([mi], false)
        | some false =>
          let srcGPR :=
            if L.PXE0 ≤ srcPseudo ∧ srcPseudo ≤ L.PXE 31 then addU32 L.X0 (subU32 srcPseudo L.PXE0)
            else srcPseudo
          if L.X0 ≤ srcGPR ∧ srcGPR ≤ L.X 31 then
            let isPtrLS :=
              mi.opcode = .PseudoESP ∨ mi.opcode = .PseudoELP ∨ mi.opcode = .ESP ∨ mi.opcode = .ELP
            let dst1 :=
              if (mi.opcode = .PseudoELE ∨ mi.opcode = .PseudoESE) ∧
                  (L.PXE0 ≤ dst0 ∧ dst0 ≤ L.PXE 31) then
                addU32 L.E0 (subU32 dst0 L.PXE0)
              else dst0
            let dstGPR :=
              if isPtrLS ∧ (L.PXE0 ≤ dst1 ∧ dst1 ≤ L.PXE 31) then addU32 L.X0 (subU32 dst1 L.PXE0)
              else dst1
            match mi.getOperand 2 with
            | some (.imm imm) =>
              match realOpcode mi.opcode with
              | none => none
              | some (opc, isLoad) => some (emit L opc isLoad (decide isPtrLS) dstGPR srcGPR imm, true)
            | _ => none
          else none
      | some _ => some ([mi], false)
    | some _ => some ([mi], false)
  else some ([mi], false)

/-- `RISCVZenoExpandPseudo::expandExtendedMov`. -/
def expandExtendedMov (mi : MachineInstr) : Option (List MachineInstr × Bool) :=
  match mi.getOperand 0, mi.getOperand 1, mi.getOperand 2 with
  | some (.reg dstExt _), some (.reg srcGPR _), some (.imm srcImm) =>
    match mi.opcode with
    | .PseudoEADDIE =>
      some ([BuildMI .EADDIE [.reg dstExt true, .reg srcGPR false, .imm srcImm]], true)
    | _ => none
  | _, _, _ => none

/-- `RISCVZenoExpandPseudo::expandMI`. -/
def expandMI (L : RegLayout) (mi : MachineInstr) : Option (List MachineInstr × Bool) :=
  match mi.opcode with
  | .PseudoELP | .PseudoELD | .PseudoELW | .PseudoELH | .PseudoELHU | .PseudoELB
  | .PseudoELBU | .PseudoELE
  | .PseudoESP | .PseudoESD | .PseudoESW | .PseudoESH | .PseudoESB | .PseudoESE =>
    expandExtendedLoadStore L mi
  | .PseudoEADDIE => expandExtendedMov mi
  | _ => some ([mi], false)

/-- `RISCVZenoExpandPseudo::expandMBB`.  The successor of the visited
instruction is taken before the visit and new instructions go in front of the
visited one, so every instruction of the incoming block is visited once and
the block afterwards is the concatenation of the pieces. -/
def expandMBB (L : RegLayout) : List MachineInstr → Option (List MachineInstr × Bool)
  | [] => some ([], false)
  | mi :: rest =>
    match expandMI L mi with
    | none => none
    | some (out, m) =>
      match expandMBB L rest with
      | none => none
      | some (out', m') => some (out ++ out', m || m')

/-- The instruction still asks for an extended register: four operands, the
last an immediate that is not negative. -/
def unresolvedSlot (mi : MachineInstr) : Bool :=
  decide (mi.getNumOperands = 4) &&
    (match mi.getOperand 3 with
     | some (.imm v) => decide (0 ≤ v)
     | _ => false)

/-- Placeholder load/store opcodes. -/
def isPseudoLoadStore : Opcode → Bool
  | .PseudoELP | .PseudoELD | .PseudoELW | .PseudoELH | .PseudoELHU | .PseudoELB
  | .PseudoELBU | .PseudoELE
  | .PseudoESP | .PseudoESD | .PseudoESW | .PseudoESH | .PseudoESB | .PseudoESE => true
  | _ => false

/-- A placeholder load/store that `expandExtendedLoadStore` can expand:
operands 0 and 1 are registers, the source is of unified or address kind,
operand 2 is an immediate, and a fourth operand (when it is the last one) is a
negative immediate. -/
def lsReady (L : RegLayout) (mi : MachineInstr) : Prop :=
  ∃ (r0 r1 s : Nat) (f0 f1 : Bool) (imm : Int) (rest : List MachineOperand),
    mi.operands = .reg r0 f0 :: .reg r1 f1 :: .imm imm :: rest ∧
    s ≤ 31 ∧ (r1 = L.PXE s ∨ r1 = L.X s) ∧
    (∀ o, rest = [o] → ∃ k : Int, o = .imm k ∧ k < 0)

/-- A `PseudoEADDIE` with the operands `expandExtendedMov` reads. -/
def movReady (mi : MachineInstr) : Prop :=
  ∃ (r0 r1 : Nat) (f0 f1 : Bool) (imm : Int) (rest : List MachineOperand),
    mi.operands = .reg r0 f0 :: .reg r1 f1 :: .imm imm :: rest

/-- Operands 0 and 1 of the instruction are registers. -/
def regOperands01 (mi : MachineInstr) : Bool :=
  (match mi.getOperand 0 with
   | some (.reg _ _) => true
   | _ => false) &&
  (match mi.getOperand 1 with
   | some (.reg _ _) => true
   | _ => false)

/-- The non-pointer placeholder loads and stores with the real opcode of the
same name and whether it is a load. -/
def nonPointerOpcodes : List (Opcode × Opcode × Bool) :=
  [ (.PseudoELD, .ELD, true), (.PseudoELW, .ELW, true), (.PseudoELH, .ELH, true),
    (.PseudoELHU, .ELHU, true), (.PseudoELB, .ELB, true), (.PseudoELBU, .ELBU, true),
    (.PseudoELE, .ELE, true),
    (.PseudoESD, .ESD, false), (.PseudoESW, .ESW, false), (.PseudoESH, .ESH, false),
    (.PseudoESB, .ESB, false), (.PseudoESE, .ESE, false) ]

/-- The source register of a placeholder load/store after the mapping of
`expandExtendedLoadStore` (unified to address kind). -/
def mappedSource (L : RegLayout) (src : Nat) : Nat :=
  if L.PXE0 ≤ src ∧ src ≤ L.PXE 31 then addU32 L.X0 (subU32 src L.PXE0) else src

/-- The `isPtrLS` of `expandExtendedLoadStore`. -/
def isPtrLS (o : Opcode) : Bool :=
  decide (o = .PseudoESP ∨ o = .PseudoELP ∨ o = .ESP ∨ o = .ELP)

/-- Operand 0 of a placeholder load/store after the two mappings of
`expandExtendedLoadStore` (unified to extended kind for `PseudoELE` and
`PseudoESE`, unified to address kind for the pointer variants). -/
def mappedDest (L : RegLayout) (o : Opcode) (dst0 : Nat) : Nat :=
  let dst1 :=
    if (o = .PseudoELE ∨ o = .PseudoESE) ∧ (L.PXE0 ≤ dst0 ∧ dst0 ≤ L.PXE 31) then
      addU32 L.E0 (subU32 dst0 L.PXE0)
    else dst0
  if (o = .PseudoESP ∨ o = .PseudoELP ∨ o = .ESP ∨ o = .ELP) ∧
      (L.PXE0 ≤ dst1 ∧ dst1 ≤ L.PXE 31) then
    addU32 L.X0 (subU32 dst1 L.PXE0)
  else dst1

end ExpandPseudo

/-! ## Extended-Register Selector (`RISCVZenoSelectExtReg.cpp`) -/

namespace SelectExtReg

/-- `isPseudoExtInst`. -/
def isPseudoExtInst (mi : MachineInstr) : Bool :=
  match mi.opcode with
  | .PseudoELP | .PseudoELD | .PseudoELW | .PseudoELH | .PseudoELHU | .PseudoELB
  | .PseudoELBU | .PseudoELE
  | .PseudoESP | .PseudoESD | .PseudoESW | .PseudoESH | .PseudoESB | .PseudoESE => true
  | _ => false

/-- The body of the `while` loop of `RISCVZenoSelectExtReg::runOnMBB` for the
visited instruction: the instructions standing in its place afterwards.
`none` is a failed `getImm`/`getReg` assertion. -/
def visit (L : RegLayout) (mi : MachineInstr) : Option (List MachineInstr) :=
  if isPseudoExtInst mi && decide (mi.getNumOperands = 4) then
    match mi.getOperand 3 with
    | some (.imm ext_regid) =>
      if ext_regid ≠ -1 then
        match mi.getOperand 1 with
        | some (.reg srcPseudo _) =>
          let srcGPR :=
            if L.PXE0 ≤ srcPseudo ∧ srcPseudo ≤ L.PXE 31 then addU32 L.X0 (subU32 srcPseudo L.PXE0)
            else srcPseudo
          if 0 ≤ ext_regid ∧ ext_regid ≤ 31 then
            let src_regid : Int := ((subU32 srcGPR L.X0 : Nat) : Int)
            if src_regid ≠ ext_regid then
              let prevExt := toU32 ((L.E0 : Int) + src_regid)
              let newExt := toU32 ((L.E0 : Int) + ext_regid)
              some [BuildMI .EADDIX [.reg prevExt false, .reg newExt false, .imm 0],
                    mi.setOperand 3 (.imm (-1))]
            else some [mi]
          else some [mi]
        | _ => none
      else some [mi]
    | _ => none
  else some [mi]

/-- `RISCVZenoSelectExtReg::runOnMBB`: the block afterwards and the returned
flag (`Modified` is initialised to `false` and never assigned). -/
def runOnMBB (L : RegLayout) : List MachineInstr → Option (List MachineInstr × Bool)
  | [] => some ([], false)
  | mi :: rest =>
    match visit L mi with
    | none => none
    | some out =>
      match runOnMBB L rest with
      | none => none
      | some (out', m) => some (out ++ out', m)

end SelectExtReg

/-! ## Local Dead-Instruction Eliminator (`RISCVZenoDeadCode.cpp`) -/

namespace DCE

/-- First condition of the loop of `RISCVZenoDCE::runOnMBB`: the visited
instruction and its successor are `EADDIX` with the same register in operand 0.
`none` is a failed bound assertion of `getOperand`. -/
def sameDestAsNext (mi : MachineInstr) (next : Option MachineInstr) : Option Bool :=
  match next with
  | none => some false
  | some nx =>
    if mi.opcode = .EADDIX ∧ nx.opcode = .EADDIX then
      match mi.getOperand 0 with
      | none => none
      | some (.reg a _) =>
        match nx.getOperand 0 with
        | none => none
        | some (.reg b _) => some (decide (a = b))
        | some _ => some false
      | some _ => some false
    else some false

/-- Second and third condition of the loop: the instruction has opcode `opc`,
registers in operands 0 and 1 that are equal, and the immediate 0 in operand 2. -/
def isIdentityMove (opc : Opcode) (mi : MachineInstr) : Option Bool :=
  if mi.opcode = opc then
    match mi.getOperand 0 with
    | none => none
    | some (.reg a _) =>
      match mi.getOperand 1 with
      | none => none
      | some (.reg b _) =>
        if a = b then
          match mi.getOperand 2 with
          | none => none
          | some (.imm v) => some (decide (v = 0))
          | some _ => some false
        else some false
      | some _ => some false
    | some _ => some false
  else some false

/-- The `if / else if / else if` of the loop: whether the visited instruction
is removed. -/
def removes (mi : MachineInstr) (next : Option MachineInstr) : Option Bool :=
  match sameDestAsNext mi next with
  | none => none
  | some true => some true
  | some false =>
    match isIdentityMove .EADDIX mi with
    | none => none
    | some true => some true
    | some false => isIdentityMove .ADDI mi

/-- `RISCVZenoDCE::runOnMBB`: the block afterwards and the returned flag
(`Modified` is initialised to `false` and never assigned).  The successor is
taken before the visited instruction is unlinked, and only the visited
instruction is ever unlinked, so the successor is the next instruction of the
incoming block. -/
def runOnMBB : List MachineInstr → Option (List MachineInstr × Bool)
  | [] => some ([], false)
  | mi :: rest =>
    match removes mi rest.head? with
    | none => none
    | some del =>
      match runOnMBB rest with
      | none => none
      | some (out, m) => some (if del then out else mi :: out, m)

/-- An `ADDI` or `EADDIX` whose operands 0 and 1 are the same register and
whose operand 2 is the immediate 0. -/
def isSelfMoveZero (mi : MachineInstr) : Bool :=
  (decide (mi.opcode = .ADDI) || decide (mi.opcode = .EADDIX)) &&
    (match mi.getOperand 0, mi.getOperand 1, mi.getOperand 2 with
     | some (.reg a _), some (.reg b _), some (.imm v) => decide (a = b) && decide (v = 0)
     | _, _, _ => false)

/-- An `ADDI` or `EADDIX` has its three operands (destination, source,
immediate). -/
def hasMoveShape (mi : MachineInstr) : Prop :=
  (mi.opcode = .ADDI ∨ mi.opcode = .EADDIX) → 3 ≤ mi.getNumOperands

instance (mi : MachineInstr) : Decidable (hasMoveShape mi) := by
  unfold hasMoveShape; infer_instance

/-- An `ADDI` or `EADDIX` whose operands 0 and 1 are the same register and
whose operand 2 is an immediate other than 0. -/
def isSelfMoveNonZero (mi : MachineInstr) : Bool :=
  (decide (mi.opcode = .ADDI) || decide (mi.opcode = .EADDIX)) &&
    (match mi.getOperand 0, mi.getOperand 1, mi.getOperand 2 with
     | some (.reg a _), some (.reg b _), some (.imm v) => decide (a = b) && decide (v ≠ 0)
     | _, _, _ => false)

/-- The instruction is an `EADDIX` and is followed at once by an `EADDIX`
with the same register in operand 0. -/
def overwrittenByNext (mi : MachineInstr) (next : Option MachineInstr) : Bool :=
  match next with
  | none => false
  | some nx =>
    decide (mi.opcode = .EADDIX) && decide (nx.opcode = .EADDIX) &&
      (match mi.getOperand 0, nx.getOperand 0 with
       | some (.reg a _), some (.reg b _) => decide (a = b)
       | _, _ => false)

end DCE

/-! ## Pre-Emission Fixup, residual demotion (`RISCVZenoPreEmitFixup.cpp`) -/

namespace PreEmitFixup

/-- What `fixupPseudoRegs` leaves behind for one visited instruction: the
instructions inserted in front of it, the instruction itself, the returned
flag, and the operand positions for which a warning was printed. -/
structure FixupResult where
  inserted : List MachineInstr
  mi : MachineInstr
  Modified : Bool
  warnings : List Nat
deriving DecidableEq, Repr

/-- `MO.setReg(zeno::getGPRReg(MO.getReg()))` on a register operand. -/
def setGPR (L : RegLayout) : MachineOperand → Option MachineOperand
  | .reg r d => (getGPRReg L r).map fun g => .reg g d
  | mo => some mo

/-- The first part of `fixupPseudoRegs` (`if (getNumOperands() >= 2)`). -/
def fixupOp01 (L : RegLayout) (mi : MachineInstr) :
    Option (List MachineInstr × MachineInstr × Bool) :=
  if 2 ≤ mi.getNumOperands then
    match mi.getOperand 0, mi.getOperand 1 with
    | some op0, some op1 =>
      let pseudoDst := isUnifiedOp L op0
      let pseudoSrc := isUnifiedOp L op1
      let ins : Option (List MachineInstr) :=
        if (pseudoDst || pseudoSrc) && op0.isReg && op1.isReg then
          match op0.getReg.bind (getExtendedReg L), op1.getReg.bind (getExtendedReg L) with
          | some e0, some e1 => some [BuildMI .EADDIX [.reg e0 true, .reg e1 false, .imm 0]]
          | _, _ => none
        else some []
      match ins with
      | none => none
      | some ins =>
        let new0 := if pseudoDst then setGPR L op0 else some op0
        let new1 := if pseudoSrc then setGPR L op1 else some op1
        match new0, new1 with
        | some n0, some n1 =>
          some (ins, (mi.setOperand 0 n0).setOperand 1 n1, pseudoDst || pseudoSrc)
        | _, _ => none
    | _, _ => none
  else some ([], mi, false)

/-- The loop `for (auto &MO : MBBI->operands())` of `fixupPseudoRegs` from
operand position `i` on; `warn` is `!isCall() && !isReturn()`. -/
def demoteOperands (L : RegLayout) (warn : Bool) :
    Nat → List MachineOperand → Option (List MachineOperand × List Nat × Bool)
  | _, [] => some ([], [], false)
  | i, mo :: rest =>
    match demoteOperands L warn (i + 1) rest with
    | none => none
    | some (rest', ws, m) =>
      if isUnifiedOp L mo then
        match setGPR L mo with
        | none => none
        | some mo' => some (mo' :: rest', if warn then i :: ws else ws, true)
      else some (mo :: rest', ws, m)

/-- `RISCVZenoPreEmitFixup::fixupPseudoRegs`; `none` is the
`llvm_unreachable` of a register conversion. -/
def fixupPseudoRegs (L : RegLayout) (mi : MachineInstr) : Option FixupResult :=
  if mi.isDebugInstr then some { inserted := [], mi := mi, Modified := false, warnings := [] }
  else
    match fixupOp01 L mi with
    | none => none
    | some (ins, mi1, m1) =>
      match demoteOperands L (!mi1.isCall && !mi1.isReturn) 0 mi1.operands with
      | none => none
      | some (ops, ws, m2) =>
        some { inserted := ins, mi := { mi1 with operands := ops }, Modified := m1 || m2,
               warnings := ws }

/-- The third loop of `RISCVZenoPreEmitFixup::runOnMBB`: the block afterwards,
the accumulated flag, and the warnings as pairs of the visited instruction (as
it came in) and the operand position. -/
def demotionLoop (L : RegLayout) :
    List MachineInstr → Option (List MachineInstr × Bool × List (MachineInstr × Nat))
  | [] => some ([], false, [])
  | mi :: rest =>
    match fixupPseudoRegs L mi with
    | none => none
    | some r =>
      match demotionLoop L rest with
      | none => none
      | some (out, m, ws) =>
        some (r.inserted ++ r.mi :: out, r.Modified || m, r.warnings.map (fun i => (mi, i)) ++ ws)

/-- The address-class counterpart of a unified register operand; any other
operand as it is. -/
def demoteOp (L : RegLayout) : MachineOperand → MachineOperand
  | .reg r d => if isPseudoReg L r then .reg (L.X (r - L.PXE0)) d else .reg r d
  | mo => mo

/-- The instruction with every unified register operand `PXE_i` replaced by
`X_i`; a debug instruction as it is. -/
def demoteMI (L : RegLayout) (mi : MachineInstr) : MachineInstr :=
  if mi.isDebugInstr then mi else { mi with operands := mi.operands.map (demoteOp L) }

/-- An `EADDIX e_a, e_b, 0` between two extended registers, as built by
`fixupPseudoRegs`. -/
def isExtMove (L : RegLayout) (mi : MachineInstr) : Prop :=
  ∃ a b : Nat, a ≤ 31 ∧ b ≤ 31 ∧
    mi = BuildMI .EADDIX [.reg (L.E a) true, .reg (L.E b) false, .imm 0]

/-- Number of warnings the operand loop prints for an instruction that is not
a debug instruction: none for a call or return, otherwise one for each unified
register operand from position 2 on, or from position 0 on when the
instruction has fewer than two operands. -/
def expectedWarnings (L : RegLayout) (mi : MachineInstr) : Nat :=
  if mi.isCall || mi.isReturn then 0
  else if 2 ≤ mi.getNumOperands then ((mi.operands.drop 2).filter (isUnifiedOp L)).length
  else (mi.operands.filter (isUnifiedOp L)).length

/-- The register is of one of the three kinds the conversions accept. -/
def threeKinds (L : RegLayout) (r : Nat) : Bool :=
  isPseudoReg L r || isGPRReg L r || isExtendedReg L r

/-- The conversions of the first part of `fixupPseudoRegs` are defined: when
operands 0 and 1 are registers and one of them is unified, both are of one of
the three kinds. -/
def convertible (L : RegLayout) (mi : MachineInstr) : Bool :=
  match mi.getOperand 0, mi.getOperand 1 with
  | some (.reg r0 _), some (.reg r1 _) =>
    !(isPseudoReg L r0 || isPseudoReg L r1) || (threeKinds L r0 && threeKinds L r1)
  | _, _ => true

end PreEmitFixup

/-! ## Redundant-Copy Eliminator (`RISCVZenoEliminateExtraCopies.cpp`)

`runOnRegisters` does not look at blocks: it walks the virtual registers and
asks the host's register information for the definitions and uses of each.
The function is therefore the list of all its instructions, in program order,
together with what the register information holds. -/

namespace EliminateExtraCopies

/-- An operand of the function: position of the instruction, position of the
operand in it. -/
abbrev OperandRef := Nat × Nat

/-- Modelled from the spec: the function with the host's "register-definition
and register-use index queryable per virtual register" (spec section 6), which
is not part of the pass sources.  The host keeps, for every register, one
linked list of the operands that name it, definitions in front of uses;
`useList` is the order in which the register operands of the function are
linked (the list of one register is the part of `useList` that names it).
`numVirtRegs` is `MRI->getNumVirtRegs()`. -/
structure MachineFunction where
  insts : List MachineInstr
  numVirtRegs : Nat
  useList : List OperandRef
deriving DecidableEq, Repr

/-- The operand a reference points to. -/
def operandAt (mf : MachineFunction) (ref : OperandRef) : Option MachineOperand :=
  (mf.insts.get? ref.1).bind fun mi => mi.getOperand ref.2

/-- The operand at `ref` is a register operand naming `reg`, a definition or
a use according to `isDef`. -/
def names (mf : MachineFunction) (reg : Nat) (isDef : Bool) (ref : OperandRef) : Bool :=
  match operandAt mf ref with
  | some (.reg r d) => decide (r = reg) && decide (d = isDef)
  | _ => false

/-- `MRI->use_operands(Reg)`: the use operands of `reg`, in list order. -/
def use_operands (mf : MachineFunction) (reg : Nat) : List OperandRef :=
  mf.useList.filter (names mf reg false)

/-- The definition operands of `reg`, in list order. -/
def def_operands (mf : MachineFunction) (reg : Nat) : List OperandRef :=
  mf.useList.filter (names mf reg true)

/-- Successive equal entries collapsed to one (the by-instruction iterator
steps over the operands of the instruction it stands on). -/
def dedupAdjacent : List Nat → List Nat
  | [] => []
  | [a] => [a]
  | a :: b :: rest => if a = b then dedupAdjacent (b :: rest) else a :: dedupAdjacent (b :: rest)

/-- `MRI->def_instructions(Reg)`: positions of the defining instructions. -/
def def_instructions (mf : MachineFunction) (reg : Nat) : List Nat :=
  dedupAdjacent ((def_operands mf reg).map Prod.fst)

/-- Modelled from the spec: `MachineOperand::setReg` of the host on an operand
that is linked in the register index (spec section 6, "query def/use chains"),
not part of the pass sources.  An operand that already names `newReg` is left
alone.  Otherwise the operand is unlinked from the list of its old register
and linked into the list of `newReg`: a use at the back, a definition at the
front. -/
def setReg (mf : MachineFunction) (ref : OperandRef) (newReg : Nat) : MachineFunction :=
  match mf.insts.get? ref.1, operandAt mf ref with
  | some mi, some (.reg r d) =>
    if r = newReg then mf
    else
      { mf with
        insts := mf.insts.set ref.1 (mi.setOperand ref.2 (.reg newReg d)),
        useList := if d then ref :: mf.useList.erase ref else mf.useList.erase ref ++ [ref] }
  | _, _ => mf

/-- `isDefinedByOpcode(Reg, MRI, Opcode)`: `some none` is `nullptr`, `none` is
the failed assertion "Should be exactly one def of register in SSA form". -/
def isDefinedByOpcode (mf : MachineFunction) (reg : Nat) (opc : Opcode) : Option (Option Nat) :=
  match def_instructions mf reg with
  | [] => some none
  | [i] =>
    match mf.insts.get? i with
    | some mi => some (if mi.opcode = opc then some i else none)
    | none => none
  | _ => none

/-- `std::next(MRI->use_begin(Reg)) == MRI->use_end()`; `none` is the failed
assertion of incrementing the end iterator. -/
def hasOneUse (mf : MachineFunction) (reg : Nat) : Option Bool :=
  match use_operands mf reg with
  | [] => none
  | [_] => some true
  | _ => some false

/-- The loop `for (auto &UseMO : MRI->use_operands(Reg)) { UseMO.setReg(Orig);
Modified |= true; }` standing on the first operand of `chain`.  The iterator
steps by reading the link of the operand it stands on, after the body has
run: when `setReg` has moved that operand to the back of the list of `orig`,
it has no successor and the loop ends; when the operand was left in place
(`orig` is `reg`), the loop goes on with the rest of the list of `reg`. -/
def replaceUses (reg orig : Nat) : MachineFunction → List OperandRef → MachineFunction × Bool
  | mf, [] => (mf, false)
  | mf, ref :: next =>
    let mf1 := setReg mf ref orig
    if orig = reg then ((replaceUses reg orig mf1 next).1, true) else (mf1, true)

/-- The body of the second loop of `runOnRegisters` for the register `reg`:
the function afterwards and whether `Modified` was set.  `none` is a failed
assertion. -/
def roundTripVisit (mf : MachineFunction) (reg : Nat) : Option (MachineFunction × Bool) :=
  match isDefinedByOpcode mf reg .PseudoZenoCombinePtrNSID with
  | none => none
  | some none => some (mf, false)
  | some (some defMI) =>
    match operandAt mf (defMI, 1), operandAt mf (defMI, 2) with
    | some (.reg gprReg _), some erOp =>
      match isDefinedByOpcode mf gprReg .PseudoZenoGetPtr with
      | none => none
      | some none => some (mf, false)
      | some (some gprDefMI) =>
        match hasOneUse mf gprReg with
        | none => none
        | some false => some (mf, false)
        | some true =>
          match erOp with
          | .reg erReg _ =>
            match isDefinedByOpcode mf erReg .PseudoZenoGetNSID with
            | none => none
            | some none => some (mf, false)
            | some (some erDefMI) =>
              match hasOneUse mf erReg with
              | none => none
              | some false => some (mf, false)
              | some true =>
                match operandAt mf (gprDefMI, 1), operandAt mf (erDefMI, 1) with
                | some (.reg origFromGPR _), some (.reg origFromER _) =>
                  if origFromGPR = origFromER then
                    some (replaceUses reg origFromGPR mf (use_operands mf reg))
                  else some (mf, false)
                | some _, some _ => some (mf, false)
                | _, _ => none
          | _ => none
    | _, _ => none

/-- The second loop of `runOnRegisters` over the virtual registers with the
given indices. -/
def roundTripFrom : List Nat → MachineFunction → Option (MachineFunction × Bool)
  | [], mf => some (mf, false)
  | idx :: rest, mf =>
    match roundTripVisit mf (index2VirtReg idx) with
    | none => none
    | some (mf1, m1) =>
      match roundTripFrom rest mf1 with
      | none => none
      | some (mf2, m2) => some (mf2, m1 || m2)

/-- The second loop of `runOnRegisters` (round-trip scan), for
`Idx = 0 .. getNumVirtRegs() - 1`. -/
def roundTripScan (mf : MachineFunction) : Option (MachineFunction × Bool) :=
  roundTripFrom (List.range mf.numVirtRegs) mf

/-- Every register operand of the function, in program order. -/
def programOrder (insts : List MachineInstr) : List OperandRef :=
  (insts.enum.map fun p =>
    ((List.range p.2.operands.length).filter fun j =>
      match p.2.operands.get? j with
      | some (.reg _ _) => true
      | _ => false).map fun j => (p.1, j)).flatten

/-- `MRI->use_instructions(Reg)`: positions of the instructions using `reg`. -/
def use_instructions (mf : MachineFunction) (reg : Nat) : List Nat :=
  dedupAdjacent ((use_operands mf reg).map Prod.fst)

/-- The innermost loop of the first scan,
`for (MachineOperand &UseOfCopyDef : MRI->use_operands(CopyDef.getReg()))`,
standing on the first operand of `chain`; the operands visited all name
`copyDef`.  The iterator steps as in `replaceUses`: after a `setReg` that
moved the operand to the list of `orig` the loop ends. -/
def replaceVirtualUses (copyDef orig : Nat) :
    MachineFunction → List OperandRef → MachineFunction × Bool
  | mf, [] => (mf, false)
  | mf, ref :: next =>
    if isVirtual copyDef then
      let mf1 := setReg mf ref orig
      if orig = copyDef then ((replaceVirtualUses copyDef orig mf1 next).1, true) else (mf1, true)
    else replaceVirtualUses copyDef orig mf next

/-- The loop `for (MachineInstr &UseMI : MRI->use_instructions(Reg))` of the
first scan over the using instructions `uses`.  The inner loop relinks only
operands that name the destination of a `COPY`, which in SSA form is neither
`Reg` nor the register read by the `PseudoZenoGetPtr`, so the list of `Reg`
walked here stays as it was when the loop began.  `none` is a failed
assertion of `getOperand`/`getReg`. -/
def directVisitUses (orig : Nat) : MachineFunction → List Nat → Option (MachineFunction × Bool)
  | mf, [] => some (mf, false)
  | mf, useMI :: rest =>
    match mf.insts.get? useMI with
    | none => none
    | some mi =>
      if mi.opcode = .COPY then
        match mi.getOperand 0 with
        | some (.reg copyDef _) =>
          let r := replaceVirtualUses copyDef orig mf (use_operands mf copyDef)
          match directVisitUses orig r.1 rest with
          | none => none
          | some (mf2, m2) => some (mf2, r.2 || m2)
        | _ => none
      else directVisitUses orig mf rest

/-- The loop `for (MachineInstr &DefMI : MRI->def_instructions(Reg))` of the
first scan over the defining instructions `defs` of `reg`. -/
def directVisitDefs (reg : Nat) : MachineFunction → List Nat → Option (MachineFunction × Bool)
  | mf, [] => some (mf, false)
  | mf, defMI :: rest =>
    match mf.insts.get? defMI with
    | none => none
    | some mi =>
      if mi.opcode = .PseudoZenoGetPtr then
        match mi.getOperand 1 with
        | some (.reg orig _) =>
          match directVisitUses orig mf (use_instructions mf reg) with
          | none => none
          | some (mf1, m1) =>
            match directVisitDefs reg mf1 rest with
            | none => none
            | some (mf2, m2) => some (mf2, m1 || m2)
        | _ => none
      else directVisitDefs reg mf rest

/-- The body of the first loop of `runOnRegisters` for the register `reg`. -/
def directVisit (mf : MachineFunction) (reg : Nat) : Option (MachineFunction × Bool) :=
  directVisitDefs reg mf (def_instructions mf reg)

/-- The first loop of `runOnRegisters` over the virtual registers with the
given indices. -/
def directFrom : List Nat → MachineFunction → Option (MachineFunction × Bool)
  | [], mf => some (mf, false)
  | idx :: rest, mf =>
    match directVisit mf (index2VirtReg idx) with
    | none => none
    | some (mf1, m1) =>
      match directFrom rest mf1 with
      | none => none
      | some (mf2, m2) => some (mf2, m1 || m2)

/-- The first loop of `runOnRegisters` (direct-extraction scan). -/
def directScan (mf : MachineFunction) : Option (MachineFunction × Bool) :=
  directFrom (List.range mf.numVirtRegs) mf

/-- Modelled from the spec: `RISCV::PXERRegClass.contains(Reg1, Reg2)` of the
generated register classes, not part of the pass sources; the pair register
class (spec section 3, "physical - unified/placeholder (indices 0..31)")
holds the thirty-two unified registers, and the host answers `false` when one
of the registers is not physical. -/
def PXERRegClass_contains (L : RegLayout) (r1 r2 : Nat) : Bool :=
  !isVirtual r1 && !isVirtual r2 && isPseudoReg L r1 && isPseudoReg L r2

/-- The loop `for (auto &Use : MRI->use_operands(Reg))` of the third scan,
standing on the first operand of `chain`; the operands visited all name
`reg`.  The iterator steps as in `replaceUses`. -/
def shortenUses (L : RegLayout) (reg src : Nat) :
    MachineFunction → List OperandRef → MachineFunction × Bool
  | mf, [] => (mf, false)
  | mf, ref :: next =>
    if isVirtual reg && isVirtual src && !PXERRegClass_contains L reg src &&
        decide ((mf.insts.get? ref.1).map (fun mi => mi.opcode) ≠ some .COPY) then
      let mf1 := setReg mf ref src
      if src = reg then ((shortenUses L reg src mf1 next).1, true) else (mf1, true)
    else shortenUses L reg src mf next

/-- The body of the third loop of `runOnRegisters` for the register `reg`. -/
def doubleCopyVisit (L : RegLayout) (mf : MachineFunction) (reg : Nat) :
    Option (MachineFunction × Bool) :=
  match isDefinedByOpcode mf reg .COPY with
  | none => none
  | some none => some (mf, false)
  | some (some defMI) =>
    match mf.insts.get? defMI with
    | none => none
    | some mi =>
      if mi.getNumOperands < 2 then some (mf, false)
      else
        match mi.getOperand 1 with
        | some (.reg src _) => some (shortenUses L reg src mf (use_operands mf reg))
        | _ => some (mf, false)

/-- The third loop of `runOnRegisters` over the virtual registers with the
given indices. -/
def doubleCopyFrom (L : RegLayout) : List Nat → MachineFunction → Option (MachineFunction × Bool)
  | [], mf => some (mf, false)
  | idx :: rest, mf =>
    match doubleCopyVisit L mf (index2VirtReg idx) with
    | none => none
    | some (mf1, m1) =>
      match doubleCopyFrom L rest mf1 with
      | none => none
      | some (mf2, m2) => some (mf2, m1 || m2)

/-- The third loop of `runOnRegisters` (double-copy scan). -/
def doubleCopyScan (L : RegLayout) (mf : MachineFunction) : Option (MachineFunction × Bool) :=
  doubleCopyFrom L (List.range mf.numVirtRegs) mf

/-- `RISCVZenoEliminateExtraCopies::runOnRegisters`: the three scans in turn. -/
def runOnRegisters (L : RegLayout) (mf : MachineFunction) : Option (MachineFunction × Bool) :=
  match directScan mf with
  | none => none
  | some (mf1, m1) =>
    match roundTripScan mf1 with
    | none => none
    | some (mf2, m2) =>
      match doubleCopyScan L mf2 with
      | none => none
      | some (mf3, m3) => some (mf3, m1 || m2 || m3)

end EliminateExtraCopies

/-! ## Register-Kind Normalizer (`RISCVZenoDAGFixup.cpp`) -/

namespace DAGFixup

/-- `RISCVZenoDAGFixup::fixupPseudoPointerInst`: the instruction afterwards
and the returned flag; `none` is a failed assertion or the `llvm_unreachable`
of `getPseudoReg`. -/
def fixupPseudoPointerInst (L : RegLayout) (mi : MachineInstr) : Option (MachineInstr × Bool) :=
  if mi.opcode = .PseudoELP ∨ mi.opcode = .PseudoESP then
    match mi.getOperand 0 with
    | none => none
    | some (.reg r d) =>
      if isPseudoReg L r then some (mi, false)
      else
        match getPseudoReg L r with
        | none => none
        | some p => some (mi.setOperand 0 (.reg p d), true)
    | some _ => some (mi, false)
  else none

/-- `RISCVZenoDAGFixup::runOnMI`: the value of `fixupPseudoPointerInst` goes
into the local `Modified`, and the function ends with `return false`. -/
def runOnMI (L : RegLayout) (mi : MachineInstr) : Option (MachineInstr × Bool) :=
  if mi.opcode = .PseudoELP ∨ mi.opcode = .PseudoESP then
    match fixupPseudoPointerInst L mi with
    | none => none
    | some (mi1, _) => some (mi1, false)
  else some (mi, false)

/-- `RISCVZenoDAGFixup::runOnMBB`. -/
def runOnMBB (L : RegLayout) : List MachineInstr → Option (List MachineInstr × Bool)
  | [] => some ([], false)
  | mi :: rest =>
    match runOnMI L mi with
    | none => none
    | some (mi1, m) =>
      match runOnMBB L rest with
      | none => none
      | some (out, m') => some (mi1 :: out, m || m')

/-- `RISCVZenoDAGFixup::runOnMachineFunction` on the blocks of the function. -/
def runOnMachineFunction (L : RegLayout) :
    List (List MachineInstr) → Option (List (List MachineInstr) × Bool)
  | [] => some ([], false)
  | mbb :: rest =>
    match runOnMBB L mbb with
    | none => none
    | some (mbb1, m) =>
      match runOnMachineFunction L rest with
      | none => none
      | some (out, m') => some (mbb1 :: out, m || m')

end DAGFixup

/-! ## Pre-Emission Fixup, frame fixup and metadata-management lowering

`TII->copyPhysReg` belongs to the host's instruction information, which is
not part of the pass sources: the instructions it puts in front of the visited
one are a parameter `copy dst src` (`none` when it cannot copy). -/

namespace PreEmitFixup

/-- `RISCVZenoPreEmitFixup::fixupFrame` on an instruction carrying
`FrameSetup` or `FrameDestroy`: the instructions standing in its place
afterwards and the returned flag; `none` is a failed `getReg` assertion or
the `llvm_unreachable` of a conversion. -/
def fixupFrame (L : RegLayout) (mi : MachineInstr) : Option (List MachineInstr × Bool) :=
  if mi.opcode = .ADDI then
    match mi.getOperand 0 with
    | some (.reg dst _) =>
      match mi.getOperand 1 with
      | some (.reg src _) =>
        if dst = L.X 8 ∧ src = L.X 2 then
          match getExtendedReg L dst, getExtendedReg L src with
          | some ed, some es =>
            some ([mi, { BuildMI .EADDIX [.reg ed true, .reg es false, .imm 0] with
                         FrameSetup := true }], true)
          | _, _ => none
        else some ([mi], false)
      | _ => none
    | _ => none
  else some ([mi], false)

/-- The first loop of `RISCVZenoPreEmitFixup::runOnMBB`.  The new instruction
goes between the visited one and its successor, which was taken before, so it
is not visited. -/
def frameLoop (L : RegLayout) : List MachineInstr → Option (List MachineInstr × Bool)
  | [] => some ([], false)
  | mi :: rest =>
    match (if mi.FrameSetup || mi.FrameDestroy then fixupFrame L mi else some ([mi], false)) with
    | none => none
    | some (out, m) =>
      match frameLoop L rest with
      | none => none
      | some (out', m') => some (out ++ out', m || m')

/-- The lowering of `PseudoZenoSetPtr` in `fixupPseudoNSManagement`; `done`
is the block in front of the visited instruction as it stands, its last
instruction is `PMBBI`. -/
def lowerSetPtr (L : RegLayout) (copy : Nat → Nat → Option (List MachineInstr))
    (done : List MachineInstr) (mi : MachineInstr) : Option (List MachineInstr × Bool) :=
  match mi.getOperand 0, mi.getOperand 1 with
  | some (.reg r0 _), some (.reg r1 _) =>
    if r0 = r1 then
      match mi.getOperand 2 with
      | some (.reg r2 _) =>
        match getGPRReg L r2 with
        | none => none
        | some newPtrReg =>
          match done.getLast? with
          | none => none
          | some prev =>
            match prev.getOperand 0 with
            | some (.reg pr pd) =>
              let viaCopy : Option (List MachineInstr × Bool) :=
                match copy r0 newPtrReg with
                | none => none
                | some c => some (done ++ c, true)
              if pd then
                match getGPRReg L pr with
                | none => none
                | some g =>
                  if g = newPtrReg then
                    match getGPRReg L r0 with
                    | none => none
                    | some n => some (done.dropLast ++ [prev.setOperand 0 (.reg n pd)], true)
                  else viaCopy
              else viaCopy
            | _ => none
      | _ => none
    else none
  | _, _ => none

/-- The lowering of `PseudoZenoCombinePtrNSID` in `fixupPseudoNSManagement`. -/
def lowerCombine (L : RegLayout) (copy : Nat → Nat → Option (List MachineInstr))
    (done : List MachineInstr) (mi : MachineInstr) : Option (List MachineInstr × Bool) :=
  match mi.getOperand 0 with
  | some (.reg r0 _) =>
    match getGPRReg L r0, getExtendedReg L r0 with
    | some destGPR, some destEXT =>
      match mi.getOperand 1, mi.getOperand 2 with
      | some (.reg r1 _), some (.reg r2 _) =>
        let srcGPR := if isPseudoReg L r1 then getGPRReg L r1 else some r1
        let srcEXT := if isPseudoReg L r2 then getExtendedReg L r2 else some r2
        match srcGPR, srcEXT with
        | some sg, some se =>
          match copy destGPR sg, copy destEXT se with
          | some c1, some c2 => some (done ++ c1 ++ c2, true)
          | _, _ => none
        | _, _ => none
      | _, _ => none
    | _, _ => none
  | _ => none

/-- `RISCVZenoPreEmitFixup::fixupPseudoNSManagement` on the visited
instruction `mi`, with `done` the block in front of it as it stands: the block
up to and including the place of `mi` afterwards, and the returned flag.
`none` is a failed assertion or `llvm_unreachable`. -/
def fixupPseudoNSManagement (L : RegLayout) (copy : Nat → Nat → Option (List MachineInstr))
    (done : List MachineInstr) (mi : MachineInstr) : Option (List MachineInstr × Bool) :=
  match mi.opcode with
  | .PseudoZenoGetPtr =>
    match mi.getOperand 0, mi.getOperand 1 with
    | some (.reg r0 _), some (.reg r1 _) =>
      match getGPRReg L r0, getGPRReg L r1 with
      | some g0, some g1 =>
        some (done ++ [BuildMI .ADDI [.reg g0 true, .reg g1 false, .imm 0]], true)
      | _, _ => none
    | _, _ => none
  | .PseudoZenoSetPtr => lowerSetPtr L copy done mi
  | .PseudoZenoGetNSID =>
    match mi.getOperand 0, mi.getOperand 1 with
    | some (.reg r0 _), some (.reg r1 _) =>
      match copy r0 r1 with
      | none => none
      | some c => some (done ++ c, true)
    | _, _ => none
  | .PseudoZenoSetNSID =>
    match mi.getOperand 0, mi.getOperand 1 with
    | some (.reg r0 _), some (.reg r1 _) =>
      if r0 = r1 then
        match mi.getOperand 2 with
        | some (.reg r2 _) =>
          match copy r0 r2 with
          | none => none
          | some c => some (done ++ c, true)
        | _ => none
      else none
    | _, _ => none
  | .PseudoZenoCombinePtrNSID => lowerCombine L copy done mi
  | _ => some (done ++ [mi], false)

/-- The second loop of `RISCVZenoPreEmitFixup::runOnMBB`: `done` is the part
of the block already visited, as it stands. -/
def nsLoop (L : RegLayout) (copy : Nat → Nat → Option (List MachineInstr)) :
    List MachineInstr → List MachineInstr → Option (List MachineInstr × Bool)
  | done, [] => some (done, false)
  | done, mi :: rest =>
    match fixupPseudoNSManagement L copy done mi with
    | none => none
    | some (done1, m) =>
      match nsLoop L copy done1 rest with
      | none => none
      | some (out, m') => some (out, m || m')

/-- `RISCVZenoPreEmitFixup::runOnMBB`: the three loops in turn; the block
afterwards, the returned flag and the warnings. -/
def runOnMBB (L : RegLayout) (copy : Nat → Nat → Option (List MachineInstr))
    (mbb : List MachineInstr) : Option (List MachineInstr × Bool × List (MachineInstr × Nat)) :=
  match frameLoop L mbb with
  | none => none
  | some (b1, m1) =>
    match nsLoop L copy [] b1 with
    | none => none
    | some (b2, m2) =>
      match demotionLoop L b2 with
      | none => none
      | some (b3, m3, ws) => some (b3, m1 || m2 || m3, ws)

/-- A stand-in for `copyPhysReg` used to evaluate the definitions: `ADDI dst,
src, 0` into an address register, `EADDIX dst, src, 0` into an extended
register (the instructions the commented-out `BuildMI` calls of
`fixupPseudoNSManagement` spell out), no copy otherwise. -/
def sampleCopy (L : RegLayout) (dst src : Nat) : Option (List MachineInstr) :=
  if isGPRReg L dst then some [BuildMI .ADDI [.reg dst true, .reg src false, .imm 0]]
  else if isExtendedReg L dst then some [BuildMI .EADDIX [.reg dst true, .reg src false, .imm 0]]
  else none

end PreEmitFixup

/-! ## Pseudo-Op Combiner (`RISCVZenoFoldPseudo.cpp`) -/

namespace FoldPseudo

/-- `RISCVZenoFoldPseudo::runOnMI`: `Modified` is `false` and nothing is
touched. -/
def runOnMI (mi : MachineInstr) : MachineInstr × Bool := (mi, false)

/-- `RISCVZenoFoldPseudo::runOnMBB`. -/
def runOnMBB : List MachineInstr → List MachineInstr × Bool
  | [] => ([], false)
  | mi :: rest => ((runOnMI mi).1 :: (runOnMBB rest).1, (runOnMI mi).2 || (runOnMBB rest).2)

/-- `RISCVZenoFoldPseudo::runOnMachineFunction` on the blocks of the function. -/
def runOnMachineFunction : List (List MachineInstr) → List (List MachineInstr) × Bool
  | [] => ([], false)
  | mbb :: rest =>
    ((runOnMBB mbb).1 :: (runOnMachineFunction rest).1,
      (runOnMBB mbb).2 || (runOnMachineFunction rest).2)

end FoldPseudo

/-! ## Whole-function entry points -/

namespace SelectExtReg

/-- `RISCVZenoSelectExtReg::runOnMachineFunction` on the blocks of the function. -/
def runOnMachineFunction (L : RegLayout) :
    List (List MachineInstr) → Option (List (List MachineInstr) × Bool)
  | [] => some ([], false)
  | mbb :: rest =>
    match runOnMBB L mbb with
    | none => none
    | some (mbb1, m) =>
      match runOnMachineFunction L rest with
      | none => none
      | some (out, m') => some (mbb1 :: out, m || m')

end SelectExtReg

namespace DCE

/-- `RISCVZenoDCE::runOnMachineFunction` on the blocks of the function. -/
def runOnMachineFunction : List (List MachineInstr) → Option (List (List MachineInstr) × Bool)
  | [] => some ([], false)
  | mbb :: rest =>
    match runOnMBB mbb with
    | none => none
    | some (mbb1, m) =>
      match runOnMachineFunction rest with
      | none => none
      | some (out, m') => some (mbb1 :: out, m || m')

end DCE

namespace EliminateExtraCopies

/-- Modelled from the spec: `MRI->isSSA()` of the host, not part of the pass
sources; "SSA form: representation invariant that each virtual register has
exactly one defining instruction" (glossary).  A virtual register without a
defining instruction is accepted, as `isDefinedByOpcode` accepts it ("should
be only one DefMI or zero DefMI"): the function is not in SSA form when some
virtual register has more than one defining instruction. -/
def isSSA (mf : MachineFunction) : Bool :=
  (List.range mf.numVirtRegs).all fun idx =>
    decide ((def_instructions mf (index2VirtReg idx)).length ≤ 1)

/-- `RISCVZenoEliminateExtraCopies::runOnMI`: nothing is done. -/
def runOnMI (mi : MachineInstr) : MachineInstr × Bool := (mi, false)

/-- `RISCVZenoEliminateExtraCopies::runOnMachineFunction`: the assertion
`MRI->isSSA()`, then `runOnRegisters`, then the walk over the blocks, which
does nothing. -/
def runOnMachineFunction (L : RegLayout) (mf : MachineFunction) :
    Option (MachineFunction × Bool) :=
  if isSSA mf then
    match runOnRegisters L mf with
    | none => none
    | some (mf1, m) =>
      some ({ mf1 with insts := mf1.insts.map fun mi => (runOnMI mi).1 },
        m || mf1.insts.any fun mi => (runOnMI mi).2)
  else none

end EliminateExtraCopies

namespace SelectExtReg

/-- A placeholder load/store with four operands has the operands the selector
reads: an immediate in operand 3 and, unless that immediate is -1, a register
in operand 1. -/
def slotReady (mi : MachineInstr) : Prop :=
  isPseudoExtInst mi = true → mi.getNumOperands = 4 →
    ∃ k, mi.getOperand 3 = some (.imm k) ∧
      (k ≠ -1 → ∃ r f, mi.getOperand 1 = some (.reg r f))

end SelectExtReg

namespace DCE

/-- No instruction of the block would be removed by the loop of
`RISCVZenoDCE::runOnMBB`. -/
def settled : List MachineInstr → Prop
  | [] => True
  | mi :: rest => removes mi rest.head? = some false ∧ settled rest

end DCE

namespace EliminateExtraCopies

end EliminateExtraCopies

namespace EliminateExtraCopies

end EliminateExtraCopies

/-! ## Sample inputs -/

/-- A pointer load `PseudoELP pxe5, 16(pxe6)` with its slot resolved. -/
def samplePseudoELP : MachineInstr :=
  { opcode := .PseudoELP,
    operands := [.reg (sampleLayout.PXE 5) true, .reg (sampleLayout.PXE 6) false, .imm 16, .imm (-1)] }

/-- A load whose base is still a frame index: `PseudoELD x10, %stack.0, 0`. -/
def frameIndexLoad : MachineInstr :=
  { opcode := .PseudoELD, operands := [.reg (sampleLayout.X 10) true, .other 0, .imm 0] }

/-- The split-and-recombine pattern with two consumers of the recombined
pair:
`%0 = COPY $pxe10; %1 = PseudoZenoGetNSID %0; %2 = PseudoZenoGetPtr %0;
%3 = PseudoZenoCombinePtrNSID %2, %1; %4 = PseudoELBU %3, 0, -1;
%5 = PseudoELBU %3, 8, -1`. -/
def roundTripTwoUses : EliminateExtraCopies.MachineFunction :=
  let insts : List MachineInstr :=
    [ { opcode := .COPY, operands := [.reg (index2VirtReg 0) true, .reg (sampleLayout.PXE 10) false] },
      { opcode := .PseudoZenoGetNSID,
        operands := [.reg (index2VirtReg 1) true, .reg (index2VirtReg 0) false] },
      { opcode := .PseudoZenoGetPtr,
        operands := [.reg (index2VirtReg 2) true, .reg (index2VirtReg 0) false] },
      { opcode := .PseudoZenoCombinePtrNSID,
        operands := [.reg (index2VirtReg 3) true, .reg (index2VirtReg 2) false,
          .reg (index2VirtReg 1) false] },
      { opcode := .PseudoELBU,
        operands := [.reg (index2VirtReg 4) true, .reg (index2VirtReg 3) false, .imm 0, .imm (-1)] },
      { opcode := .PseudoELBU,
        operands := [.reg (index2VirtReg 5) true, .reg (index2VirtReg 3) false, .imm 8, .imm (-1)] } ]
  { insts := insts, numVirtRegs := 6, useList := EliminateExtraCopies.programOrder insts }

/-- A load asking for extended slot 9 while its source is register 6:
`PseudoELD x10, 0(pxe6), slot 9`. -/
def sampleSlotLoad : MachineInstr :=
  { opcode := .PseudoELD,
    operands := [.reg (sampleLayout.X 10) true, .reg (sampleLayout.PXE 6) false, .imm 0, .imm 9] }

/-- A load asking for the extended slot of its own source register:
`PseudoELD x10, 0(pxe7), slot 7`. -/
def sampleSameSlotLoad : MachineInstr :=
  { opcode := .PseudoELD,
    operands := [.reg (sampleLayout.X 10) true, .reg (sampleLayout.PXE 7) false, .imm 0, .imm 7] }

/-- Two moves into `e1`, the second a move of `e1` onto itself:
`EADDIX e1, e2, 0; EADDIX e1, e1, 0`. -/
def sampleOverwrittenThenIdentity : List MachineInstr :=
  [ BuildMI .EADDIX [.reg (sampleLayout.E 1) true, .reg (sampleLayout.E 2) false, .imm 0],
    BuildMI .EADDIX [.reg (sampleLayout.E 1) true, .reg (sampleLayout.E 1) false, .imm 0] ]

/-- Two moves into `e1`: `EADDIX e1, e2, 0; EADDIX e1, e3, 0`. -/
def sampleOverwritten : List MachineInstr :=
  [ BuildMI .EADDIX [.reg (sampleLayout.E 1) true, .reg (sampleLayout.E 2) false, .imm 0],
    BuildMI .EADDIX [.reg (sampleLayout.E 1) true, .reg (sampleLayout.E 3) false, .imm 0] ]

/-- A block with identity moves among other instructions:
`ADDI x5, x5, 0; ADDI x5, x5, 4; EADDIX e1, e1, 0; EADDIX e1, e2, 0`. -/
def sampleIdentityMoves : List MachineInstr :=
  [ BuildMI .ADDI [.reg (sampleLayout.X 5) true, .reg (sampleLayout.X 5) false, .imm 0],
    BuildMI .ADDI [.reg (sampleLayout.X 5) true, .reg (sampleLayout.X 5) false, .imm 4],
    BuildMI .EADDIX [.reg (sampleLayout.E 1) true, .reg (sampleLayout.E 1) false, .imm 0],
    BuildMI .EADDIX [.reg (sampleLayout.E 1) true, .reg (sampleLayout.E 2) false, .imm 0] ]

/-- A debug instruction naming a unified register: `DBG_VALUE $pxe10, 0`. -/
def sampleDebugValue : MachineInstr :=
  { opcode := .other 0, operands := [.reg (sampleLayout.PXE 10) false, .imm 0],
    isDebugInstr := true }

/-- An arithmetic instruction with a unified destination: `ADD pxe1, x2, x3`. -/
def sampleUnifiedDest : MachineInstr :=
  { opcode := .other 1,
    operands := [.reg (sampleLayout.PXE 1) true, .reg (sampleLayout.X 2) false,
      .reg (sampleLayout.X 3) false] }

/-- An instruction with unified registers in operands 2 and 3:
`OP x1, x2, pxe3, pxe4`. -/
def sampleTwoUnifiedSources : MachineInstr :=
  { opcode := .other 2,
    operands := [.reg (sampleLayout.X 1) true, .reg (sampleLayout.X 2) false,
      .reg (sampleLayout.PXE 3) false, .reg (sampleLayout.PXE 4) false] }

/-- A move of `e1` onto itself with offset 4, overwritten at once:
`EADDIX e1, e1, 4; EADDIX e1, e2, 0`. -/
def sampleNonZeroSelfMoveOverwritten : List MachineInstr :=
  [ BuildMI .EADDIX [.reg (sampleLayout.E 1) true, .reg (sampleLayout.E 1) false, .imm 4],
    BuildMI .EADDIX [.reg (sampleLayout.E 1) true, .reg (sampleLayout.E 2) false, .imm 0] ]

/-- A pointer load whose destination came out of instruction selection as an
address register: `PseudoELP x5, 0(x6)`. -/
def samplePointerLoadGPR : MachineInstr :=
  { opcode := .PseudoELP,
    operands := [.reg (sampleLayout.X 5) true, .reg (sampleLayout.X 6) false, .imm 0] }

/-- An extracted address copied back into a pair register that has two
consumers:
`%0 = COPY $pxe10; %1 = PseudoZenoGetPtr %0; %2 = COPY %1;
%3 = PseudoELBU %2, 0, -1; %4 = PseudoELBU %2, 8, -1`. -/
def directCopyTwoUses : EliminateExtraCopies.MachineFunction :=
  let insts : List MachineInstr :=
    [ { opcode := .COPY, operands := [.reg (index2VirtReg 0) true, .reg (sampleLayout.PXE 10) false] },
      { opcode := .PseudoZenoGetPtr,
        operands := [.reg (index2VirtReg 1) true, .reg (index2VirtReg 0) false] },
      { opcode := .COPY, operands := [.reg (index2VirtReg 2) true, .reg (index2VirtReg 1) false] },
      { opcode := .PseudoELBU,
        operands := [.reg (index2VirtReg 3) true, .reg (index2VirtReg 2) false, .imm 0, .imm (-1)] },
      { opcode := .PseudoELBU,
        operands := [.reg (index2VirtReg 4) true, .reg (index2VirtReg 2) false, .imm 8, .imm (-1)] } ]
  { insts := insts, numVirtRegs := 5, useList := EliminateExtraCopies.programOrder insts }

/-- A copy of a virtual register with a copy and two other instructions
reading it:
`%0 = COPY $x10; %1 = COPY %0; %2 = COPY %1; %3 = ADDI %1, 1; %4 = ADDI %1, 2`. -/
def doubleCopyTwoUses : EliminateExtraCopies.MachineFunction :=
  let insts : List MachineInstr :=
    [ { opcode := .COPY, operands := [.reg (index2VirtReg 0) true, .reg (sampleLayout.X 10) false] },
      { opcode := .COPY, operands := [.reg (index2VirtReg 1) true, .reg (index2VirtReg 0) false] },
      { opcode := .COPY, operands := [.reg (index2VirtReg 2) true, .reg (index2VirtReg 1) false] },
      { opcode := .ADDI,
        operands := [.reg (index2VirtReg 3) true, .reg (index2VirtReg 1) false, .imm 1] },
      { opcode := .ADDI,
        operands := [.reg (index2VirtReg 4) true, .reg (index2VirtReg 1) false, .imm 2] } ]
  { insts := insts, numVirtRegs := 5, useList := EliminateExtraCopies.programOrder insts }

/-- A word load with a unified base: `PseudoELW x10, 4(pxe6)`, slot resolved. -/
def samplePseudoELW : MachineInstr :=
  { opcode := .PseudoELW,
    operands := [.reg (sampleLayout.X 10) true, .reg (sampleLayout.PXE 6) false, .imm 4, .imm (-1)] }

/-- A load whose base is an extended register: `PseudoELD x10, 0(e6)`. -/
def sampleLoadFromExtended : MachineInstr :=
  { opcode := .PseudoELD,
    operands := [.reg (sampleLayout.X 10) true, .reg (sampleLayout.E 6) false, .imm 0] }

/-- A placeholder move with a unified source: `PseudoEADDIE e5, pxe6, 0`. -/
def sampleMoveFromUnified : MachineInstr :=
  { opcode := .PseudoEADDIE,
    operands := [.reg (sampleLayout.E 5) true, .reg (sampleLayout.PXE 6) false, .imm 0] }

/-- A frame-pointer set-up tagged as teardown: `ADDI x8, x2, 16` with
`FrameDestroy`. -/
def sampleFrameDestroyAddi : MachineInstr :=
  { opcode := .ADDI,
    operands := [.reg (sampleLayout.X 8) true, .reg (sampleLayout.X 2) false, .imm 16],
    FrameDestroy := true }

/-- A definition of `x11`: `ADDI x11, x10, 2`. -/
def sampleDefX11 : MachineInstr :=
  BuildMI .ADDI [.reg (sampleLayout.X 11) true, .reg (sampleLayout.X 10) false, .imm 2]

/-- A combine reading `x11`: `PseudoZenoCombinePtrNSID pxe12, x11, e13`. -/
def sampleCombineX11 : MachineInstr :=
  { opcode := .PseudoZenoCombinePtrNSID,
    operands := [.reg (sampleLayout.PXE 12) true, .reg (sampleLayout.X 11) false,
      .reg (sampleLayout.E 13) false] }

/-- A definition of `x11` followed by a combine reading it:
`ADDI x11, x10, 2; PseudoZenoCombinePtrNSID pxe12, x11, e13`. -/
def sampleCombineAfterDef : List MachineInstr := [sampleDefX11, sampleCombineX11]

/-- A write of the namespace component whose operands 0 and 1 differ:
`PseudoZenoSetNSID pxe5, pxe6, e7`. -/
def sampleSetNSIDMismatch : MachineInstr :=
  { opcode := .PseudoZenoSetNSID,
    operands := [.reg (sampleLayout.PXE 5) true, .reg (sampleLayout.PXE 6) false,
      .reg (sampleLayout.E 7) false] }

/-- An instruction with a register of none of the three kinds in operand 0
and a unified register in operand 1 (register 1000 stands for a
floating-point register): `FOP f0, pxe1`. -/
def sampleFloatDest : MachineInstr :=
  { opcode := .other 3, operands := [.reg 1000 true, .reg (sampleLayout.PXE 1) false] }

/-- A function in which `%0` is defined twice:
`%0 = COPY $x10; %0 = COPY $x11`. -/
def sampleNotSSA : EliminateExtraCopies.MachineFunction :=
  let insts : List MachineInstr :=
    [ { opcode := .COPY, operands := [.reg (index2VirtReg 0) true, .reg (sampleLayout.X 10) false] },
      { opcode := .COPY, operands := [.reg (index2VirtReg 0) true, .reg (sampleLayout.X 11) false] } ]
  { insts := insts, numVirtRegs := 1, useList := EliminateExtraCopies.programOrder insts }

/-- A load whose offset operand is a symbol, not an immediate yet:
`PseudoELD x10, %lo(g)(x6)`. -/
def sampleLoadSymbolOffset : MachineInstr :=
  { opcode := .PseudoELD,
    operands := [.reg (sampleLayout.X 10) true, .reg (sampleLayout.X 6) false, .other 1] }

/-- A return whose implicit operands are a pair register and a floating-point
register (register 1010 stands for `f10`):
`RET implicit $pxe10, implicit $f10`. -/
def sampleReturnPairAndFloat : MachineInstr :=
  { opcode := .other 6,
    operands := [.reg (sampleLayout.PXE 10) false, .reg 1010 false],
    isReturn := true }

/-- A move into `e1` followed by a move that reads `e1` and writes it again:
`EADDIX e1, e2, 0; EADDIX e1, e1, 4`. -/
def sampleOverwrittenButRead : List MachineInstr :=
  [ BuildMI .EADDIX [.reg (sampleLayout.E 1) true, .reg (sampleLayout.E 2) false, .imm 0],
    BuildMI .EADDIX [.reg (sampleLayout.E 1) true, .reg (sampleLayout.E 1) false, .imm 4] ]

/-- An extracted address copied into an address-class virtual register and
used in an addition:
`%0:gpr = PseudoZenoGetPtr $pxe10; %1:gpr = COPY %0; %2:gpr = ADDI %1, 4`. -/
def sampleCopyToAddressClass : EliminateExtraCopies.MachineFunction :=
  let insts : List MachineInstr :=
    [ { opcode := .PseudoZenoGetPtr,
        operands := [.reg (index2VirtReg 0) true, .reg (sampleLayout.PXE 10) false] },
      { opcode := .COPY, operands := [.reg (index2VirtReg 1) true, .reg (index2VirtReg 0) false] },
      { opcode := .ADDI,
        operands := [.reg (index2VirtReg 2) true, .reg (index2VirtReg 1) false, .imm 4] } ]
  { insts := insts, numVirtRegs := 3, useList := EliminateExtraCopies.programOrder insts }

/-- A floating-point load (register 1000 stands for a floating-point
register): `FLW f0, 0(x10)`. -/
def sampleFloatLoad : MachineInstr :=
  { opcode := .other 4, operands := [.reg 1000 true, .reg (sampleLayout.X 10) false, .imm 0] }

/-- A write of the address component: `PseudoZenoSetPtr pxe10, pxe10, x11`. -/
def sampleSetPtr : MachineInstr :=
  { opcode := .PseudoZenoSetPtr,
    operands := [.reg (sampleLayout.PXE 10) true, .reg (sampleLayout.PXE 10) false,
      .reg (sampleLayout.X 11) false] }

/-- A pointer load whose destination and base have the same index:
`PseudoELP pxe5, 16(pxe5)` with its slot resolved. -/
def samplePseudoELPSameIndex : MachineInstr :=
  { opcode := .PseudoELP,
    operands := [.reg (sampleLayout.PXE 5) true, .reg (sampleLayout.PXE 5) false, .imm 16, .imm (-1)] }

/-- Two moves into `e1` with an identity move between them:
`EADDIX e1, e2, 0; ADDI x5, x5, 0; EADDIX e1, e3, 0`. -/
def sampleIdentityBetweenMoves : List MachineInstr :=
  [ BuildMI .EADDIX [.reg (sampleLayout.E 1) true, .reg (sampleLayout.E 2) false, .imm 0],
    BuildMI .ADDI [.reg (sampleLayout.X 5) true, .reg (sampleLayout.X 5) false, .imm 0],
    BuildMI .EADDIX [.reg (sampleLayout.E 1) true, .reg (sampleLayout.E 3) false, .imm 0] ]

/-- Three moves into `e1` and an addition:
`EADDIX e1, e2, 0; EADDIX e1, e3, 0; EADDIX e1, e4, 0; ADDI x5, x6, 1`. -/
def sampleThreeMoves : List MachineInstr :=
  [ BuildMI .EADDIX [.reg (sampleLayout.E 1) true, .reg (sampleLayout.E 2) false, .imm 0],
    BuildMI .EADDIX [.reg (sampleLayout.E 1) true, .reg (sampleLayout.E 3) false, .imm 0],
    BuildMI .EADDIX [.reg (sampleLayout.E 1) true, .reg (sampleLayout.E 4) false, .imm 0],
    BuildMI .ADDI [.reg (sampleLayout.X 5) true, .reg (sampleLayout.X 6) false, .imm 1] ]

section Helpers

theorem subU32_add (b i : Nat) (hb : b + i < 4294967296) : subU32 (b + i) b = i := by
  unfold subU32; omega

theorem addU32_small (a b : Nat) (h : a + b < 4294967296) : addU32 a b = a + b := by
  unfold addU32; omega

theorem wrapI64_of_isInt64 (v : Int) (h : isInt64 v) : wrapI64 v = v := by
  unfold isInt64 at h; unfold wrapI64; omega

theorem getGPRReg_of_kind (L : RegLayout) (hL : L.WF) (k : RegKind) (i : Nat) (hi : i ≤ 31) :
    getGPRReg L (k.reg L i) = some (L.X i) := by
  unfold RegLayout.WF at hL
  cases k <;>
    simp only [RegKind.reg, getGPRReg, isPseudoReg, isGPRReg, isExtendedReg, RegLayout.X,
      RegLayout.E, RegLayout.PXE, subU32, addU32] <;>
    split_ifs <;> simp_all <;> omega

theorem getExtendedReg_of_kind (L : RegLayout) (hL : L.WF) (k : RegKind) (i : Nat) (hi : i ≤ 31) :
    getExtendedReg L (k.reg L i) = some (L.E i) := by
  unfold RegLayout.WF at hL
  cases k <;>
    simp only [RegKind.reg, getExtendedReg, isPseudoReg, isGPRReg, isExtendedReg, RegLayout.X,
      RegLayout.E, RegLayout.PXE, subU32, addU32] <;>
    split_ifs <;> simp_all <;> omega

theorem getPseudoReg_of_kind (L : RegLayout) (hL : L.WF) (k : RegKind) (i : Nat) (hi : i ≤ 31) :
    getPseudoReg L (k.reg L i) = some (L.PXE i) := by
  unfold RegLayout.WF at hL
  cases k <;>
    simp only [RegKind.reg, getPseudoReg, isPseudoReg, isGPRReg, isExtendedReg, RegLayout.X,
      RegLayout.E, RegLayout.PXE, subU32, addU32] <;>
    split_ifs <;> simp_all <;> omega

theorem conv_of_kind (L : RegLayout) (hL : L.WF) (k k2 : RegKind) (i : Nat) (hi : i ≤ 31) :
    k2.conv L (k.reg L i) = some (k2.reg L i) := by
  cases k2
  · exact getPseudoReg_of_kind L hL k i hi
  · exact getGPRReg_of_kind L hL k i hi
  · exact getExtendedReg_of_kind L hL k i hi

namespace ExpandPseudo

theorem expandMBB_append (L : RegLayout) (pre post : List MachineInstr) :
    expandMBB L (pre ++ post) =
      (expandMBB L pre).bind fun p =>
        (expandMBB L post).map fun q => (p.1 ++ q.1, p.2 || q.2) := by
  induction pre with
  | nil =>
    cases h : expandMBB L post <;> simp [expandMBB, h]
  | cons mi pre ih =>
    rw [List.cons_append]
    simp only [expandMBB]
    cases h1 : expandMI L mi with
    | none => simp
    | some r1 =>
      rw [ih]
      cases h2 : expandMBB L pre with
      | none => simp
      | some r2 =>
        cases h3 : expandMBB L post with
        | none => simp
        | some r3 => simp [Bool.or_assoc]

theorem expandMBB_cons_some (L : RegLayout) (mi : MachineInstr) (rest out out' : List MachineInstr)
    (m m' : Bool) (h1 : expandMI L mi = some (out, m)) (h2 : expandMBB L rest = some (out', m')) :
    expandMBB L (mi :: rest) = some (out ++ out', m || m') := by
  simp [expandMBB, h1, h2]

end ExpandPseudo

namespace ExpandPseudo

theorem realOpcode_real (o opc : Opcode) (l : Bool) (h : realOpcode o = some (opc, l)) :
    isExtendedOpcode opc = false := by
  cases o <;> simp [realOpcode] at h <;> obtain ⟨h1, -⟩ := h <;> subst h1 <;> rfl

theorem emit_real (L : RegLayout) (opc : Opcode) (isLoad isPtrLS : Bool) (dst src : Nat)
    (imm : Int) (hopc : isExtendedOpcode opc = false) :
    ∀ mi ∈ emit L opc isLoad isPtrLS dst src imm, isExtendedOpcode mi.opcode = false := by
  intro mi hmi
  unfold emit at hmi
  cases isLoad <;> cases isPtrLS <;> simp [BuildMI] at hmi <;>
    (try rcases hmi with hmi | hmi) <;> (try subst hmi) <;> first | exact hopc | rfl

theorem unselected_ne_true (mi : MachineInstr) (h : unresolvedSlot mi = false) :
    unselected mi ≠ some true := by
  unfold unselected
  unfold unresolvedSlot at h
  split_ifs with h4
  · simp [h4] at h
    split <;> simp_all
  · simp

theorem expandExtendedLoadStore_real (L : RegLayout) (mi : MachineInstr)
    (out : List MachineInstr) (m : Bool)
    (hslot : unresolvedSlot mi = false) (hregs : regOperands01 mi = true)
    (hopc : isExtendedOpcode mi.opcode = true)
    (h : expandExtendedLoadStore L mi = some (out, m)) :
    ∀ mi2 ∈ out, isExtendedOpcode mi2.opcode = false := by
  have hun := unselected_ne_true mi hslot
  unfold regOperands01 at hregs
  unfold expandExtendedLoadStore at h
  rw [if_pos hopc] at h
  split at h
  · simp at h
  · split at h
    · simp at h
    · split at h
      · simp at h
      · exact absurd (by assumption) hun
      · dsimp only at h
        split_ifs at h
        all_goals
          split at h
          · split at h
            · simp at h
            · rename_i opc isLoad hro
              simp only [Option.some.injEq, Prod.mk.injEq] at h
              obtain ⟨h1, -⟩ := h
              subst h1
              exact emit_real L opc isLoad _ _ _ _ (realOpcode_real _ _ _ hro)
          · simp at h
    · simp_all
  · simp_all

end ExpandPseudo

namespace ExpandPseudo

theorem expandMI_real (L : RegLayout) (mi : MachineInstr) (out : List MachineInstr) (m : Bool)
    (hslot : unresolvedSlot mi = false)
    (hregs : isPseudoLoadStore mi.opcode = true → regOperands01 mi = true)
    (h : expandMI L mi = some (out, m)) :
    ∀ mi2 ∈ out, isExtendedOpcode mi2.opcode = false := by
  unfold expandMI at h
  split at h
  case h_15 heq =>
    unfold expandExtendedMov at h
    split at h
    · split at h
      · simp only [Option.some.injEq, Prod.mk.injEq] at h
        obtain ⟨h1, -⟩ := h
        subst h1
        intro mi2 hmi2
        simp only [List.mem_singleton] at hmi2
        subst hmi2
        rfl
      · simp at h
    · simp at h
  case h_16 =>
    simp only [Option.some.injEq, Prod.mk.injEq] at h
    obtain ⟨h1, -⟩ := h
    subst h1
    intro mi2 hmi2
    simp only [List.mem_singleton] at hmi2
    subst hmi2
    cases hop : mi2.opcode <;> simp_all [isExtendedOpcode]
  all_goals
    rename_i heq
    exact expandExtendedLoadStore_real L mi out m hslot (hregs (by rw [heq]; rfl))
      (by rw [heq]; rfl) h

theorem expandMBB_real (L : RegLayout) (b : List MachineInstr) :
    ∀ (out : List MachineInstr) (m : Bool),
      (∀ mi ∈ b, unresolvedSlot mi = false) →
      (∀ mi ∈ b, isPseudoLoadStore mi.opcode = true → regOperands01 mi = true) →
      expandMBB L b = some (out, m) →
      ∀ mi2 ∈ out, isExtendedOpcode mi2.opcode = false := by
  induction b with
  | nil =>
    intro out m _ _ h
    simp only [expandMBB, Option.some.injEq, Prod.mk.injEq] at h
    obtain ⟨h1, -⟩ := h
    subst h1
    simp
  | cons mi rest ih =>
    intro out m hslot hregs h
    simp only [expandMBB] at h
    cases h1 : expandMI L mi with
    | none => simp [h1] at h
    | some r1 =>
      cases h2 : expandMBB L rest with
      | none => simp [h1, h2] at h
      | some r2 =>
        obtain ⟨o1, m1⟩ := r1
        obtain ⟨o2, m2⟩ := r2
        simp only [h1, h2, Option.some.injEq, Prod.mk.injEq] at h
        obtain ⟨ho, -⟩ := h
        subst ho
        intro mi2 hmi2
        rcases List.mem_append.mp hmi2 with hm | hm
        · exact expandMI_real L mi o1 m1 (hslot mi (List.mem_cons_self _ _))
            (hregs mi (List.mem_cons_self _ _)) h1 mi2 hm
        · exact ih o2 m2 (fun x hx => hslot x (List.mem_cons_of_mem _ hx))
            (fun x hx => hregs x (List.mem_cons_of_mem _ hx)) h2 mi2 hm

theorem expandMI_ready (L : RegLayout) (hL : L.WF) (mi : MachineInstr)
    (hls : isPseudoLoadStore mi.opcode = true → lsReady L mi)
    (hmov : mi.opcode = .PseudoEADDIE → movReady mi) :
    ∃ r, expandMI L mi = some r := by
  by_cases hpl : isPseudoLoadStore mi.opcode = true
  · obtain ⟨r0, r1, s, f0, f1, imm, rest, hops, hs, hr1, hslot⟩ := hls hpl
    have hun : unselected mi = some false := by
      unfold unselected MachineInstr.getNumOperands MachineInstr.getOperand
      rw [hops]
      by_cases hlen : rest.length = 1
      · obtain ⟨o, ho⟩ := List.length_eq_one.mp hlen
        obtain ⟨k, hk, hk0⟩ := hslot o ho
        subst ho; subst hk
        simp; omega
      · have : ¬ (rest.length + 1 + 1 + 1 = 4) := by omega
        simp [this]
    unfold RegLayout.WF at hL
    have hsrc : (if L.PXE0 ≤ r1 ∧ r1 ≤ L.PXE 31 then addU32 L.X0 (subU32 r1 L.PXE0) else r1)
        = L.X s := by
      rcases hr1 with h | h <;> subst h <;>
        simp only [RegLayout.PXE, RegLayout.X, subU32, addU32] <;> split_ifs <;> omega
    have hx : L.X0 ≤ L.X s ∧ L.X s ≤ L.X 31 := by
      simp only [RegLayout.X]; omega
    cases hop : mi.opcode <;> simp [hop, isPseudoLoadStore] at hpl <;>
      simp [expandMI, expandExtendedLoadStore, hop, isExtendedOpcode, MachineInstr.getOperand,
        hops, hun, hsrc, hx, realOpcode]
  · by_cases hm : mi.opcode = .PseudoEADDIE
    · obtain ⟨r0, r1, f0, f1, imm, rest, hops⟩ := hmov hm
      simp [expandMI, hm, expandExtendedMov, MachineInstr.getOperand, hops]
    · cases hop : mi.opcode <;> simp [hop, isPseudoLoadStore] at hpl hm <;> simp [expandMI, hop]

theorem expandMBB_ready (L : RegLayout) (hL : L.WF) (b : List MachineInstr)
    (h : ∀ mi ∈ b, (isPseudoLoadStore mi.opcode = true → lsReady L mi) ∧
      (mi.opcode = .PseudoEADDIE → movReady mi)) :
    ∃ r, expandMBB L b = some r := by
  induction b with
  | nil => exact ⟨_, rfl⟩
  | cons mi rest ih =>
    obtain ⟨r1, h1⟩ := expandMI_ready L hL mi (h mi (List.mem_cons_self _ _)).1
      (h mi (List.mem_cons_self _ _)).2
    obtain ⟨r2, h2⟩ := ih (fun x hx => h x (List.mem_cons_of_mem _ hx))
    exact ⟨_, expandMBB_cons_some L mi rest r1.1 r2.1 r1.2 r2.2 h1 h2⟩

end ExpandPseudo

namespace SelectExtReg

theorem runOnMBB_append (L : RegLayout) (pre post : List MachineInstr) :
    runOnMBB L (pre ++ post) =
      (runOnMBB L pre).bind fun p => (runOnMBB L post).map fun q => (p.1 ++ q.1, q.2) := by
  induction pre with
  | nil =>
    cases h : runOnMBB L post <;> simp [runOnMBB, h]
  | cons mi pre ih =>
    rw [List.cons_append]
    simp only [runOnMBB]
    cases h1 : visit L mi with
    | none => simp
    | some r1 =>
      rw [ih]
      cases h2 : runOnMBB L pre with
      | none => simp
      | some r2 =>
        cases h3 : runOnMBB L post with
        | none => simp
        | some r3 => simp

theorem runOnMBB_flag (L : RegLayout) (b out : List MachineInstr) (m : Bool)
    (h : runOnMBB L b = some (out, m)) : m = false := by
  induction b generalizing out m with
  | nil =>
    simp only [runOnMBB, Option.some.injEq, Prod.mk.injEq] at h
    exact h.2.symm
  | cons mi rest ih =>
    simp only [runOnMBB] at h
    cases h1 : visit L mi with
    | none => simp [h1] at h
    | some r1 =>
      cases h2 : runOnMBB L rest with
      | none => simp [h1, h2] at h
      | some r2 =>
        obtain ⟨o2, m2⟩ := r2
        simp only [h1, h2, Option.some.injEq, Prod.mk.injEq] at h
        rw [← h.2]
        exact ih o2 m2 h2

end SelectExtReg

namespace DCE

theorem removes_of_isSelfMoveZero (mi : MachineInstr) (next : Option MachineInstr) (del : Bool)
    (hs : isSelfMoveZero mi = true) (h : removes mi next = some del) : del = true := by
  unfold isSelfMoveZero at hs
  simp only [Bool.and_eq_true, Bool.or_eq_true, decide_eq_true_eq] at hs
  obtain ⟨hop, hops⟩ := hs
  split at hops
  · rename_i a _ b _ v h0 h1 h2
    simp only [Bool.and_eq_true, decide_eq_true_eq] at hops
    obtain ⟨hab, hv⟩ := hops
    subst hab; subst hv
    unfold removes at h
    split at h
    · simp at h
    · simp only [Option.some.injEq] at h; exact h.symm
    · rcases hop with hop | hop
      · have h3 : isIdentityMove .EADDIX mi = some false := by
          simp [isIdentityMove, hop]
        have h4 : isIdentityMove .ADDI mi = some true := by
          simp [isIdentityMove, hop, h0, h1, h2]
        simp [h3, h4] at h
        exact h
      · have h3 : isIdentityMove .EADDIX mi = some true := by
          simp [isIdentityMove, hop, h0, h1, h2]
        simp [h3] at h
        exact h
  · simp at hops

theorem getOperand_isSome (mi : MachineInstr) (i : Nat) (h : i < mi.getNumOperands) :
    ∃ o, mi.getOperand i = some o := by
  unfold MachineInstr.getOperand
  unfold MachineInstr.getNumOperands at h
  exact ⟨mi.operands.get ⟨i, h⟩, List.get?_eq_get h⟩

theorem isIdentityMove_ne_none (opc : Opcode) (mi : MachineInstr)
    (hopc : opc = .ADDI ∨ opc = .EADDIX) (h : hasMoveShape mi) :
    isIdentityMove opc mi ≠ none := by
  unfold isIdentityMove
  split_ifs with ho
  · have h3 : 3 ≤ mi.getNumOperands := h (by rw [ho]; exact hopc)
    obtain ⟨o0, h0⟩ := getOperand_isSome mi 0 (by omega)
    obtain ⟨o1, h1⟩ := getOperand_isSome mi 1 (by omega)
    obtain ⟨o2, h2⟩ := getOperand_isSome mi 2 (by omega)
    rw [h0, h1, h2]
    cases o0 <;> cases o1 <;> cases o2 <;> simp
    all_goals split_ifs <;> simp
  · simp

theorem sameDestAsNext_ne_none (mi : MachineInstr) (next : Option MachineInstr)
    (h : hasMoveShape mi) (hn : ∀ nx, next = some nx → hasMoveShape nx) :
    sameDestAsNext mi next ≠ none := by
  unfold sameDestAsNext
  cases next with
  | none => simp
  | some nx =>
    simp only
    split_ifs with ho
    · obtain ⟨o0, h0⟩ := getOperand_isSome mi 0 (by have := h (Or.inr ho.1); omega)
      obtain ⟨n0, hn0⟩ := getOperand_isSome nx 0 (by have := hn nx rfl (Or.inr ho.2); omega)
      rw [h0, hn0]
      cases o0 <;> cases n0 <;> simp
    · simp

theorem removes_isSome (mi : MachineInstr) (next : Option MachineInstr)
    (h : hasMoveShape mi) (hn : ∀ nx, next = some nx → hasMoveShape nx) :
    ∃ r, removes mi next = some r := by
  unfold removes
  obtain ⟨r1, h1⟩ := Option.ne_none_iff_exists'.mp (sameDestAsNext_ne_none mi next h hn)
  obtain ⟨r2, h2⟩ := Option.ne_none_iff_exists'.mp
    (isIdentityMove_ne_none .EADDIX mi (Or.inr rfl) h)
  obtain ⟨r3, h3⟩ := Option.ne_none_iff_exists'.mp
    (isIdentityMove_ne_none .ADDI mi (Or.inl rfl) h)
  rw [h1, h2, h3]
  cases r1 <;> cases r2 <;> exact ⟨_, rfl⟩

theorem runOnMBB_spec (b : List MachineInstr) (hb : ∀ mi ∈ b, hasMoveShape mi) :
    ∃ out, runOnMBB b = some (out, false) ∧ List.Sublist out b ∧
      ∀ mi ∈ out, isSelfMoveZero mi = false := by
  induction b with
  | nil => exact ⟨[], rfl, List.Sublist.slnil, by simp⟩
  | cons mi rest ih =>
    obtain ⟨out, hout, hsub, hno⟩ := ih (fun x hx => hb x (List.mem_cons_of_mem _ hx))
    obtain ⟨del, hdel⟩ := removes_isSome mi rest.head? (hb mi (List.mem_cons_self _ _))
      (fun nx hnx => hb nx (List.mem_cons_of_mem _ (List.mem_of_mem_head? hnx)))
    refine ⟨if del then out else mi :: out, ?_, ?_, ?_⟩
    · simp [runOnMBB, hdel, hout]
    · cases del
      · simpa using hsub.cons₂ mi
      · simpa using hsub.cons mi
    · intro x hx
      cases del
      · simp only [Bool.false_eq_true, if_false, List.mem_cons] at hx
        rcases hx with hx | hx
        · subst hx
          by_contra hc
          have := removes_of_isSelfMoveZero x rest.head? false (by simpa using hc) hdel
          simp at this
        · exact hno x hx
      · simp only [if_true] at hx
        exact hno x hx

end DCE

namespace PreEmitFixup

theorem setGPR_unified (L : RegLayout) (hL : L.WF) (mo : MachineOperand)
    (h : isUnifiedOp L mo = true) : setGPR L mo = some (demoteOp L mo) := by
  unfold RegLayout.WF at hL
  cases mo with
  | reg r d =>
    simp only [isUnifiedOp, isPseudoReg, RegLayout.PXE, Bool.and_eq_true, decide_eq_true_eq] at h
    have hp : isPseudoReg L r = true := by
      simp [isPseudoReg, RegLayout.PXE, h.1, h.2]
    have hx : addU32 L.X0 (subU32 r L.PXE0) = L.X (r - L.PXE0) := by
      simp only [addU32, subU32, RegLayout.X]; omega
    simp [setGPR, getGPRReg, demoteOp, hp, hx]
  | imm v => simp [isUnifiedOp] at h
  | other t => simp [isUnifiedOp] at h

theorem demoteOp_of_not_unified (L : RegLayout) (mo : MachineOperand)
    (h : isUnifiedOp L mo = false) : demoteOp L mo = mo := by
  cases mo with
  | reg r d =>
    simp only [isUnifiedOp] at h
    simp [demoteOp, h]
  | imm v => rfl
  | other t => rfl

theorem demoteOp_not_unified (L : RegLayout) (hL : L.WF) (mo : MachineOperand) :
    isUnifiedOp L (demoteOp L mo) = false := by
  unfold RegLayout.WF at hL
  cases mo with
  | reg r d =>
    by_cases hp : isPseudoReg L r = true
    · simp only [demoteOp, hp, if_true, isUnifiedOp]
      simp only [isPseudoReg, RegLayout.PXE, Bool.and_eq_true, decide_eq_true_eq] at hp
      simp only [isPseudoReg, RegLayout.PXE, RegLayout.X, Bool.and_eq_false_iff,
        decide_eq_false_iff_not]
      omega
    · simp only [demoteOp, hp, isUnifiedOp]
      simpa using hp
  | imm v => rfl
  | other t => rfl

theorem demoteOp_idem (L : RegLayout) (hL : L.WF) (mo : MachineOperand) :
    demoteOp L (demoteOp L mo) = demoteOp L mo :=
  demoteOp_of_not_unified L _ (demoteOp_not_unified L hL mo)

theorem demoteOperands_spec (L : RegLayout) (hL : L.WF) (warn : Bool) (ops : List MachineOperand) :
    ∀ i : Nat, ∃ ws m, demoteOperands L warn i ops = some (ops.map (demoteOp L), ws, m) ∧
      ws.length = if warn then (ops.filter (isUnifiedOp L)).length else 0 := by
  induction ops with
  | nil => intro i; exact ⟨[], false, rfl, by simp⟩
  | cons mo rest ih =>
    intro i
    obtain ⟨ws, m, h, hlen⟩ := ih (i + 1)
    by_cases hu : isUnifiedOp L mo = true
    · refine ⟨if warn then i :: ws else ws, true, ?_, ?_⟩
      · simp [demoteOperands, h, hu, setGPR_unified L hL mo hu]
      · cases warn <;> simp_all
    · have hu2 : isUnifiedOp L mo = false := by simpa using hu
      refine ⟨ws, m, ?_, ?_⟩
      · simp [demoteOperands, h, hu2, demoteOp_of_not_unified L mo hu2]
      · cases warn <;> simp_all

theorem getExtendedReg_isE (L : RegLayout) (hL : L.WF) (r e : Nat)
    (h : getExtendedReg L r = some e) : ∃ i, i ≤ 31 ∧ e = L.E i := by
  unfold RegLayout.WF at hL
  unfold getExtendedReg at h
  simp only [isPseudoReg, isGPRReg, isExtendedReg, RegLayout.PXE, RegLayout.X, RegLayout.E,
    Bool.and_eq_true, decide_eq_true_eq] at h
  split_ifs at h with h1 h2 h3
  · refine ⟨r - L.PXE0, by omega, ?_⟩
    simp only [Option.some.injEq] at h
    rw [← h]; simp only [addU32, subU32, RegLayout.E]; omega
  · refine ⟨r - L.X0, by omega, ?_⟩
    simp only [Option.some.injEq] at h
    rw [← h]; simp only [addU32, subU32, RegLayout.E]; omega
  · refine ⟨r - L.E0, by omega, ?_⟩
    simp only [Option.some.injEq] at h
    rw [← h]; simp only [addU32, subU32, RegLayout.E]; omega

theorem getExtendedReg_ne_none (L : RegLayout) (r : Nat) (h : threeKinds L r = true) :
    ∃ e, getExtendedReg L r = some e := by
  unfold threeKinds at h
  unfold getExtendedReg
  by_cases h1 : isPseudoReg L r = true
  · exact ⟨_, by rw [if_pos h1]⟩
  · by_cases h2 : isGPRReg L r = true
    · exact ⟨_, by rw [if_neg h1, if_pos h2]⟩
    · have h3 : isExtendedReg L r = true := by simp_all
      exact ⟨_, by rw [if_neg h1, if_neg h2, if_pos h3]⟩

end PreEmitFixup

namespace PreEmitFixup

theorem demote01 (L : RegLayout) (hL : L.WF) (mo : MachineOperand) :
    (if isUnifiedOp L mo then setGPR L mo else some mo) = some (demoteOp L mo) := by
  by_cases hu : isUnifiedOp L mo = true
  · rw [if_pos hu, setGPR_unified L hL mo hu]
  · have hu2 : isUnifiedOp L mo = false := by simpa using hu
    simp [hu2, demoteOp_of_not_unified L mo hu2]

theorem fixupOp01_spec (L : RegLayout) (hL : L.WF) (mi mi1 : MachineInstr)
    (ins : List MachineInstr) (m : Bool) (h : fixupOp01 L mi = some (ins, mi1, m)) :
    (∀ x ∈ ins, isExtMove L x) ∧
    ((mi.getNumOperands < 2 ∧ mi1 = mi) ∨
      ∃ o0 o1 rest, mi.operands = o0 :: o1 :: rest ∧
        mi1 = { mi with operands := demoteOp L o0 :: demoteOp L o1 :: rest }) := by
  unfold fixupOp01 at h
  split_ifs at h with hlen
  · rcases hops : mi.operands with _ | ⟨o0, _ | ⟨o1, rest⟩⟩
    · simp [MachineInstr.getNumOperands, hops] at hlen
    · simp [MachineInstr.getNumOperands, hops] at hlen
    · simp only [MachineInstr.getOperand, hops, List.get?] at h
      rw [demote01 L hL o0, demote01 L hL o1] at h
      split at h
      · simp at h
      · rename_i ins0 hins
        simp only [Option.some.injEq, Prod.mk.injEq] at h
        obtain ⟨h1, h2, -⟩ := h
        subst h1
        refine ⟨?_, Or.inr ⟨o0, o1, rest, rfl, ?_⟩⟩
        · split_ifs at hins with hc
          · split at hins
            · rename_i e0 e1 he0 he1
              simp only [Option.some.injEq] at hins
              subst hins
              intro x hx
              simp only [List.mem_singleton] at hx
              subst hx
              cases o0 with
              | reg r0 d0 =>
                cases o1 with
                | reg r1 d1 =>
                  simp only [MachineOperand.getReg, Option.some_bind] at he0 he1
                  obtain ⟨a, ha, hea⟩ := getExtendedReg_isE L hL r0 e0 he0
                  obtain ⟨b, hb, heb⟩ := getExtendedReg_isE L hL r1 e1 he1
                  exact ⟨a, b, ha, hb, by rw [hea, heb]⟩
                | imm v => simp [MachineOperand.getReg] at he1
                | other t => simp [MachineOperand.getReg] at he1
              | imm v => simp [MachineOperand.getReg] at he0
              | other t => simp [MachineOperand.getReg] at he0
            · simp at hins
          · simp only [Option.some.injEq] at hins
            subst hins
            simp
        · rw [← h2]
          simp [MachineInstr.setOperand, hops]
  · simp only [Option.some.injEq, Prod.mk.injEq] at h
    obtain ⟨h1, h2, -⟩ := h
    subst h1
    exact ⟨by simp, Or.inl ⟨by omega, h2.symm⟩⟩

theorem fixupPseudoRegs_spec (L : RegLayout) (hL : L.WF) (mi : MachineInstr) (r : FixupResult)
    (hdbg : mi.isDebugInstr = false) (h : fixupPseudoRegs L mi = some r) :
    r.mi = demoteMI L mi ∧ (∀ x ∈ r.inserted, isExtMove L x) ∧
      r.warnings.length = expectedWarnings L mi := by
  unfold fixupPseudoRegs at h
  simp only [hdbg, Bool.false_eq_true, if_false] at h
  split at h
  · simp at h
  · rename_i ins mi1 m1 h01
    obtain ⟨hins, hshape⟩ := fixupOp01_spec L hL mi mi1 ins m1 h01
    obtain ⟨ws, m2, hd, hlen⟩ :=
      demoteOperands_spec L hL (!mi1.isCall && !mi1.isReturn) mi1.operands 0
    rw [hd] at h
    simp only [Option.some.injEq] at h
    subst h
    rcases hshape with ⟨hlt, hmi1⟩ | ⟨o0, o1, rest, hops, hmi1⟩
    · subst hmi1
      refine ⟨by simp [demoteMI, hdbg], hins, ?_⟩
      simp only [hlen, expectedWarnings]
      have : ¬ 2 ≤ mi1.getNumOperands := by omega
      cases hc : mi1.isCall <;> cases hr : mi1.isReturn <;> simp [this]
    · subst hmi1
      refine ⟨?_, hins, ?_⟩
      · simp [demoteMI, hdbg, hops, demoteOp_idem L hL]
      · simp only [hlen, expectedWarnings, MachineInstr.getNumOperands, hops]
        cases hc : mi.isCall <;> cases hr : mi.isReturn <;>
          simp [List.filter_cons, demoteOp_not_unified L hL]

theorem fixupOp01_convertible (L : RegLayout) (hL : L.WF) (mi : MachineInstr)
    (h : convertible L mi = true) : ∃ r, fixupOp01 L mi = some r := by
  unfold fixupOp01
  split_ifs with hlen
  · rcases hops : mi.operands with _ | ⟨o0, _ | ⟨o1, rest⟩⟩
    · simp [MachineInstr.getNumOperands, hops] at hlen
    · simp [MachineInstr.getNumOperands, hops] at hlen
    · simp only [MachineInstr.getOperand, hops, List.get?]
      rw [demote01 L hL o0, demote01 L hL o1]
      simp only [convertible, MachineInstr.getOperand, hops, List.get?] at h
      split_ifs with hc
      · cases o0 with
        | reg r0 d0 =>
          cases o1 with
          | reg r1 d1 =>
            simp only [isUnifiedOp, MachineOperand.isReg, Bool.and_true] at hc
            simp only [hc, Bool.not_true, Bool.false_or, Bool.and_eq_true] at h
            obtain ⟨e0, he0⟩ := getExtendedReg_ne_none L r0 h.1
            obtain ⟨e1, he1⟩ := getExtendedReg_ne_none L r1 h.2
            simp [MachineOperand.getReg, he0, he1]
          | imm v => simp [MachineOperand.isReg] at hc
          | other t => simp [MachineOperand.isReg] at hc
        | imm v => simp [MachineOperand.isReg] at hc
        | other t => simp [MachineOperand.isReg] at hc
      · exact ⟨_, rfl⟩
  · exact ⟨_, rfl⟩

theorem fixupPseudoRegs_convertible (L : RegLayout) (hL : L.WF) (mi : MachineInstr)
    (h : convertible L mi = true) : ∃ r, fixupPseudoRegs L mi = some r := by
  unfold fixupPseudoRegs
  split_ifs
  · exact ⟨_, rfl⟩
  · obtain ⟨⟨ins, mi1, m1⟩, h01⟩ := fixupOp01_convertible L hL mi h
    obtain ⟨ws, m2, hd, -⟩ :=
      demoteOperands_spec L hL (!mi1.isCall && !mi1.isReturn) mi1.operands 0
    simp only [h01, hd]
    exact ⟨_, rfl⟩

end PreEmitFixup

namespace PreEmitFixup

theorem demoteMI_not_unified (L : RegLayout) (hL : L.WF) (mi : MachineInstr)
    (hdbg : (demoteMI L mi).isDebugInstr = false) :
    ∀ op ∈ (demoteMI L mi).operands, isUnifiedOp L op = false := by
  unfold demoteMI at hdbg ⊢
  split_ifs at hdbg ⊢ with hd
  · rw [hd] at hdbg; simp at hdbg
  · intro op hop
    simp only [List.mem_map] at hop
    obtain ⟨o, -, rfl⟩ := hop
    exact demoteOp_not_unified L hL o

theorem isExtMove_not_unified (L : RegLayout) (hL : L.WF) (x : MachineInstr)
    (hx : isExtMove L x) : ∀ op ∈ x.operands, isUnifiedOp L op = false := by
  unfold RegLayout.WF at hL
  obtain ⟨a, b, ha, hb, rfl⟩ := hx
  intro op hop
  simp only [BuildMI, List.mem_cons, List.mem_singleton, List.not_mem_nil, or_false] at hop
  rcases hop with h | h | h <;> subst h <;>
    simp only [isUnifiedOp, isPseudoReg, RegLayout.PXE, RegLayout.E, Bool.and_eq_false_iff,
      decide_eq_false_iff_not] <;> omega

theorem fixupPseudoRegs_debug (L : RegLayout) (mi : MachineInstr) (hdbg : mi.isDebugInstr = true) :
    fixupPseudoRegs L mi = some { inserted := [], mi := mi, Modified := false, warnings := [] } := by
  simp [fixupPseudoRegs, hdbg]

theorem fixupPseudoRegs_shape (L : RegLayout) (hL : L.WF) (mi : MachineInstr) (r : FixupResult)
    (h : fixupPseudoRegs L mi = some r) :
    r.mi = demoteMI L mi ∧ ∀ x ∈ r.inserted, isExtMove L x := by
  by_cases hdbg : mi.isDebugInstr = true
  · rw [fixupPseudoRegs_debug L mi hdbg] at h
    simp only [Option.some.injEq] at h
    subst h
    exact ⟨by simp [demoteMI, hdbg], by simp⟩
  · have hd : mi.isDebugInstr = false := by simpa using hdbg
    obtain ⟨h1, h2, -⟩ := fixupPseudoRegs_spec L hL mi r hd h
    exact ⟨h1, h2⟩

theorem demotionLoop_spec (L : RegLayout) (hL : L.WF) (b : List MachineInstr) :
    ∀ (out : List MachineInstr) (m : Bool) (ws : List (MachineInstr × Nat)),
      demotionLoop L b = some (out, m, ws) →
      (∃ ins : List (List MachineInstr), ins.length = b.length ∧
        (∀ l ∈ ins, ∀ x ∈ l, isExtMove L x) ∧
        out = (List.zipWith (fun l mi => l ++ [demoteMI L mi]) ins b).flatten) ∧
      (∀ mi ∈ out, mi.isDebugInstr = false → ∀ op ∈ mi.operands, isUnifiedOp L op = false) := by
  induction b with
  | nil =>
    intro out m ws h
    simp only [demotionLoop, Option.some.injEq, Prod.mk.injEq] at h
    obtain ⟨h1, -⟩ := h
    subst h1
    exact ⟨⟨[], rfl, by simp, by simp⟩, by simp⟩
  | cons mi rest ih =>
    intro out m ws h
    simp only [demotionLoop] at h
    cases h1 : fixupPseudoRegs L mi with
    | none => simp [h1] at h
    | some r =>
      cases h2 : demotionLoop L rest with
      | none => simp [h1, h2] at h
      | some r2 =>
        obtain ⟨out2, m2, ws2⟩ := r2
        simp only [h1, h2, Option.some.injEq, Prod.mk.injEq] at h
        obtain ⟨ho, -⟩ := h
        subst ho
        obtain ⟨hmi, hins⟩ := fixupPseudoRegs_shape L hL mi r h1
        obtain ⟨⟨ins2, hlen, hext, hout⟩, hno⟩ := ih out2 m2 ws2 h2
        refine ⟨⟨r.inserted :: ins2, by simp [hlen], ?_, ?_⟩, ?_⟩
        · intro l hl
          rcases List.mem_cons.mp hl with hl | hl
          · subst hl; exact hins
          · exact hext l hl
        · simp [hout, hmi]
        · intro x hx hxd
          rcases List.mem_append.mp hx with hx | hx
          · exact isExtMove_not_unified L hL x (hins x hx)
          · rcases List.mem_cons.mp hx with hx | hx
            · subst hx
              rw [hmi] at hxd ⊢
              exact demoteMI_not_unified L hL mi hxd
            · exact hno x hx hxd

theorem demotionLoop_convertible (L : RegLayout) (hL : L.WF) (b : List MachineInstr)
    (h : ∀ mi ∈ b, convertible L mi = true) : ∃ r, demotionLoop L b = some r := by
  induction b with
  | nil => exact ⟨_, rfl⟩
  | cons mi rest ih =>
    obtain ⟨r1, h1⟩ := fixupPseudoRegs_convertible L hL mi (h mi (List.mem_cons_self _ _))
    obtain ⟨⟨out, m, ws⟩, h2⟩ := ih (fun x hx => h x (List.mem_cons_of_mem _ hx))
    simp only [demotionLoop, h1, h2]
    exact ⟨_, rfl⟩

end PreEmitFixup

namespace DCE

theorem removes_of_isSelfMoveNonZero (mi : MachineInstr) (next : Option MachineInstr)
    (hs : isSelfMoveNonZero mi = true) (hn : overwrittenByNext mi next = false)
    (hshape : ∀ nx, next = some nx → hasMoveShape nx) :
    removes mi next = some false := by
  unfold isSelfMoveNonZero at hs
  simp only [Bool.and_eq_true, Bool.or_eq_true, decide_eq_true_eq] at hs
  obtain ⟨hop, hops⟩ := hs
  split at hops
  · rename_i a _ b _ v h0 h1 h2
    simp only [Bool.and_eq_true, decide_eq_true_eq] at hops
    obtain ⟨hab, hv⟩ := hops
    subst hab
    have hsame : sameDestAsNext mi next = some false := by
      unfold sameDestAsNext
      unfold overwrittenByNext at hn
      cases next with
      | none => rfl
      | some nx =>
        simp only [h0] at hn ⊢
        split_ifs with ho
        · simp only [ho.1, ho.2, decide_True, Bool.and_self, Bool.true_and] at hn
          cases hnx : nx.getOperand 0 with
          | none =>
            have h3 := hshape nx rfl (Or.inr ho.2)
            obtain ⟨o, ho0⟩ := getOperand_isSome nx 0 (by omega)
            rw [hnx] at ho0
            simp at ho0
          | some o =>
            cases o with
            | reg b d => simpa [hnx] using hn
            | imm v => rfl
            | other t => rfl
        · rfl
    have h3 : isIdentityMove .EADDIX mi = some false := by
      unfold isIdentityMove
      split_ifs
      · simp [h0, h1, h2, hv]
      · rfl
    have h4 : isIdentityMove .ADDI mi = some false := by
      unfold isIdentityMove
      split_ifs
      · simp [h0, h1, h2, hv]
      · rfl
    simp [removes, hsame, h3, h4]
  · simp at hops

theorem runOnMBB_cons (x : MachineInstr) (l : List MachineInstr) :
    runOnMBB (x :: l) =
      match removes x l.head? with
      | none => none
      | some del =>
        match runOnMBB l with
        | none => none
        | some (out, m) => some (if del then out else x :: out, m) := rfl

theorem runOnMBB_split (pre rest out : List MachineInstr) (m : Bool)
    (h : runOnMBB (pre ++ rest) = some (out, m)) :
    ∃ outPre outRest, runOnMBB rest = some (outRest, m) ∧ out = outPre ++ outRest ∧
      List.Sublist outPre pre := by
  induction pre generalizing out m with
  | nil => exact ⟨[], out, by simpa using h, by simp, List.Sublist.slnil⟩
  | cons x pre ih =>
    rw [List.cons_append, runOnMBB_cons] at h
    cases h1 : removes x (pre ++ rest).head? with
    | none => rw [h1] at h; exact absurd h (by simp)
    | some del =>
      rw [h1] at h
      cases h2 : runOnMBB (pre ++ rest) with
      | none => rw [h2] at h; exact absurd h (by simp)
      | some r2 =>
        obtain ⟨o2, m2⟩ := r2
        rw [h2] at h
        simp only [Option.some.injEq, Prod.mk.injEq] at h
        obtain ⟨ho, hm⟩ := h
        subst hm
        obtain ⟨outPre, outRest, hr, hout, hsub⟩ := ih o2 m2 h2
        subst ho
        cases del
        · exact ⟨x :: outPre, outRest, hr, by simp [hout], hsub.cons₂ x⟩
        · exact ⟨outPre, outRest, hr, by simp [hout], hsub.cons x⟩

end DCE

namespace DAGFixup

theorem getPseudoReg_isPseudo (L : RegLayout) (hL : L.WF) (r p : Nat)
    (h : getPseudoReg L r = some p) : isPseudoReg L p = true := by
  unfold RegLayout.WF at hL
  unfold getPseudoReg at h
  simp only [isPseudoReg, isGPRReg, isExtendedReg, RegLayout.PXE, RegLayout.X, RegLayout.E,
    Bool.and_eq_true, decide_eq_true_eq] at h ⊢
  split_ifs at h with h1 h2 h3 <;> simp only [Option.some.injEq] at h <;> rw [← h] <;>
    simp only [addU32, subU32] <;> omega

theorem runOnMI_idem (L : RegLayout) (hL : L.WF) (mi mi1 : MachineInstr) (m : Bool)
    (h : runOnMI L mi = some (mi1, m)) : runOnMI L mi1 = some (mi1, false) := by
  unfold runOnMI at h
  split_ifs at h with hop
  · unfold fixupPseudoPointerInst at h
    rw [if_pos hop] at h
    rcases hops : mi.operands with _ | ⟨o0, rest⟩
    · simp [MachineInstr.getOperand, hops] at h
    · cases o0 with
      | reg r d =>
        simp only [MachineInstr.getOperand, hops, List.get?] at h
        by_cases hp : isPseudoReg L r = true
        · simp only [hp, if_true, Option.some.injEq, Prod.mk.injEq] at h
          obtain ⟨h1, -⟩ := h
          subst h1
          simp [runOnMI, hop, fixupPseudoPointerInst, MachineInstr.getOperand, hops, hp]
        · simp only [hp, Bool.false_eq_true, if_false] at h
          cases hg : getPseudoReg L r with
          | none => simp [hg] at h
          | some p =>
            simp only [hg, Option.some.injEq, Prod.mk.injEq] at h
            obtain ⟨h1, -⟩ := h
            subst h1
            have hpp := getPseudoReg_isPseudo L hL r p hg
            simp [runOnMI, fixupPseudoPointerInst, MachineInstr.setOperand,
              MachineInstr.getOperand, hops, hop, hpp]
      | imm v =>
        simp only [MachineInstr.getOperand, hops, List.get?, Option.some.injEq,
          Prod.mk.injEq] at h
        obtain ⟨h1, -⟩ := h
        subst h1
        simp [runOnMI, hop, fixupPseudoPointerInst, MachineInstr.getOperand, hops]
      | other t =>
        simp only [MachineInstr.getOperand, hops, List.get?, Option.some.injEq,
          Prod.mk.injEq] at h
        obtain ⟨h1, -⟩ := h
        subst h1
        simp [runOnMI, hop, fixupPseudoPointerInst, MachineInstr.getOperand, hops]
  · simp only [Option.some.injEq, Prod.mk.injEq] at h
    obtain ⟨h1, -⟩ := h
    subst h1
    simp [runOnMI, hop]

theorem runOnMBB_idem (L : RegLayout) (hL : L.WF) (b : List MachineInstr) :
    ∀ (b1 : List MachineInstr) (m : Bool), runOnMBB L b = some (b1, m) →
      runOnMBB L b1 = some (b1, false) := by
  induction b with
  | nil =>
    intro b1 m h
    simp only [runOnMBB, Option.some.injEq, Prod.mk.injEq] at h
    rw [← h.1]; rfl
  | cons mi rest ih =>
    intro b1 m h
    simp only [runOnMBB] at h
    cases h1 : runOnMI L mi with
    | none => simp [h1] at h
    | some r1 =>
      cases h2 : runOnMBB L rest with
      | none => simp [h1, h2] at h
      | some r2 =>
        obtain ⟨mi1, m1⟩ := r1
        obtain ⟨o2, m2⟩ := r2
        simp only [h1, h2, Option.some.injEq, Prod.mk.injEq] at h
        rw [← h.1]
        simp [runOnMBB, runOnMI_idem L hL mi mi1 m1 h1, ih o2 m2 h2]

theorem runOnMachineFunction_idem (L : RegLayout) (hL : L.WF) (f : List (List MachineInstr)) :
    ∀ (f1 : List (List MachineInstr)) (m : Bool), runOnMachineFunction L f = some (f1, m) →
      runOnMachineFunction L f1 = some (f1, false) := by
  induction f with
  | nil =>
    intro f1 m h
    simp only [runOnMachineFunction, Option.some.injEq, Prod.mk.injEq] at h
    rw [← h.1]; rfl
  | cons b rest ih =>
    intro f1 m h
    simp only [runOnMachineFunction] at h
    cases h1 : runOnMBB L b with
    | none => simp [h1] at h
    | some r1 =>
      cases h2 : runOnMachineFunction L rest with
      | none => simp [h1, h2] at h
      | some r2 =>
        obtain ⟨b1, m1⟩ := r1
        obtain ⟨o2, m2⟩ := r2
        simp only [h1, h2, Option.some.injEq, Prod.mk.injEq] at h
        rw [← h.1]
        simp [runOnMachineFunction, runOnMBB_idem L hL b b1 m1 h1, ih o2 m2 h2]

theorem normalizer_append (L : RegLayout) (pre post : List MachineInstr) :
    runOnMBB L (pre ++ post) =
      (runOnMBB L pre).bind fun p =>
        (runOnMBB L post).map fun q => (p.1 ++ q.1, p.2 || q.2) := by
  induction pre with
  | nil =>
    cases h : runOnMBB L post <;> simp [runOnMBB, h]
  | cons mi pre ih =>
    rw [List.cons_append]
    simp only [runOnMBB]
    cases h1 : runOnMI L mi with
    | none => simp
    | some r1 =>
      rw [ih]
      cases h2 : runOnMBB L pre with
      | none => simp
      | some r2 =>
        cases h3 : runOnMBB L post with
        | none => simp
        | some r3 => simp [Bool.or_assoc]

theorem normalizer_flag (L : RegLayout) (b out : List MachineInstr) (m : Bool)
    (h : runOnMBB L b = some (out, m)) : m = false := by
  induction b generalizing out m with
  | nil =>
    simp only [runOnMBB, Option.some.injEq, Prod.mk.injEq] at h
    exact h.2.symm
  | cons mi rest ih =>
    simp only [runOnMBB] at h
    cases h1 : runOnMI L mi with
    | none => simp [h1] at h
    | some r1 =>
      cases h3 : runOnMBB L rest with
      | none => simp [h1, h3] at h
      | some r2 =>
        obtain ⟨mi1, m1⟩ := r1
        obtain ⟨o2, m2⟩ := r2
        simp only [h1, h3, Option.some.injEq, Prod.mk.injEq] at h
        have hm2 := ih o2 m2 h3
        have hm1 : m1 = false := by
          unfold runOnMI at h1
          split_ifs at h1
          · split at h1
            · simp at h1
            · simp only [Option.some.injEq, Prod.mk.injEq] at h1; exact h1.2.symm
          · simp only [Option.some.injEq, Prod.mk.injEq] at h1; exact h1.2.symm
        rw [← h.2, hm1, hm2]; rfl

end DAGFixup

namespace ExpandPseudo

theorem emit_base (L : RegLayout) (opc : Opcode) (isLoad isPtrLS : Bool) (dst src : Nat)
    (imm : Int) :
    ∀ x ∈ emit L opc isLoad isPtrLS dst src imm, x.getOperand 1 = some (.reg src false) := by
  intro x hx
  unfold emit at hx
  cases isLoad <;> cases isPtrLS <;> simp [BuildMI] at hx <;>
    (try rcases hx with hx | hx) <;> (try subst hx) <;> rfl

theorem unselected_of_slot (mi : MachineInstr) (o0 o1 o2 : MachineOperand)
    (rest : List MachineOperand) (hops : mi.operands = o0 :: o1 :: o2 :: rest)
    (hslot : ∀ o, rest = [o] → ∃ k : Int, o = .imm k ∧ k < 0) :
    unselected mi = some false := by
  unfold unselected MachineInstr.getNumOperands MachineInstr.getOperand
  rw [hops]
  by_cases hlen : rest.length = 1
  · obtain ⟨o, ho⟩ := List.length_eq_one.mp hlen
    obtain ⟨k, hk, hk0⟩ := hslot o ho
    subst ho; subst hk
    simp; omega
  · have : ¬ (rest.length + 1 + 1 + 1 = 4) := by omega
    simp [this]

theorem isExtendedOpcode_of_isPseudoLoadStore (o : Opcode) (h : isPseudoLoadStore o = true) :
    isExtendedOpcode o = true := by
  cases o <;> simp [isPseudoLoadStore] at h <;> rfl

theorem realOpcode_of_isPseudoLoadStore (o : Opcode) (h : isPseudoLoadStore o = true) :
    ∃ opc isLoad, realOpcode o = some (opc, isLoad) := by
  cases o <;> simp [isPseudoLoadStore] at h <;> exact ⟨_, _, rfl⟩

theorem expandMI_of_isPseudoLoadStore (L : RegLayout) (mi : MachineInstr)
    (h : isPseudoLoadStore mi.opcode = true) : expandMI L mi = expandExtendedLoadStore L mi := by
  unfold expandMI
  cases hop : mi.opcode <;> simp [hop, isPseudoLoadStore] at h <;> rfl

/-- The result of `expandExtendedLoadStore` on an instruction with register
operands 0 and 1, an immediate operand 2 and a resolved slot. -/
theorem expandExtendedLoadStore_resolved (L : RegLayout) (mi : MachineInstr)
    (hls : isPseudoLoadStore mi.opcode = true)
    (r0 r1 : Nat) (f0 f1 : Bool) (imm : Int) (rest : List MachineOperand)
    (hops : mi.operands = .reg r0 f0 :: .reg r1 f1 :: .imm imm :: rest)
    (hslot : ∀ o, rest = [o] → ∃ k : Int, o = .imm k ∧ k < 0) :
    (¬ (L.X0 ≤ mappedSource L r1 ∧ mappedSource L r1 ≤ L.X 31) →
      expandExtendedLoadStore L mi = none) ∧
    ((L.X0 ≤ mappedSource L r1 ∧ mappedSource L r1 ≤ L.X 31) →
      ∃ opc isLoad, realOpcode mi.opcode = some (opc, isLoad) ∧
        expandExtendedLoadStore L mi =
          some (emit L opc isLoad (isPtrLS mi.opcode) (mappedDest L mi.opcode r0)
            (mappedSource L r1) imm, true)) := by
  have hun := unselected_of_slot mi _ _ _ rest hops hslot
  have hext := isExtendedOpcode_of_isPseudoLoadStore _ hls
  obtain ⟨opc, isLoad, hreal⟩ := realOpcode_of_isPseudoLoadStore _ hls
  constructor
  · intro hx
    unfold mappedSource at hx
    simp only [expandExtendedLoadStore, hext, if_true, MachineInstr.getOperand, hops, List.get?,
      hun]
    rw [if_neg hx]
  · intro hx
    refine ⟨opc, isLoad, hreal, ?_⟩
    unfold mappedSource at hx
    simp only [expandExtendedLoadStore, hext, if_true, MachineInstr.getOperand, hops, List.get?,
      hun]
    rw [if_pos hx]
    simp only [hreal, mappedSource, isPtrLS, mappedDest]

theorem mappedSource_address_iff (L : RegLayout) (hL : L.WF) (r : Nat) :
    (L.X0 ≤ mappedSource L r ∧ mappedSource L r ≤ L.X 31) ↔
      (isPseudoReg L r = true ∨ isGPRReg L r = true) := by
  unfold RegLayout.WF at hL
  unfold mappedSource
  simp only [isPseudoReg, isGPRReg, RegLayout.PXE, RegLayout.X, Bool.and_eq_true,
    decide_eq_true_eq, addU32, subU32]
  split_ifs with h
  · constructor
    · intro _; exact Or.inl h
    · intro _; omega
  · constructor
    · intro hx; exact Or.inr hx
    · intro hx
      rcases hx with hx | hx
      · exact absurd hx h
      · exact hx

end ExpandPseudo

namespace ExpandPseudo

theorem nonPointerOpcodes_spec (o opc : Opcode) (l : Bool)
    (h : (o, opc, l) ∈ nonPointerOpcodes) :
    realOpcode o = some (opc, l) ∧ isPseudoLoadStore o = true ∧ isPtrLS o = false ∧
      ¬ (o = .PseudoESP ∨ o = .PseudoELP ∨ o = .ESP ∨ o = .ELP) := by
  cases o <;> simp [nonPointerOpcodes] at h <;> obtain ⟨rfl, rfl⟩ := h <;>
    exact ⟨rfl, rfl, rfl, by decide⟩

/-- What an expansion by `expandExtendedLoadStore` (returned flag `true`)
says about the source register and the emitted instructions. -/
theorem expandExtendedLoadStore_true (L : RegLayout) (mi : MachineInstr)
    (out : List MachineInstr) (h : expandExtendedLoadStore L mi = some (out, true)) :
    ∃ r1 f1, mi.getOperand 1 = some (.reg r1 f1) ∧
      (L.X0 ≤ mappedSource L r1 ∧ mappedSource L r1 ≤ L.X 31) ∧
      ∀ x ∈ out, x.getOperand 1 = some (.reg (mappedSource L r1) false) := by
  unfold expandExtendedLoadStore at h
  split_ifs at h with hopc
  · split at h
    · simp at h
    · split at h
      · simp at h
      · rename_i src f1 h1
        refine ⟨src, f1, h1, ?_⟩
        split at h
        · simp at h
        · simp at h
        · dsimp only at h
          by_cases hx : L.X0 ≤ mappedSource L src ∧ mappedSource L src ≤ L.X 31
          · refine ⟨hx, ?_⟩
            unfold mappedSource at hx
            rw [if_pos hx] at h
            split at h
            · split at h
              · simp at h
              · simp only [Option.some.injEq, Prod.mk.injEq, and_true] at h
                subst h
                intro x hxm
                exact emit_base L _ _ _ _ _ _ x hxm
            · simp at h
          · unfold mappedSource at hx
            rw [if_neg hx] at h
            simp at h
      · simp at h
    · simp at h
  · simp at h

theorem expandMI_true_of_isPseudoLoadStore (L : RegLayout) (hL : L.WF) (mi : MachineInstr)
    (out : List MachineInstr) (hls : isPseudoLoadStore mi.opcode = true)
    (h : expandMI L mi = some (out, true)) :
    ∃ r1 f1, mi.getOperand 1 = some (.reg r1 f1) ∧
      (isPseudoReg L r1 = true ∨ isGPRReg L r1 = true) ∧
      isGPRReg L (mappedSource L r1) = true ∧
      ∀ x ∈ out, x.getOperand 1 = some (.reg (mappedSource L r1) false) := by
  rw [expandMI_of_isPseudoLoadStore L mi hls] at h
  obtain ⟨r1, f1, h1, hx, hout⟩ := expandExtendedLoadStore_true L mi out h
  refine ⟨r1, f1, h1, (mappedSource_address_iff L hL r1).mp hx, ?_, hout⟩
  simp [isGPRReg, hx.1, hx.2]

theorem mappedSource_unified (L : RegLayout) (hL : L.WF) (s : Nat) (hs : s ≤ 31) :
    mappedSource L (L.PXE s) = L.X s := by
  unfold RegLayout.WF at hL
  simp only [mappedSource, RegLayout.PXE, RegLayout.X, addU32, subU32]
  split_ifs <;> omega

theorem mappedSource_address (L : RegLayout) (hL : L.WF) (s : Nat) (hs : s ≤ 31) :
    mappedSource L (L.X s) = L.X s := by
  unfold RegLayout.WF at hL
  simp only [mappedSource, RegLayout.PXE, RegLayout.X, addU32, subU32]
  split_ifs <;> omega

end ExpandPseudo

namespace FoldPseudo

theorem runOnMBB_id (b : List MachineInstr) : runOnMBB b = (b, false) := by
  induction b with
  | nil => rfl
  | cons mi rest ih => simp [runOnMBB, runOnMI, ih]

theorem runOnMachineFunction_id (f : List (List MachineInstr)) :
    runOnMachineFunction f = (f, false) := by
  induction f with
  | nil => rfl
  | cons b rest ih => simp [runOnMachineFunction, runOnMBB_id, ih]

end FoldPseudo

namespace PreEmitFixup

theorem getExtendedReg_eq_none (L : RegLayout) (r : Nat) (h : threeKinds L r = false) :
    getExtendedReg L r = none := by
  unfold threeKinds at h
  simp only [Bool.or_eq_false_iff] at h
  obtain ⟨⟨h1, h2⟩, h3⟩ := h
  simp [getExtendedReg, h1, h2, h3]

theorem fixupOp01_not_convertible (L : RegLayout) (mi : MachineInstr)
    (h : convertible L mi = false) : fixupOp01 L mi = none := by
  unfold convertible at h
  rcases hops : mi.operands with _ | ⟨o0, _ | ⟨o1, rest⟩⟩
  · simp [MachineInstr.getOperand, hops] at h
  · simp [MachineInstr.getOperand, hops] at h
  · simp only [MachineInstr.getOperand, hops, List.get?] at h
    cases o0 with
    | reg r0 d0 =>
      cases o1 with
      | reg r1 d1 =>
        simp only [Bool.or_eq_false_iff, Bool.not_eq_false', Bool.and_eq_false_iff] at h
        obtain ⟨hp, hk⟩ := h
        have hc : ((isUnifiedOp L (.reg r0 d0) || isUnifiedOp L (.reg r1 d1)) &&
            (MachineOperand.reg r0 d0).isReg && (MachineOperand.reg r1 d1).isReg) = true := by
          simpa [isUnifiedOp, MachineOperand.isReg] using hp
        have hlen : 2 ≤ mi.getNumOperands := by simp [MachineInstr.getNumOperands, hops]
        unfold fixupOp01
        rw [if_pos hlen]
        simp only [MachineInstr.getOperand, hops, List.get?]
        rw [if_pos hc]
        rcases hk with hk | hk
        · simp [MachineOperand.getReg, getExtendedReg_eq_none L r0 hk]
        · simp only [MachineOperand.getReg, Option.some_bind, getExtendedReg_eq_none L r1 hk]
          cases getExtendedReg L r0 <;> rfl
      | imm v => simp at h
      | other t => simp at h
    | imm v => simp at h
    | other t => simp at h

theorem fixupPseudoRegs_eq_none_iff (L : RegLayout) (hL : L.WF) (mi : MachineInstr) :
    fixupPseudoRegs L mi = none ↔ (mi.isDebugInstr = false ∧ convertible L mi = false) := by
  constructor
  · intro h
    by_cases hd : mi.isDebugInstr = true
    · rw [fixupPseudoRegs_debug L mi hd] at h
      simp at h
    · refine ⟨by simpa using hd, ?_⟩
      by_contra hc
      have hc2 : convertible L mi = true := by simpa using hc
      obtain ⟨r, hr⟩ := fixupPseudoRegs_convertible L hL mi hc2
      rw [h] at hr
      simp at hr
  · intro ⟨hd, hc⟩
    simp [fixupPseudoRegs, hd, fixupOp01_not_convertible L mi hc]

end PreEmitFixup

namespace EliminateExtraCopies

theorem isSSA_eq_false (mf : MachineFunction) (idx : Nat) (hidx : idx < mf.numVirtRegs)
    (h : 1 < (def_instructions mf (index2VirtReg idx)).length) : isSSA mf = false := by
  unfold isSSA
  rw [List.all_eq_false]
  exact ⟨idx, List.mem_range.mpr hidx, by simpa using h⟩

end EliminateExtraCopies

namespace PreEmitFixup

end PreEmitFixup

namespace PreEmitFixup

theorem lowerCombine_dest (L : RegLayout) (copy : Nat → Nat → Option (List MachineInstr))
    (done : List MachineInstr) (mi : MachineInstr) (out : List MachineInstr) (m : Bool)
    (h : lowerCombine L copy done mi = some (out, m)) :
    ∃ r0 f0 dg de sg se c1 c2, mi.getOperand 0 = some (.reg r0 f0) ∧
      getGPRReg L r0 = some dg ∧ getExtendedReg L r0 = some de ∧
      copy dg sg = some c1 ∧ copy de se = some c2 ∧ out = done ++ c1 ++ c2 ∧ m = true := by
  unfold lowerCombine at h
  split at h
  · rename_i r0 f0 h0
    split at h
    · rename_i dg de hdg hde
      split at h
      · dsimp only at h
        split at h
        · split at h
          · rename_i c1 c2 hc1 hc2
            simp only [Option.some.injEq, Prod.mk.injEq] at h
            exact ⟨r0, f0, dg, de, _, _, c1, c2, h0, hdg, hde, hc1, hc2, h.1.symm, h.2.symm⟩
          · simp at h
        · simp at h
      · simp at h
    · simp at h
  · simp at h

theorem lowerSetPtr_forward (L : RegLayout) (copy : Nat → Nat → Option (List MachineInstr))
    (done : List MachineInstr) (prev mi : MachineInstr) (r0 r2 pr g n : Nat) (f0 f1 f2 : Bool)
    (rest : List MachineOperand)
    (hops : mi.operands = .reg r0 f0 :: .reg r0 f1 :: .reg r2 f2 :: rest)
    (hprev : prev.getOperand 0 = some (.reg pr true))
    (h2 : getGPRReg L r2 = some g) (hp : getGPRReg L pr = some g)
    (h0 : getGPRReg L r0 = some n) :
    lowerSetPtr L copy (done ++ [prev]) mi =
      some (done ++ [prev.setOperand 0 (.reg n true)], true) := by
  have hprev1 : prev.operands[0]? = some (.reg pr true) := by
    simpa [MachineInstr.getOperand] using hprev
  simp [lowerSetPtr, MachineInstr.getOperand, hops, h2, hp, h0, hprev1]

end PreEmitFixup

namespace SelectExtReg

theorem selector_visit_fixed (L : RegLayout) (mi : MachineInstr) (out : List MachineInstr)
    (h : visit L mi = some out) : ∀ x ∈ out, visit L x = some [x] := by
  have hself : some [mi] = some out → ∀ x ∈ out, visit L x = some [x] := by
    intro ho x hx
    simp only [Option.some.injEq] at ho
    subst ho
    simp only [List.mem_singleton] at hx
    subst hx
    exact h
  by_cases hc : (isPseudoExtInst mi && decide (mi.getNumOperands = 4)) = true
  · have hc0 := hc
    simp only [Bool.and_eq_true, decide_eq_true_eq] at hc0
    obtain ⟨hp, hn⟩ := hc0
    have hmoved : ∀ e : MachineInstr, isPseudoExtInst e = false →
        some [e, mi.setOperand 3 (.imm (-1))] = some out → ∀ x ∈ out, visit L x = some [x] := by
      intro e he ho x hx
      simp only [Option.some.injEq] at ho
      subst ho
      simp only [List.mem_cons, List.mem_singleton, List.not_mem_nil, or_false] at hx
      rcases hx with hx | hx
      · subst hx
        simp [visit, he]
      · subst hx
        have hlen : (mi.setOperand 3 (.imm (-1))).getNumOperands = 4 := by
          simpa [MachineInstr.setOperand, MachineInstr.getNumOperands] using hn
        have hop : isPseudoExtInst (mi.setOperand 3 (.imm (-1))) = true := hp
        have h3n : (mi.setOperand 3 (.imm (-1))).getOperand 3 = some (.imm (-1)) := by
          have : 3 < mi.operands.length := by
            simp only [MachineInstr.getNumOperands] at hn; omega
          simp [MachineInstr.setOperand, MachineInstr.getOperand, this]
        simp [visit, hlen, hop, h3n]
    have h1 := h
    unfold visit at h1
    rw [if_pos hc] at h1
    repeat' split at h1
    all_goals try dsimp only at h1
    repeat' split at h1
    all_goals first
      | exact hself h1
      | exact hmoved _ (by rfl) h1
      | simp at h1
  · have h1 := h
    unfold visit at h1
    rw [if_neg hc] at h1
    exact hself h1

theorem selector_out_fixed (L : RegLayout) (b out : List MachineInstr) (m : Bool)
    (h : runOnMBB L b = some (out, m)) : ∀ x ∈ out, visit L x = some [x] := by
  induction b generalizing out m with
  | nil =>
    simp only [runOnMBB, Option.some.injEq, Prod.mk.injEq] at h
    intro x hx
    rw [← h.1] at hx
    simp at hx
  | cons mi rest ih =>
    simp only [runOnMBB] at h
    cases h1 : visit L mi with
    | none => simp [h1] at h
    | some r1 =>
      cases h2 : runOnMBB L rest with
      | none => simp [h1, h2] at h
      | some r2 =>
        obtain ⟨o2, m2⟩ := r2
        simp only [h1, h2, Option.some.injEq, Prod.mk.injEq] at h
        intro x hx
        rw [← h.1] at hx
        rcases List.mem_append.mp hx with hx | hx
        · exact selector_visit_fixed L mi r1 h1 x hx
        · exact ih o2 m2 h2 x hx

theorem selector_of_fixed (L : RegLayout) (b : List MachineInstr)
    (h : ∀ x ∈ b, visit L x = some [x]) : runOnMBB L b = some (b, false) := by
  induction b with
  | nil => rfl
  | cons mi rest ih =>
    simp [runOnMBB, h mi (List.mem_cons_self _ _),
      ih (fun x hx => h x (List.mem_cons_of_mem _ hx))]

theorem selector_block_idem (L : RegLayout) (b out : List MachineInstr) (m : Bool)
    (h : runOnMBB L b = some (out, m)) : runOnMBB L out = some (out, false) :=
  selector_of_fixed L out (selector_out_fixed L b out m h)

theorem selector_function_idem (L : RegLayout) (f out : List (List MachineInstr)) (m : Bool)
    (h : runOnMachineFunction L f = some (out, m)) :
    runOnMachineFunction L out = some (out, false) := by
  induction f generalizing out m with
  | nil =>
    simp only [runOnMachineFunction, Option.some.injEq, Prod.mk.injEq] at h
    rw [← h.1]
    rfl
  | cons b rest ih =>
    simp only [runOnMachineFunction] at h
    cases h1 : runOnMBB L b with
    | none => simp [h1] at h
    | some r1 =>
      obtain ⟨b1, m1⟩ := r1
      cases h2 : runOnMachineFunction L rest with
      | none => simp [h1, h2] at h
      | some r2 =>
        obtain ⟨o2, m2⟩ := r2
        simp only [h1, h2, Option.some.injEq, Prod.mk.injEq] at h
        rw [← h.1]
        simp [runOnMachineFunction, selector_block_idem L b b1 m1 h1, ih o2 m2 h2]

theorem selector_visit_ready (L : RegLayout) (mi : MachineInstr) (h : slotReady mi) :
    ∃ out, visit L mi = some out := by
  unfold visit
  by_cases hc : (isPseudoExtInst mi && decide (mi.getNumOperands = 4)) = true
  · rw [if_pos hc]
    simp only [Bool.and_eq_true, decide_eq_true_eq] at hc
    obtain ⟨k, h3, h1⟩ := h hc.1 hc.2
    rw [h3]
    simp only []
    by_cases hk : k = -1
    · simp [hk]
    · obtain ⟨r, f, hr⟩ := h1 hk
      rw [if_pos hk, hr]
      simp only []
      split_ifs <;> exact ⟨_, rfl⟩
  · rw [if_neg hc]
    exact ⟨_, rfl⟩

theorem selector_block_ready (L : RegLayout) (b : List MachineInstr) (h : ∀ mi ∈ b, slotReady mi) :
    ∃ out, runOnMBB L b = some (out, false) := by
  induction b with
  | nil => exact ⟨[], rfl⟩
  | cons mi rest ih =>
    obtain ⟨o1, h1⟩ := selector_visit_ready L mi (h mi (List.mem_cons_self _ _))
    obtain ⟨o2, h2⟩ := ih (fun x hx => h x (List.mem_cons_of_mem _ hx))
    exact ⟨o1 ++ o2, by simp [runOnMBB, h1, h2]⟩

theorem selector_function_ready (L : RegLayout) (f : List (List MachineInstr))
    (h : ∀ b ∈ f, ∀ mi ∈ b, slotReady mi) :
    ∃ out, runOnMachineFunction L f = some (out, false) := by
  induction f with
  | nil => exact ⟨[], rfl⟩
  | cons b rest ih =>
    obtain ⟨o1, h1⟩ := selector_block_ready L b (h b (List.mem_cons_self _ _))
    obtain ⟨o2, h2⟩ := ih (fun x hx => h x (List.mem_cons_of_mem _ hx))
    exact ⟨o1 :: o2, by simp [runOnMachineFunction, h1, h2]⟩

end SelectExtReg

namespace DCE

theorem isSelfMoveZero_of_isIdentityMove (opc : Opcode) (mi : MachineInstr)
    (hopc : opc = .ADDI ∨ opc = .EADDIX) (h : isIdentityMove opc mi = some true) :
    isSelfMoveZero mi = true := by
  unfold isIdentityMove at h
  split_ifs at h with ho
  have hop : mi.opcode = .ADDI ∨ mi.opcode = .EADDIX := by rw [ho]; exact hopc
  repeat' split at h
  all_goals first
    | (simp at h; done)
    | skip
  rename_i a _ h0 _ b _ h1 hab _ v h2
  simp only [Option.some.injEq, decide_eq_true_eq] at h
  subst hab
  subst h
  unfold isSelfMoveZero
  rw [h0, h1, h2]
  rcases hop with hop | hop <;> simp [hop]

theorem sameDestAsNext_of_removes (mi : MachineInstr) (next : Option MachineInstr)
    (hs : isSelfMoveZero mi = false) (h : removes mi next = some true) :
    sameDestAsNext mi next = some true := by
  unfold removes at h
  split at h
  · simp at h
  · assumption
  · split at h
    · simp at h
    · rename_i hi
      rw [isSelfMoveZero_of_isIdentityMove .EADDIX mi (Or.inr rfl) hi] at hs
      exact absurd hs (by simp)
    · rw [isSelfMoveZero_of_isIdentityMove .ADDI mi (Or.inl rfl) h] at hs
      exact absurd hs (by simp)

theorem sameDestAsNext_true (mi : MachineInstr) (next : Option MachineInstr)
    (h : sameDestAsNext mi next = some true) :
    ∃ nx a f g, next = some nx ∧ mi.opcode = .EADDIX ∧ nx.opcode = .EADDIX ∧
      mi.getOperand 0 = some (.reg a f) ∧ nx.getOperand 0 = some (.reg a g) := by
  unfold sameDestAsNext at h
  cases next with
  | none => simp at h
  | some nx =>
    simp only at h
    split_ifs at h with ho
    repeat' split at h
    all_goals first
      | (simp at h; done)
      | skip
    rename_i a f h0 _ b g h1
    simp only [Option.some.injEq, decide_eq_true_eq] at h
    subst h
    exact ⟨nx, a, f, g, rfl, ho.1, ho.2, h0, h1⟩

theorem sameDestAsNext_congr (mi n1 n2 : MachineInstr) (a : Nat) (f g : Bool)
    (h1 : n1.opcode = .EADDIX) (h2 : n2.opcode = .EADDIX)
    (ho1 : n1.getOperand 0 = some (.reg a f)) (ho2 : n2.getOperand 0 = some (.reg a g)) :
    sameDestAsNext mi (some n1) = sameDestAsNext mi (some n2) := by
  simp only [sameDestAsNext, h1, h2, ho1, ho2]

theorem removes_congr (mi : MachineInstr) (n1 n2 : Option MachineInstr)
    (h : sameDestAsNext mi n1 = sameDestAsNext mi n2) : removes mi n1 = removes mi n2 := by
  simp only [removes, h]

theorem runOnMBB_settled (b : List MachineInstr) (hb : ∀ mi ∈ b, isSelfMoveZero mi = false) :
    ∀ out m, runOnMBB b = some (out, m) →
      settled out ∧ ∀ mi, sameDestAsNext mi out.head? = sameDestAsNext mi b.head? := by
  induction b with
  | nil =>
    intro out m h
    simp only [runOnMBB, Option.some.injEq, Prod.mk.injEq] at h
    rw [← h.1]
    exact ⟨trivial, fun _ => rfl⟩
  | cons n rest ih =>
    intro out m h
    rw [runOnMBB_cons] at h
    cases h1 : removes n rest.head? with
    | none => rw [h1] at h; exact absurd h (by simp)
    | some del =>
      rw [h1] at h
      cases h2 : runOnMBB rest with
      | none => rw [h2] at h; exact absurd h (by simp)
      | some r2 =>
        obtain ⟨o2, m2⟩ := r2
        rw [h2] at h
        simp only [Option.some.injEq, Prod.mk.injEq] at h
        obtain ⟨hs, hhead⟩ := ih (fun x hx => hb x (List.mem_cons_of_mem _ hx)) o2 m2 h2
        cases del with
        | false =>
          simp only [Bool.false_eq_true, if_false] at h
          rw [← h.1]
          refine ⟨⟨?_, hs⟩, fun _ => rfl⟩
          rw [removes_congr n o2.head? rest.head? (hhead n)]
          exact h1
        | true =>
          simp only [if_true] at h
          rw [← h.1]
          refine ⟨hs, ?_⟩
          intro mi
          rw [hhead mi]
          obtain ⟨nx, a, f, g, hnx, ho, hox, h0, hx0⟩ := sameDestAsNext_true n rest.head?
            (sameDestAsNext_of_removes n rest.head? (hb n (List.mem_cons_self _ _)) h1)
          rw [hnx]
          exact sameDestAsNext_congr mi nx n a g f hox ho hx0 h0

theorem runOnMBB_of_settled (b : List MachineInstr) (h : settled b) :
    runOnMBB b = some (b, false) := by
  induction b with
  | nil => rfl
  | cons n rest ih =>
    rw [runOnMBB_cons, h.1, ih h.2]
    rfl

theorem overwrittenByNext_of_removes (x y : MachineInstr)
    (h : removes x (some y) = some false) : overwrittenByNext x (some y) = false := by
  unfold removes at h
  have hs : sameDestAsNext x (some y) = some false := by
    split at h
    · simp at h
    · simp at h
    · assumption
  unfold sameDestAsNext at hs
  unfold overwrittenByNext
  simp only at hs
  simp only
  split_ifs at hs with ho
  · repeat' split at hs
    all_goals first
      | (simp at hs; done)
      | skip
    all_goals simp_all
  · simp only [not_and_or] at ho
    rcases ho with ho | ho <;> simp [ho]

theorem settled_pairs (b : List MachineInstr) (h : settled b) :
    ∀ pre x y post, b = pre ++ x :: y :: post → overwrittenByNext x (some y) = false := by
  intro pre
  induction pre generalizing b with
  | nil =>
    intro x y post hb
    subst hb
    exact overwrittenByNext_of_removes x y h.1
  | cons p pre ih =>
    intro x y post hb
    subst hb
    exact ih _ h.2 x y post rfl

end DCE

namespace EliminateExtraCopies

end EliminateExtraCopies

namespace PreEmitFixup

theorem lowerSetPtr_cases (L : RegLayout) (copy : Nat → Nat → Option (List MachineInstr))
    (done : List MachineInstr) (prev mi : MachineInstr) (r0 r2 g : Nat) (f0 f1 f2 : Bool)
    (rest : List MachineOperand)
    (hops : mi.operands = .reg r0 f0 :: .reg r0 f1 :: .reg r2 f2 :: rest)
    (h2 : getGPRReg L r2 = some g) :
    (∀ pr n, prev.getOperand 0 = some (.reg pr true) → getGPRReg L pr = some g →
      getGPRReg L r0 = some n →
      lowerSetPtr L copy (done ++ [prev]) mi =
        some (done ++ [prev.setOperand 0 (.reg n true)], true)) ∧
    (∀ pr g1, prev.getOperand 0 = some (.reg pr true) → getGPRReg L pr = some g1 → g1 ≠ g →
      lowerSetPtr L copy (done ++ [prev]) mi =
        (copy r0 g).map fun c => (done ++ [prev] ++ c, true)) ∧
    (∀ pr, prev.getOperand 0 = some (.reg pr false) →
      lowerSetPtr L copy (done ++ [prev]) mi =
        (copy r0 g).map fun c => (done ++ [prev] ++ c, true)) ∧
    (∀ pr, prev.getOperand 0 = some (.reg pr true) → getGPRReg L pr = none →
      lowerSetPtr L copy (done ++ [prev]) mi = none) ∧
    ((∀ pr pd, prev.getOperand 0 ≠ some (.reg pr pd)) →
      lowerSetPtr L copy (done ++ [prev]) mi = none) := by
  have hop : ∀ o, prev.getOperand 0 = o → prev.operands[0]? = o := by
    intro o ho
    simpa [MachineInstr.getOperand] using ho
  refine ⟨?_, ?_, ?_, ?_, ?_⟩
  · intro pr n hp hg hn
    simp [lowerSetPtr, MachineInstr.getOperand, hops, h2, hop _ hp, hg, hn]
  · intro pr g1 hp hg hne
    cases hc : copy r0 g <;>
      simp [lowerSetPtr, MachineInstr.getOperand, hops, h2, hop _ hp, hg, hne, hc]
  · intro pr hp
    cases hc : copy r0 g <;>
      simp [lowerSetPtr, MachineInstr.getOperand, hops, h2, hop _ hp, hc]
  · intro pr hp hg
    simp [lowerSetPtr, MachineInstr.getOperand, hops, h2, hop _ hp, hg]
  · intro hno
    have hno1 : ∀ pr pd, prev.operands[0]? ≠ some (.reg pr pd) := fun pr pd h =>
      hno pr pd (by simpa [MachineInstr.getOperand] using h)
    cases hp : prev.operands[0]? with
    | none => simp [lowerSetPtr, MachineInstr.getOperand, hops, h2, hp]
    | some o =>
      cases o with
      | reg pr pd => exact absurd hp (hno1 pr pd)
      | imm v => simp [lowerSetPtr, MachineInstr.getOperand, hops, h2, hp]
      | other v => simp [lowerSetPtr, MachineInstr.getOperand, hops, h2, hp]

end PreEmitFixup

namespace EliminateExtraCopies

end EliminateExtraCopies

namespace EliminateExtraCopies

end EliminateExtraCopies

namespace EliminateExtraCopies

end EliminateExtraCopies

namespace EliminateExtraCopies

end EliminateExtraCopies

end Helpers

/-- C6: for every index `i` in 0..31 and every register of index `i` of any
of the three kinds, `getGPRReg` returns `X_i`, `getExtendedReg` returns `E_i`
and `getPseudoReg` returns `PXE_i`; converting to another kind and back
recovers the register, and each conversion is idempotent. -/
theorem C6_conversion_preserves_index (L : RegLayout) (hL : L.WF) (k : RegKind) (i : Nat)
    (hi : i ≤ 31) :
    getGPRReg L (k.reg L i) = some (L.X i) ∧
    getExtendedReg L (k.reg L i) = some (L.E i) ∧
    getPseudoReg L (k.reg L i) = some (L.PXE i) ∧
    (∀ k2 : RegKind, (k2.conv L (k.reg L i)).bind (k.conv L) = some (k.reg L i)) ∧
    (∀ k2 : RegKind, (k2.conv L (k.reg L i)).bind (k2.conv L) = k2.conv L (k.reg L i)) := by
  refine ⟨getGPRReg_of_kind L hL k i hi, getExtendedReg_of_kind L hL k i hi,
    getPseudoReg_of_kind L hL k i hi, ?_, ?_⟩
  · intro k2
    rw [conv_of_kind L hL k k2 i hi, Option.some_bind, conv_of_kind L hL k2 k i hi]
  · intro k2
    rw [conv_of_kind L hL k k2 i hi, Option.some_bind, conv_of_kind L hL k2 k2 i hi]

/-- C6 at the unified register of index 17 of the sample numbering. -/
theorem C6_conversion_preserves_index_witness :
    sampleLayout.WF ∧ 17 ≤ 31 ∧
    getGPRReg sampleLayout (RegKind.unified.reg sampleLayout 17) = some (sampleLayout.X 17) :=
  ⟨by decide, by decide,
    (C6_conversion_preserves_index sampleLayout (by decide) .unified 17 (by decide)).1⟩

/-- C1: a `PseudoELP` (resp. `PseudoESP`) whose operands 0 and 1 are registers
of unified or address kind with indices `d` and `s`, with immediate offset
`imm` and no unresolved slot operand, is replaced at its position in the block
by exactly `ELP X_d, X_s, imm` then `ELE E_d, X_s, imm + 8` (resp. `ESP`,
`ESE`); the placeholder is gone.  The offset and `imm + 8` are `int64_t`
values. -/
theorem C1_pointer_variant_expansion (L : RegLayout) (hL : L.WF) (isLoad : Bool)
    (mi : MachineInstr) (hopc : mi.opcode = if isLoad then .PseudoELP else .PseudoESP)
    (d s r0 r1 : Nat) (f0 f1 : Bool) (imm : Int) (rest : List MachineOperand)
    (hd : d ≤ 31) (hs : s ≤ 31)
    (hr0 : r0 = L.PXE d ∨ r0 = L.X d) (hr1 : r1 = L.PXE s ∨ r1 = L.X s)
    (hops : mi.operands = .reg r0 f0 :: .reg r1 f1 :: .imm imm :: rest)
    (hslot : ∀ o, rest = [o] → ∃ k : Int, o = .imm k ∧ k < 0)
    (_himm : isInt64 imm) (himm8 : isInt64 (imm + 8)) :
    ExpandPseudo.expandMI L mi =
      some ([BuildMI (if isLoad then .ELP else .ESP)
               [.reg (L.X d) isLoad, .reg (L.X s) false, .imm imm],
             BuildMI (if isLoad then .ELE else .ESE)
               [.reg (L.E d) isLoad, .reg (L.X s) false, .imm (imm + 8)]], true) ∧
    ∀ (pre post pre' post' : List MachineInstr) (m m' : Bool),
      ExpandPseudo.expandMBB L pre = some (pre', m) →
      ExpandPseudo.expandMBB L post = some (post', m') →
      ExpandPseudo.expandMBB L (pre ++ mi :: post) =
        some (pre' ++
          BuildMI (if isLoad then .ELP else .ESP)
            [.reg (L.X d) isLoad, .reg (L.X s) false, .imm imm] ::
          BuildMI (if isLoad then .ELE else .ESE)
            [.reg (L.E d) isLoad, .reg (L.X s) false, .imm (imm + 8)] :: post', true) := by
  have hMI : ExpandPseudo.expandMI L mi =
      some ([BuildMI (if isLoad then .ELP else .ESP)
               [.reg (L.X d) isLoad, .reg (L.X s) false, .imm imm],
             BuildMI (if isLoad then .ELE else .ESE)
               [.reg (L.E d) isLoad, .reg (L.X s) false, .imm (imm + 8)]], true) := by
    have hun : ExpandPseudo.unselected mi = some false := by
      unfold ExpandPseudo.unselected MachineInstr.getNumOperands MachineInstr.getOperand
      rw [hops]
      by_cases hlen : rest.length = 1
      · obtain ⟨o, ho⟩ := List.length_eq_one.mp hlen
        obtain ⟨k, hk, hk0⟩ := hslot o ho
        subst ho; subst hk
        simp; omega
      · have : ¬ (rest.length + 1 + 1 + 1 = 4) := by omega
        simp [this]
    have hw := wrapI64_of_isInt64 _ himm8
    unfold RegLayout.WF at hL
    have hsrc : (if L.PXE0 ≤ r1 ∧ r1 ≤ L.PXE 31 then addU32 L.X0 (subU32 r1 L.PXE0) else r1)
        = L.X s := by
      rcases hr1 with h | h <;> subst h <;>
        simp only [RegLayout.PXE, RegLayout.X, subU32, addU32] <;> split_ifs <;> omega
    have hdst : (if L.PXE0 ≤ r0 ∧ r0 ≤ L.PXE 31 then addU32 L.X0 (subU32 r0 L.PXE0) else r0)
        = L.X d := by
      rcases hr0 with h | h <;> subst h <;>
        simp only [RegLayout.PXE, RegLayout.X, subU32, addU32] <;> split_ifs <;> omega
    have hx : L.X0 ≤ L.X s ∧ L.X s ≤ L.X 31 := by
      simp only [RegLayout.X]; omega
    have hext : addU32 L.E0 (subU32 (L.X d) L.X0) = L.E d := by
      simp only [RegLayout.X, RegLayout.E, subU32, addU32]; omega
    cases isLoad <;>
      simp [ExpandPseudo.expandMI, ExpandPseudo.expandExtendedLoadStore, hopc,
        ExpandPseudo.isExtendedOpcode, MachineInstr.getOperand, hops, hun, hsrc, hdst, hx,
        ExpandPseudo.realOpcode, ExpandPseudo.emit, hext, hw]
  refine ⟨hMI, ?_⟩
  intro pre post pre' post' m m' hpre hpost
  rw [ExpandPseudo.expandMBB_append, hpre,
    ExpandPseudo.expandMBB_cons_some L mi post _ post' true m' hMI hpost]
  simp

/-- C1 at `PseudoELP pxe5, 16(pxe6)`: it becomes `ELP x5, 16(x6)` and
`ELE e5, 24(x6)`. -/
theorem C1_pointer_variant_expansion_witness :
    sampleLayout.WF ∧
    ExpandPseudo.expandMI sampleLayout samplePseudoELP =
      some ([BuildMI .ELP [.reg (sampleLayout.X 5) true, .reg (sampleLayout.X 6) false, .imm 16],
             BuildMI .ELE [.reg (sampleLayout.E 5) true, .reg (sampleLayout.X 6) false,
               .imm (16 + 8)]], true) :=
  ⟨by decide,
    (C1_pointer_variant_expansion sampleLayout (by decide) true samplePseudoELP rfl 5 6
      (sampleLayout.PXE 5) (sampleLayout.PXE 6) true false 16 [.imm (-1)] (by decide) (by decide)
      (Or.inl rfl) (Or.inl rfl) rfl
      (fun o ho => ⟨-1, by simpa using ho.symm, by decide⟩)
      (by decide) (by decide)).1⟩

/-- C2 as stated fails: the block `PseudoELD x10, %stack.0, 0` contains no
unresolved-slot instruction, the Placeholder Expander runs over it and
reports no change, and the placeholder load is still there (its base operand
is not a register yet, so the expansion is put off). -/
theorem C2_counterexample_frame_index_base :
    (∀ mi ∈ [frameIndexLoad], ExpandPseudo.unresolvedSlot mi = false) ∧
    ExpandPseudo.expandMBB sampleLayout [frameIndexLoad] = some ([frameIndexLoad], false) ∧
    ExpandPseudo.isExtendedOpcode frameIndexLoad.opcode = true := by
  decide

/-- C2 (amended): after the Placeholder Expander has run over a block that
contains no unresolved-slot instruction and in which operands 0 and 1 of every
placeholder load/store are registers, the block contains no placeholder load,
store or move opcode; and the run does complete when every placeholder has the
operands the expander reads (a unified or address source register, an
immediate offset). -/
theorem C2_no_placeholder_after_expansion (L : RegLayout) (hL : L.WF) (b : List MachineInstr)
    (hslot : ∀ mi ∈ b, ExpandPseudo.unresolvedSlot mi = false)
    (hregs : ∀ mi ∈ b, ExpandPseudo.isPseudoLoadStore mi.opcode = true →
      ExpandPseudo.regOperands01 mi = true) :
    (∀ (out : List MachineInstr) (m : Bool), ExpandPseudo.expandMBB L b = some (out, m) →
      ∀ mi2 ∈ out, ExpandPseudo.isExtendedOpcode mi2.opcode = false) ∧
    ((∀ mi ∈ b, (ExpandPseudo.isPseudoLoadStore mi.opcode = true → ExpandPseudo.lsReady L mi) ∧
        (mi.opcode = .PseudoEADDIE → ExpandPseudo.movReady mi)) →
      ∃ r, ExpandPseudo.expandMBB L b = some r) :=
  ⟨fun out m h => ExpandPseudo.expandMBB_real L b out m hslot hregs h,
   fun h => ExpandPseudo.expandMBB_ready L hL b h⟩

/-- C2 (amended) at the block `PseudoELP pxe5, 16(pxe6)`: the two
instructions it becomes are not placeholders. -/
theorem C2_no_placeholder_after_expansion_witness :
    sampleLayout.WF ∧
    (∀ mi ∈ [samplePseudoELP], ExpandPseudo.unresolvedSlot mi = false) ∧
    (∀ mi ∈ [samplePseudoELP], ExpandPseudo.isPseudoLoadStore mi.opcode = true →
      ExpandPseudo.regOperands01 mi = true) ∧
    ∀ mi2 ∈ [BuildMI .ELP [.reg (sampleLayout.X 5) true, .reg (sampleLayout.X 6) false, .imm 16],
             BuildMI .ELE [.reg (sampleLayout.E 5) true, .reg (sampleLayout.X 6) false, .imm 24]],
      ExpandPseudo.isExtendedOpcode mi2.opcode = false :=
  ⟨by decide, by decide, by decide,
    (C2_no_placeholder_after_expansion sampleLayout (by decide) [samplePseudoELP] (by decide)
      (by decide)).1 _ true (by decide)⟩

/-- C3: a placeholder load/store with exactly four operands whose operand 3
is an immediate `k` in 0..31 and whose operand 1 is a unified or address
register of index `j` different from `k` gets exactly one instruction
inserted immediately in front of it, `EADDIX E_j, E_k, 0`; its operand 3
becomes -1; no other operand of it changes, and the instructions before and
after it in the block are treated as they are without it. -/
theorem C3_selector_inserts_one_move (L : RegLayout) (hL : L.WF) (mi : MachineInstr)
    (hopc : SelectExtReg.isPseudoExtInst mi = true)
    (o0 o2 : MachineOperand) (r1 : Nat) (f1 : Bool) (j k : Nat)
    (hj : j ≤ 31) (hk : k ≤ 31) (hjk : j ≠ k)
    (hr1 : r1 = L.PXE j ∨ r1 = L.X j)
    (hops : mi.operands = [o0, .reg r1 f1, o2, .imm (k : Int)]) :
    SelectExtReg.visit L mi =
      some [BuildMI .EADDIX [.reg (L.E j) false, .reg (L.E k) false, .imm 0],
            { mi with operands := [o0, .reg r1 f1, o2, .imm (-1)] }] ∧
    ∀ (pre post pre' post' : List MachineInstr) (m m' : Bool),
      SelectExtReg.runOnMBB L pre = some (pre', m) →
      SelectExtReg.runOnMBB L post = some (post', m') →
      SelectExtReg.runOnMBB L (pre ++ mi :: post) =
        some (pre' ++
          BuildMI .EADDIX [.reg (L.E j) false, .reg (L.E k) false, .imm 0] ::
          { mi with operands := [o0, .reg r1 f1, o2, .imm (-1)] } :: post', false) := by
  have hv : SelectExtReg.visit L mi =
      some [BuildMI .EADDIX [.reg (L.E j) false, .reg (L.E k) false, .imm 0],
            { mi with operands := [o0, .reg r1 f1, o2, .imm (-1)] }] := by
    unfold RegLayout.WF at hL
    have hsrc : (if L.PXE0 ≤ r1 ∧ r1 ≤ L.PXE 31 then addU32 L.X0 (subU32 r1 L.PXE0) else r1)
        = L.X j := by
      rcases hr1 with h | h <;> subst h <;>
        simp only [RegLayout.PXE, RegLayout.X, subU32, addU32] <;> split_ifs <;> omega
    have hsub : subU32 (L.X j) L.X0 = j := by
      simp only [RegLayout.X, subU32]; omega
    have hp : toU32 ((L.E0 : Int) + ((j : Nat) : Int)) = L.E j := by
      simp only [toU32, RegLayout.E]; omega
    have hn : toU32 ((L.E0 : Int) + ((k : Nat) : Int)) = L.E k := by
      simp only [toU32, RegLayout.E]; omega
    have hk1 : ((k : Nat) : Int) ≠ -1 := by omega
    have hk2 : (0 : Int) ≤ ((k : Nat) : Int) ∧ ((k : Nat) : Int) ≤ 31 := by omega
    have hjk2 : ((j : Nat) : Int) ≠ ((k : Nat) : Int) := by omega
    simp only [SelectExtReg.visit, hopc, MachineInstr.getNumOperands, MachineInstr.getOperand, hops,
      List.length_cons, List.length_nil, List.get?, hsrc, hsub, hp, hn]
    simp [hk1, hk2, hjk2, MachineInstr.setOperand, hops]
  refine ⟨hv, ?_⟩
  intro pre post pre' post' m m' hpre hpost
  have hm' := SelectExtReg.runOnMBB_flag L post post' m' hpost
  subst hm'
  rw [SelectExtReg.runOnMBB_append, hpre]
  simp [SelectExtReg.runOnMBB, hv, hpost]

/-- C3 at `PseudoELD x10, 0(pxe6)` asking for slot 9: `EADDIX e6, e9, 0` is
put in front and the slot operand becomes -1. -/
theorem C3_selector_inserts_one_move_witness :
    sampleLayout.WF ∧
    SelectExtReg.visit sampleLayout sampleSlotLoad =
      some [BuildMI .EADDIX [.reg (sampleLayout.E 6) false, .reg (sampleLayout.E 9) false, .imm 0],
            { sampleSlotLoad with
              operands := [.reg (sampleLayout.X 10) true, .reg (sampleLayout.PXE 6) false, .imm 0,
                .imm (-1)] }] :=
  ⟨by decide,
    (C3_selector_inserts_one_move sampleLayout (by decide) sampleSlotLoad rfl
      (.reg (sampleLayout.X 10) true) (.imm 0) (sampleLayout.PXE 6) false 6 9 (by decide)
      (by decide) (by decide) (Or.inl rfl) rfl).1⟩

/-- C4 fails on the code: for `PseudoELD x10, 0(pxe7)` asking for slot 7 (the
index of its source register) the Extended-Register Selector inserts nothing
and leaves operand 3 at 7 instead of setting it to -1; the Placeholder
Expander then still sees an unselected slot and puts the expansion off. -/
theorem C4_same_slot_not_marked :
    SelectExtReg.runOnMBB sampleLayout [sampleSameSlotLoad] = some ([sampleSameSlotLoad], false) ∧
    sampleSameSlotLoad.getOperand 3 = some (.imm 7) ∧
    ExpandPseudo.expandMBB sampleLayout [sampleSameSlotLoad] = some ([sampleSameSlotLoad], false) := by
  decide

/-- C5 fails on the code: in `%3 = PseudoZenoCombinePtrNSID %2, %1` with
`%2 = PseudoZenoGetPtr %0` and `%1 = PseudoZenoGetNSID %0`, each used once,
and two instructions using `%3`, the round-trip scan reports a change but
rewrites only the first use of `%3` to `%0`: the second instruction still
reads `%3`, which therefore keeps a use. -/
theorem C5_round_trip_rewrites_first_use_only :
    (EliminateExtraCopies.roundTripScan roundTripTwoUses).map
      (fun r => (EliminateExtraCopies.operandAt r.1 (4, 1),
                 EliminateExtraCopies.operandAt r.1 (5, 1),
                 EliminateExtraCopies.use_operands r.1 (index2VirtReg 3), r.2)) =
    some (some (.reg (index2VirtReg 0) false), some (.reg (index2VirtReg 3) false),
          [(5, 1)], true) := by
  decide

/-- C7 as stated fails: the residual-demotion step returns at once on a debug
instruction, so `DBG_VALUE $pxe10, 0` keeps its unified register operand. -/
theorem C7_counterexample_debug_instruction :
    PreEmitFixup.demotionLoop sampleLayout [sampleDebugValue] =
      some ([sampleDebugValue], false, []) ∧
    ∃ op ∈ sampleDebugValue.operands, isUnifiedOp sampleLayout op = true := by
  decide

/-- C7 (amended): the residual-demotion step completes on every block whose
register conversions are defined, and after it the block is the incoming block
with every unified operand `PXE_i` of every instruction that is not a debug
instruction replaced by `X_i`, every other operand and every debug instruction
unchanged, and with moves `EADDIX e_a, e_b, 0` inserted in front of some
instructions; so no register operand of an instruction that is not a debug
instruction is of unified kind. -/
theorem C7_residual_demotion (L : RegLayout) (hL : L.WF) (b : List MachineInstr) :
    ((∀ mi ∈ b, PreEmitFixup.convertible L mi = true) →
      ∃ r, PreEmitFixup.demotionLoop L b = some r) ∧
    ∀ (out : List MachineInstr) (m : Bool) (ws : List (MachineInstr × Nat)),
      PreEmitFixup.demotionLoop L b = some (out, m, ws) →
      (∃ ins : List (List MachineInstr), ins.length = b.length ∧
        (∀ l ∈ ins, ∀ x ∈ l, PreEmitFixup.isExtMove L x) ∧
        out = (List.zipWith (fun l mi => l ++ [PreEmitFixup.demoteMI L mi]) ins b).flatten) ∧
      (∀ mi ∈ out, mi.isDebugInstr = false → ∀ op ∈ mi.operands, isUnifiedOp L op = false) :=
  ⟨PreEmitFixup.demotionLoop_convertible L hL b, PreEmitFixup.demotionLoop_spec L hL b⟩

/-- C7 (amended) at the block `OP x1, x2, pxe3, pxe4`: the step completes. -/
theorem C7_residual_demotion_witness :
    sampleLayout.WF ∧ ∃ r, PreEmitFixup.demotionLoop sampleLayout [sampleTwoUnifiedSources] = some r :=
  ⟨by decide, (C7_residual_demotion sampleLayout (by decide) [sampleTwoUnifiedSources]).1 (by decide)⟩

/-- C8 as stated fails: `ADD pxe1, x2, x3` is neither call nor return and
names a unified register, yet the step prints no warning for it (operand 0 is
demoted before the loop that warns); `OP x1, x2, pxe3, pxe4` gets two
warnings, one for each unified operand. -/
theorem C8_counterexample_warning_count :
    sampleUnifiedDest.isCall = false ∧ sampleUnifiedDest.isReturn = false ∧
    (∃ op ∈ sampleUnifiedDest.operands, isUnifiedOp sampleLayout op = true) ∧
    (PreEmitFixup.fixupPseudoRegs sampleLayout sampleUnifiedDest).map (fun r => r.warnings) =
      some [] ∧
    (PreEmitFixup.fixupPseudoRegs sampleLayout sampleTwoUnifiedSources).map
      (fun r => r.warnings) = some [2, 3] := by
  decide

/-- C8 (amended): for an instruction that is not a debug instruction the
residual-demotion step, when the register conversions are defined, completes
and leaves the instruction with every unified register replaced by its
address-class counterpart (no unified operand remains); it prints no warning
for a call or a return, and otherwise one warning for each unified register
operand at position 2 or later, or at any position when the instruction has
fewer than two operands. -/
theorem C8_demotion_and_warnings (L : RegLayout) (hL : L.WF) (mi : MachineInstr)
    (hdbg : mi.isDebugInstr = false) :
    (PreEmitFixup.convertible L mi = true → ∃ r, PreEmitFixup.fixupPseudoRegs L mi = some r) ∧
    ∀ r, PreEmitFixup.fixupPseudoRegs L mi = some r →
      r.mi = PreEmitFixup.demoteMI L mi ∧
      (∀ op ∈ r.mi.operands, isUnifiedOp L op = false) ∧
      r.warnings.length = PreEmitFixup.expectedWarnings L mi := by
  refine ⟨PreEmitFixup.fixupPseudoRegs_convertible L hL mi, ?_⟩
  intro r h
  obtain ⟨h1, -, h3⟩ := PreEmitFixup.fixupPseudoRegs_spec L hL mi r hdbg h
  refine ⟨h1, ?_, h3⟩
  rw [h1]
  exact PreEmitFixup.demoteMI_not_unified L hL mi (by simp [PreEmitFixup.demoteMI, hdbg])

/-- C8 (amended) at `OP x1, x2, pxe3, pxe4`: the step completes. -/
theorem C8_demotion_and_warnings_witness :
    sampleLayout.WF ∧ sampleTwoUnifiedSources.isDebugInstr = false ∧
    ∃ r, PreEmitFixup.fixupPseudoRegs sampleLayout sampleTwoUnifiedSources = some r :=
  ⟨by decide, rfl,
    (C8_demotion_and_warnings sampleLayout (by decide) sampleTwoUnifiedSources rfl).1 (by decide)⟩

/-- C9 as stated fails: for `EADDIX e1, e2, 0; EADDIX e1, e1, 0` the first is
removed because the second writes the same destination, and the second is
removed because it moves `e1` onto itself; no instruction remains. -/
theorem C9_counterexample_second_is_identity :
    (∀ mi ∈ sampleOverwrittenThenIdentity, mi.opcode = .EADDIX) ∧
    sampleOverwrittenThenIdentity.map (fun mi => mi.getOperand 0) =
      [some (.reg (sampleLayout.E 1) true), some (.reg (sampleLayout.E 1) true)] ∧
    DCE.runOnMBB sampleOverwrittenThenIdentity = some ([], false) := by
  decide

/-- C9 (amended): for a block of two consecutive `EADDIX` with the same
destination register, the second of which is not a move of a register onto
itself with immediate 0, after the Local Dead-Instruction Eliminator exactly
one instruction remains, the second of the two. -/
theorem C9_adjacent_same_destination (a b : MachineInstr) (r : Nat) (da db : Bool)
    (resta restb : List MachineOperand) (o1 o2 : MachineOperand)
    (ha : a.opcode = .EADDIX) (hb : b.opcode = .EADDIX)
    (hao : a.operands = .reg r da :: resta)
    (hbo : b.operands = .reg r db :: o1 :: o2 :: restb)
    (hnz : DCE.isSelfMoveZero b = false) :
    DCE.runOnMBB [a, b] = some ([b], false) := by
  have h1 : DCE.removes a (some b) = some true := by
    simp [DCE.removes, DCE.sameDestAsNext, ha, hb, MachineInstr.getOperand, hao, hbo]
  have h2 : DCE.removes b none = some (DCE.isSelfMoveZero b) := by
    cases o1 with
    | reg b1 d1 =>
      cases o2 with
      | imm v =>
        by_cases hrb : r = b1 <;> by_cases hv : v = 0 <;>
          simp [DCE.removes, DCE.sameDestAsNext, DCE.isIdentityMove, DCE.isSelfMoveZero, hb,
            MachineInstr.getOperand, hbo, hrb, hv]
      | _ =>
        by_cases hrb : r = b1 <;>
          simp [DCE.removes, DCE.sameDestAsNext, DCE.isIdentityMove, DCE.isSelfMoveZero, hb,
            MachineInstr.getOperand, hbo, hrb]
    | _ =>
      simp [DCE.removes, DCE.sameDestAsNext, DCE.isIdentityMove, DCE.isSelfMoveZero, hb,
        MachineInstr.getOperand, hbo]
  rw [hnz] at h2
  simp [DCE.runOnMBB, List.head?, h1, h2]

/-- C9 (amended) at `EADDIX e1, e2, 0; EADDIX e1, e3, 0`: the second one
remains. -/
theorem C9_adjacent_same_destination_witness :
    DCE.runOnMBB sampleOverwritten =
      some ([BuildMI .EADDIX [.reg (sampleLayout.E 1) true, .reg (sampleLayout.E 3) false, .imm 0]],
        false) :=
  C9_adjacent_same_destination
    (BuildMI .EADDIX [.reg (sampleLayout.E 1) true, .reg (sampleLayout.E 2) false, .imm 0])
    (BuildMI .EADDIX [.reg (sampleLayout.E 1) true, .reg (sampleLayout.E 3) false, .imm 0])
    (sampleLayout.E 1) true true _ [] _ _ rfl rfl rfl rfl (by decide)

/-- C10: the Local Dead-Instruction Eliminator runs to the end on every block
whose `ADDI` and `EADDIX` instructions have their three operands, and the
block it leaves (a sub-sequence of the incoming block) contains no `ADDI` and
no `EADDIX` whose destination register equals its source register and whose
immediate is 0. -/
theorem C10_no_identity_move_remains (b : List MachineInstr)
    (hb : ∀ mi ∈ b, DCE.hasMoveShape mi) :
    ∃ out, DCE.runOnMBB b = some (out, false) ∧ List.Sublist out b ∧
      ∀ mi ∈ out, DCE.isSelfMoveZero mi = false :=
  DCE.runOnMBB_spec b hb

/-- C10 at `ADDI x5, x5, 0; ADDI x5, x5, 4; EADDIX e1, e1, 0; EADDIX e1, e2, 0`. -/
theorem C10_no_identity_move_remains_witness :
    (∀ mi ∈ sampleIdentityMoves, DCE.hasMoveShape mi) ∧
    ∃ out, DCE.runOnMBB sampleIdentityMoves = some (out, false) ∧
      List.Sublist out sampleIdentityMoves ∧ ∀ mi ∈ out, DCE.isSelfMoveZero mi = false :=
  ⟨by decide, C10_no_identity_move_remains sampleIdentityMoves (by decide)⟩

/-- C11 as stated fails: in `EADDIX e1, e1, 4; EADDIX e1, e2, 0` the first
instruction moves `e1` onto itself with a non-zero immediate, and it is
removed because the next `EADDIX` writes the same destination. -/
theorem C11_counterexample_overwritten_self_move :
    (∃ mi ∈ sampleNonZeroSelfMoveOverwritten.head?, DCE.isSelfMoveNonZero mi = true) ∧
    DCE.runOnMBB sampleNonZeroSelfMoveOverwritten =
      some ([BuildMI .EADDIX [.reg (sampleLayout.E 1) true, .reg (sampleLayout.E 2) false, .imm 0]],
        false) := by
  decide

/-- C11 (amended): in every block whose `ADDI` and `EADDIX` have their three
operands, an `ADDI` or `EADDIX` whose destination register equals its source
register and whose immediate is non-zero is still present, unchanged and in
its place, after the Local Dead-Instruction Eliminator, unless it is an
`EADDIX` followed at once by an `EADDIX` with the same destination. -/
theorem C11_nonzero_self_move_kept (pre post : List MachineInstr) (mi : MachineInstr)
    (hb : ∀ x ∈ pre ++ mi :: post, DCE.hasMoveShape x)
    (hs : DCE.isSelfMoveNonZero mi = true)
    (hn : DCE.overwrittenByNext mi post.head? = false) :
    ∃ outPre outPost, DCE.runOnMBB (pre ++ mi :: post) = some (outPre ++ mi :: outPost, false) ∧
      List.Sublist outPre pre ∧ DCE.runOnMBB post = some (outPost, false) := by
  obtain ⟨out, hout, -, -⟩ := DCE.runOnMBB_spec (pre ++ mi :: post) hb
  obtain ⟨outPre, outRest, hr, ho, hsub⟩ :=
    DCE.runOnMBB_split pre (mi :: post) out false hout
  have hrem := DCE.removes_of_isSelfMoveNonZero mi post.head? hs hn
    (fun nx hnx => hb nx (List.mem_append_right _
      (List.mem_cons_of_mem _ (List.mem_of_mem_head? hnx))))
  rw [DCE.runOnMBB_cons, hrem] at hr
  simp only at hr
  cases hp : DCE.runOnMBB post with
  | none => simp [hp] at hr
  | some r =>
    obtain ⟨op, mp⟩ := r
    simp only [hp, Bool.false_eq_true, if_false, Option.some.injEq, Prod.mk.injEq] at hr
    obtain ⟨h1, h2⟩ := hr
    subst h1; subst h2
    exact ⟨outPre, op, by rw [hout, ho], hsub, rfl⟩

/-- C11 (amended) at `ADDI x5, x5, 0; ADDI x5, x5, 4; EADDIX e1, e1, 0;
EADDIX e1, e2, 0`: the `ADDI x5, x5, 4` stays. -/
theorem C11_nonzero_self_move_kept_witness :
    ∃ outPre outPost,
      DCE.runOnMBB sampleIdentityMoves =
        some (outPre ++
          BuildMI .ADDI [.reg (sampleLayout.X 5) true, .reg (sampleLayout.X 5) false, .imm 4] ::
          outPost, false) ∧
      List.Sublist outPre
        [BuildMI .ADDI [.reg (sampleLayout.X 5) true, .reg (sampleLayout.X 5) false, .imm 0]] ∧
      DCE.runOnMBB
        [BuildMI .EADDIX [.reg (sampleLayout.E 1) true, .reg (sampleLayout.E 1) false, .imm 0],
         BuildMI .EADDIX [.reg (sampleLayout.E 1) true, .reg (sampleLayout.E 2) false, .imm 0]] =
        some (outPost, false) :=
  C11_nonzero_self_move_kept
    [BuildMI .ADDI [.reg (sampleLayout.X 5) true, .reg (sampleLayout.X 5) false, .imm 0]]
    [BuildMI .EADDIX [.reg (sampleLayout.E 1) true, .reg (sampleLayout.E 1) false, .imm 0],
     BuildMI .EADDIX [.reg (sampleLayout.E 1) true, .reg (sampleLayout.E 2) false, .imm 0]]
    (BuildMI .ADDI [.reg (sampleLayout.X 5) true, .reg (sampleLayout.X 5) false, .imm 4])
    (by decide) (by decide) (by decide)

/-- C12: on a `PseudoELP` or `PseudoESP` whose operand 0 is an address-class
or extended-class register of index `i` the Register-Kind Normalizer rewrites
operand 0 to `PXE_i` and changes nothing else, in the instruction and in the
block around it; an instruction of these opcodes whose operand 0 is already
unified or is not a register, and every instruction of another opcode, is left
unchanged. -/
theorem C12_normalizer_rewrites_operand0 (L : RegLayout) (hL : L.WF) (mi : MachineInstr) :
    (∀ (i r : Nat) (d : Bool) (rest : List MachineOperand),
      (mi.opcode = .PseudoELP ∨ mi.opcode = .PseudoESP) → i ≤ 31 → (r = L.X i ∨ r = L.E i) →
      mi.operands = .reg r d :: rest →
      DAGFixup.runOnMI L mi = some ({ mi with operands := .reg (L.PXE i) d :: rest }, false) ∧
      ∀ (pre post pre' post' : List MachineInstr) (m m' : Bool),
        DAGFixup.runOnMBB L pre = some (pre', m) → DAGFixup.runOnMBB L post = some (post', m') →
        DAGFixup.runOnMBB L (pre ++ mi :: post) =
          some (pre' ++ { mi with operands := .reg (L.PXE i) d :: rest } :: post', false)) ∧
    (∀ (o : MachineOperand), (mi.opcode = .PseudoELP ∨ mi.opcode = .PseudoESP) →
      mi.getOperand 0 = some o → (isUnifiedOp L o = true ∨ o.isReg = false) →
      DAGFixup.runOnMI L mi = some (mi, false)) ∧
    (¬ (mi.opcode = .PseudoELP ∨ mi.opcode = .PseudoESP) →
      DAGFixup.runOnMI L mi = some (mi, false)) := by
  refine ⟨?_, ?_, ?_⟩
  · intro i r d rest hop hi hr hops
    have hconv : getPseudoReg L r = some (L.PXE i) := by
      rcases hr with h | h <;> subst h
      · exact getPseudoReg_of_kind L hL .address i hi
      · exact getPseudoReg_of_kind L hL .extended i hi
    have hnp : isPseudoReg L r = false := by
      unfold RegLayout.WF at hL
      rcases hr with h | h <;> subst h <;>
        simp only [isPseudoReg, RegLayout.PXE, RegLayout.X, RegLayout.E, Bool.and_eq_false_iff,
          decide_eq_false_iff_not] <;> omega
    have hMI : DAGFixup.runOnMI L mi =
        some ({ mi with operands := .reg (L.PXE i) d :: rest }, false) := by
      simp [DAGFixup.runOnMI, DAGFixup.fixupPseudoPointerInst, hop, MachineInstr.getOperand, hops,
        hnp, hconv, MachineInstr.setOperand]
    refine ⟨hMI, ?_⟩
    intro pre post pre' post' m m' hpre hpost
    have hm := DAGFixup.normalizer_flag L pre pre' m hpre
    have hm' := DAGFixup.normalizer_flag L post post' m' hpost
    subst hm; subst hm'
    rw [DAGFixup.normalizer_append, hpre]
    simp [DAGFixup.runOnMBB, hMI, hpost]
  · intro o hop ho hcase
    cases o with
    | reg r d =>
      rcases hcase with h | h
      · simp only [isUnifiedOp] at h
        simp [DAGFixup.runOnMI, DAGFixup.fixupPseudoPointerInst, hop, ho, h]
      · simp [MachineOperand.isReg] at h
    | imm v => simp [DAGFixup.runOnMI, DAGFixup.fixupPseudoPointerInst, hop, ho]
    | other t => simp [DAGFixup.runOnMI, DAGFixup.fixupPseudoPointerInst, hop, ho]
  · intro hop
    simp [DAGFixup.runOnMI, hop]

/-- C12 at `PseudoELP x5, 0(x6)`: operand 0 becomes `pxe5`. -/
theorem C12_normalizer_rewrites_operand0_witness :
    sampleLayout.WF ∧
    DAGFixup.runOnMI sampleLayout samplePointerLoadGPR =
      some ({ samplePointerLoadGPR with
              operands := [.reg (sampleLayout.PXE 5) true, .reg (sampleLayout.X 6) false, .imm 0] },
            false) :=
  ⟨by decide,
    ((C12_normalizer_rewrites_operand0 sampleLayout (by decide) samplePointerLoadGPR).1 5
      (sampleLayout.X 5) true _ (Or.inl rfl) (by decide) (Or.inl rfl) rfl).1⟩

/-- C13 fails on the code: on the function with the single block
`PseudoELP x5, 0(x6)` the Register-Kind Normalizer rewrites operand 0 to
`pxe5` and returns `false`. -/
theorem C13_rewrite_reported_as_no_change :
    DAGFixup.runOnMachineFunction sampleLayout [[samplePointerLoadGPR]] =
      some ([[{ samplePointerLoadGPR with
                operands := [.reg (sampleLayout.PXE 5) true, .reg (sampleLayout.X 6) false,
                  .imm 0] }]], false) ∧
    samplePointerLoadGPR.operands ≠
      [.reg (sampleLayout.PXE 5) true, .reg (sampleLayout.X 6) false, .imm 0] := by
  decide

/-- C14: the Register-Kind Normalizer is idempotent: on the function it
returns, a second run returns the same function and rewrites nothing. -/
theorem C14_normalizer_idempotent (L : RegLayout) (hL : L.WF) (f f1 : List (List MachineInstr))
    (m : Bool) (h : DAGFixup.runOnMachineFunction L f = some (f1, m)) :
    DAGFixup.runOnMachineFunction L f1 = some (f1, false) :=
  DAGFixup.runOnMachineFunction_idem L hL f f1 m h

/-- C14 at the function with the single block `PseudoELP x5, 0(x6)`. -/
theorem C14_normalizer_idempotent_witness :
    sampleLayout.WF ∧
    DAGFixup.runOnMachineFunction sampleLayout [[samplePointerLoadGPR]] =
      some ([[{ samplePointerLoadGPR with
                operands := [.reg (sampleLayout.PXE 5) true, .reg (sampleLayout.X 6) false,
                  .imm 0] }]], false) ∧
    DAGFixup.runOnMachineFunction sampleLayout
      [[{ samplePointerLoadGPR with
          operands := [.reg (sampleLayout.PXE 5) true, .reg (sampleLayout.X 6) false, .imm 0] }]] =
      some ([[{ samplePointerLoadGPR with
                operands := [.reg (sampleLayout.PXE 5) true, .reg (sampleLayout.X 6) false,
                  .imm 0] }]], false) :=
  ⟨by decide, by decide,
    C14_normalizer_idempotent sampleLayout (by decide) [[samplePointerLoadGPR]] _ false
      (by decide)⟩

/-- C15 fails on the code: with `%1 = PseudoZenoGetPtr %0`, `%2 = COPY %1`
and two instructions using `%2`, the direct-extraction scan reports a change
but rewrites only the first use of `%2` to `%0`; the second instruction still
reads `%2`. -/
theorem C15_direct_extraction_rewrites_first_use_only :
    (EliminateExtraCopies.directScan directCopyTwoUses).map
      (fun r => (EliminateExtraCopies.operandAt r.1 (3, 1),
                 EliminateExtraCopies.operandAt r.1 (4, 1),
                 EliminateExtraCopies.use_operands r.1 (index2VirtReg 2), r.2)) =
    some (some (.reg (index2VirtReg 0) false), some (.reg (index2VirtReg 2) false),
          [(4, 1)], true) := by
  decide

/-- C16 fails on the code: with `%1 = COPY %0` read by a `COPY` and by two
`ADDI`, the double-copy scan, when it processes `%1`, leaves the `COPY`
alone, rewrites the first `ADDI` to read `%0` and stops: the second `ADDI`
still reads `%1`. -/
theorem C16_double_copy_rewrites_first_use_only :
    (EliminateExtraCopies.doubleCopyVisit sampleLayout doubleCopyTwoUses (index2VirtReg 1)).map
      (fun r => (EliminateExtraCopies.operandAt r.1 (2, 1),
                 EliminateExtraCopies.operandAt r.1 (3, 1),
                 EliminateExtraCopies.operandAt r.1 (4, 1), r.2)) =
    some (some (.reg (index2VirtReg 1) false), some (.reg (index2VirtReg 0) false),
          some (.reg (index2VirtReg 1) false), true) := by
  decide

/-- C17: a non-pointer placeholder load/store that is not deferred and whose
source register is of unified or address kind with index `s` is replaced at
its position by exactly one instruction: the real opcode of the same name,
with base register `X_s` and the same immediate; operand 0 keeps its register,
except that for `PseudoELE` and `PseudoESE` a unified register `PXE_d` becomes
`E_d`. -/
theorem C17_non_pointer_expansion (L : RegLayout) (hL : L.WF) (mi : MachineInstr)
    (opc : Opcode) (isLoad : Bool)
    (hpair : (mi.opcode, opc, isLoad) ∈ ExpandPseudo.nonPointerOpcodes)
    (s r0 r1 : Nat) (f0 f1 : Bool) (imm : Int) (rest : List MachineOperand)
    (hs : s ≤ 31) (hr1 : r1 = L.PXE s ∨ r1 = L.X s)
    (hops : mi.operands = .reg r0 f0 :: .reg r1 f1 :: .imm imm :: rest)
    (hslot : ∀ o, rest = [o] → ∃ k : Int, o = .imm k ∧ k < 0) :
    ExpandPseudo.expandMI L mi =
      some ([BuildMI opc
        [.reg (if (mi.opcode = .PseudoELE ∨ mi.opcode = .PseudoESE) ∧ isPseudoReg L r0 = true
               then L.E (r0 - L.PXE0) else r0) isLoad,
         .reg (L.X s) false, .imm imm]], true) ∧
    ∀ (pre post pre' post' : List MachineInstr) (m m' : Bool),
      ExpandPseudo.expandMBB L pre = some (pre', m) →
      ExpandPseudo.expandMBB L post = some (post', m') →
      ExpandPseudo.expandMBB L (pre ++ mi :: post) =
        some (pre' ++ BuildMI opc
          [.reg (if (mi.opcode = .PseudoELE ∨ mi.opcode = .PseudoESE) ∧ isPseudoReg L r0 = true
                 then L.E (r0 - L.PXE0) else r0) isLoad,
           .reg (L.X s) false, .imm imm] :: post', true) := by
  obtain ⟨hreal, hls, hptr, hnptr⟩ := ExpandPseudo.nonPointerOpcodes_spec _ _ _ hpair
  have hsrc : ExpandPseudo.mappedSource L r1 = L.X s := by
    rcases hr1 with h | h <;> subst h
    · exact ExpandPseudo.mappedSource_unified L hL s hs
    · exact ExpandPseudo.mappedSource_address L hL s hs
  have hx : L.X0 ≤ ExpandPseudo.mappedSource L r1 ∧ ExpandPseudo.mappedSource L r1 ≤ L.X 31 := by
    rw [hsrc]; simp only [RegLayout.X]; omega
  obtain ⟨opc2, isLoad2, hreal2, hexp⟩ :=
    (ExpandPseudo.expandExtendedLoadStore_resolved L mi hls r0 r1 f0 f1 imm rest hops hslot).2 hx
  rw [hreal] at hreal2
  simp only [Option.some.injEq, Prod.mk.injEq] at hreal2
  obtain ⟨h1, h2⟩ := hreal2
  subst h1; subst h2
  have hdst : ExpandPseudo.mappedDest L mi.opcode r0 =
      (if (mi.opcode = .PseudoELE ∨ mi.opcode = .PseudoESE) ∧ isPseudoReg L r0 = true
       then L.E (r0 - L.PXE0) else r0) := by
    unfold RegLayout.WF at hL
    simp only [ExpandPseudo.mappedDest, hnptr, false_and, if_false, isPseudoReg,
      Bool.and_eq_true, decide_eq_true_eq]
    split_ifs with hc
    · simp only [addU32, subU32, RegLayout.E, RegLayout.PXE] at hc ⊢; omega
    · rfl
  have hMI : ExpandPseudo.expandMI L mi =
      some ([BuildMI opc
        [.reg (if (mi.opcode = .PseudoELE ∨ mi.opcode = .PseudoESE) ∧ isPseudoReg L r0 = true
               then L.E (r0 - L.PXE0) else r0) isLoad,
         .reg (L.X s) false, .imm imm]], true) := by
    rw [ExpandPseudo.expandMI_of_isPseudoLoadStore L mi hls, hexp, hptr, hsrc, hdst]
    cases isLoad <;> simp [ExpandPseudo.emit]
  refine ⟨hMI, ?_⟩
  intro pre post pre' post' m m' hpre hpost
  rw [ExpandPseudo.expandMBB_append, hpre,
    ExpandPseudo.expandMBB_cons_some L mi post _ post' true m' hMI hpost]
  simp

/-- C17 at `PseudoELW x10, 4(pxe6)`: it becomes `ELW x10, 4(x6)`. -/
theorem C17_non_pointer_expansion_witness :
    sampleLayout.WF ∧
    ExpandPseudo.expandMI sampleLayout samplePseudoELW =
      some ([BuildMI .ELW [.reg (sampleLayout.X 10) true, .reg (sampleLayout.X 6) false, .imm 4]],
        true) :=
  ⟨by decide,
    (C17_non_pointer_expansion sampleLayout (by decide) samplePseudoELW .ELW true (by decide)
      6 (sampleLayout.X 10) (sampleLayout.PXE 6) true false 4 [.imm (-1)] (by decide)
      (Or.inl rfl) rfl (fun o ho => ⟨-1, by simpa using ho.symm, by decide⟩)).1⟩

/-- C18: a placeholder load/store whose operand 0 or operand 1 is not a
register, or which has exactly four operands and an unresolved slot operand,
is left as it is by the Placeholder Expander, which returns `false` for it
and does not abort; the block around it is treated as without it. -/
theorem C18_deferred_left_unchanged (L : RegLayout) (mi : MachineInstr)
    (hls : ExpandPseudo.isPseudoLoadStore mi.opcode = true)
    (hdef : (∃ o, mi.getOperand 0 = some o ∧ o.isReg = false) ∨
      (∃ o, mi.getOperand 1 = some o ∧ o.isReg = false) ∨
      ExpandPseudo.unresolvedSlot mi = true) :
    ExpandPseudo.expandMI L mi = some ([mi], false) ∧
    ∀ (pre post pre' post' : List MachineInstr) (m m' : Bool),
      ExpandPseudo.expandMBB L pre = some (pre', m) →
      ExpandPseudo.expandMBB L post = some (post', m') →
      ExpandPseudo.expandMBB L (pre ++ mi :: post) = some (pre' ++ mi :: post', m || m') := by
  have hext := ExpandPseudo.isExtendedOpcode_of_isPseudoLoadStore _ hls
  have hMI : ExpandPseudo.expandMI L mi = some ([mi], false) := by
    rw [ExpandPseudo.expandMI_of_isPseudoLoadStore L mi hls]
    unfold ExpandPseudo.expandExtendedLoadStore
    rw [if_pos hext]
    rcases hops : mi.operands with _ | ⟨o0, _ | ⟨o1, rest⟩⟩
    · rcases hdef with ⟨o, ho, -⟩ | ⟨o, ho, -⟩ | hu
      · simp [MachineInstr.getOperand, hops] at ho
      · simp [MachineInstr.getOperand, hops] at ho
      · simp [ExpandPseudo.unresolvedSlot, MachineInstr.getNumOperands, hops] at hu
    · rcases hdef with ⟨o, ho, hr⟩ | ⟨o, ho, -⟩ | hu
      · simp only [MachineInstr.getOperand, hops, List.get?, Option.some.injEq] at ho
        subst ho
        cases o0 <;> simp [MachineOperand.isReg] at hr <;> simp [MachineInstr.getOperand, hops]
      · simp [MachineInstr.getOperand, hops] at ho
      · simp [ExpandPseudo.unresolvedSlot, MachineInstr.getNumOperands, hops] at hu
    · cases o0 with
      | reg r0 f0 =>
        cases o1 with
        | reg r1 f1 =>
          rcases hdef with ⟨o, ho, hr⟩ | ⟨o, ho, hr⟩ | hu
          · simp only [MachineInstr.getOperand, hops, List.get?, Option.some.injEq] at ho
            subst ho
            simp [MachineOperand.isReg] at hr
          · simp only [MachineInstr.getOperand, hops, List.get?, Option.some.injEq] at ho
            subst ho
            simp [MachineOperand.isReg] at hr
          · have hun : ExpandPseudo.unselected mi = some true := by
              unfold ExpandPseudo.unresolvedSlot at hu
              simp only [Bool.and_eq_true, decide_eq_true_eq] at hu
              obtain ⟨h4, h3⟩ := hu
              unfold ExpandPseudo.unselected
              rw [if_pos h4]
              split at h3
              · rw [h3]
              · simp at h3
            simp [MachineInstr.getOperand, hops, hun]
        | imm v => simp [MachineInstr.getOperand, hops]
        | other t => simp [MachineInstr.getOperand, hops]
      | imm v => simp [MachineInstr.getOperand, hops]
      | other t => simp [MachineInstr.getOperand, hops]
  refine ⟨hMI, ?_⟩
  intro pre post pre' post' m m' hpre hpost
  rw [ExpandPseudo.expandMBB_append, hpre,
    ExpandPseudo.expandMBB_cons_some L mi post _ post' false m' hMI hpost]
  simp

/-- C18 at `PseudoELD x10, %stack.0, 0`, whose operand 1 is a frame index. -/
theorem C18_deferred_left_unchanged_witness :
    ExpandPseudo.expandMI sampleLayout frameIndexLoad = some ([frameIndexLoad], false) :=
  (C18_deferred_left_unchanged sampleLayout frameIndexLoad rfl
    (Or.inr (Or.inl ⟨.other 0, rfl, rfl⟩))).1

/-- C19 as stated fails: `PseudoELD x10, %lo(g)(x6)` is not deferred (its
operands 0 and 1 are registers and it has no slot operand) and its source is
the address register `x6`, yet the expander aborts, on reading the offset
operand as an immediate. -/
theorem C19_counterexample_offset_not_immediate :
    sampleLoadSymbolOffset.getOperand 1 = some (.reg (sampleLayout.X 6) false) ∧
    isGPRReg sampleLayout (ExpandPseudo.mappedSource sampleLayout (sampleLayout.X 6)) = true ∧
    ExpandPseudo.unselected sampleLoadSymbolOffset = some false ∧
    ExpandPseudo.expandMI sampleLayout sampleLoadSymbolOffset = none := by
  decide

/-- C19 (amended): a placeholder load/store that is not deferred (register
operands 0 and 1, a resolved slot) and whose offset operand is an immediate
makes the Placeholder Expander abort, with nothing emitted or erased, exactly when its source register is
neither of unified nor of address kind, that is when the mapped source is not
one of `X0..X31`; and whenever the expander expands a placeholder load/store,
the base register of every emitted instruction is address-class. -/
theorem C19_abort_iff_source_not_address (L : RegLayout) (hL : L.WF) (mi : MachineInstr)
    (hls : ExpandPseudo.isPseudoLoadStore mi.opcode = true) :
    (∀ (r0 r1 : Nat) (f0 f1 : Bool) (imm : Int) (rest : List MachineOperand),
      mi.operands = .reg r0 f0 :: .reg r1 f1 :: .imm imm :: rest →
      (∀ o, rest = [o] → ∃ k : Int, o = .imm k ∧ k < 0) →
      (ExpandPseudo.expandMI L mi = none ↔
        isGPRReg L (ExpandPseudo.mappedSource L r1) = false) ∧
      (ExpandPseudo.expandMI L mi = none ↔
        (isPseudoReg L r1 = false ∧ isGPRReg L r1 = false))) ∧
    (∀ out, ExpandPseudo.expandMI L mi = some (out, true) →
      ∀ x ∈ out, ∃ b, x.getOperand 1 = some (.reg b false) ∧ isGPRReg L b = true) := by
  constructor
  · intro r0 r1 f0 f1 imm rest hops hslot
    have hres := ExpandPseudo.expandExtendedLoadStore_resolved L mi hls r0 r1 f0 f1 imm rest
      hops hslot
    have hiff := ExpandPseudo.mappedSource_address_iff L hL r1
    rw [ExpandPseudo.expandMI_of_isPseudoLoadStore L mi hls]
    have key : ExpandPseudo.expandExtendedLoadStore L mi = none ↔
        ¬ (L.X0 ≤ ExpandPseudo.mappedSource L r1 ∧ ExpandPseudo.mappedSource L r1 ≤ L.X 31) := by
      constructor
      · intro hnone hx
        obtain ⟨_, _, _, hsome⟩ := hres.2 hx
        rw [hnone] at hsome
        simp at hsome
      · exact hres.1
    constructor
    · rw [key]
      simp [isGPRReg]
    · rw [key, hiff]
      simp
  · intro out h x hx
    obtain ⟨r1, f1, -, -, hg, hout⟩ :=
      ExpandPseudo.expandMI_true_of_isPseudoLoadStore L hL mi out hls h
    exact ⟨_, hout x hx, hg⟩

/-- C19 (amended) at `PseudoELD x10, 0(e6)`, whose source is an extended
register: the expander aborts. -/
theorem C19_abort_iff_source_not_address_witness :
    sampleLayout.WF ∧ ExpandPseudo.expandMI sampleLayout sampleLoadFromExtended = none :=
  ⟨by decide,
    (((C19_abort_iff_source_not_address sampleLayout (by decide) sampleLoadFromExtended rfl).1
      (sampleLayout.X 10) (sampleLayout.E 6) true false 0 [] rfl
      (fun o ho => by simp at ho)).2).mpr (by decide)⟩

/-- C20 fails on the code: `PseudoEADDIE e5, pxe6, 0` is expanded to
`EADDIE e5, pxe6, 0`, whose source operand is still the unified register
`pxe6`, while the load `PseudoELW x10, 4(pxe6)` is expanded to
`ELW x10, 4(x6)`: `expandExtendedMov` has none of the mapping that
`expandExtendedLoadStore` applies to the source. -/
theorem C20_move_keeps_unified_source :
    ExpandPseudo.expandMI sampleLayout sampleMoveFromUnified =
      some ([BuildMI .EADDIE [.reg (sampleLayout.E 5) true, .reg (sampleLayout.PXE 6) false,
        .imm 0]], true) ∧
    isUnifiedOp sampleLayout (.reg (sampleLayout.PXE 6) false) = true ∧
    ExpandPseudo.expandMI sampleLayout samplePseudoELW =
      some ([BuildMI .ELW [.reg (sampleLayout.X 10) true, .reg (sampleLayout.X 6) false,
        .imm 4]], true) := by
  decide

/-- C21 fails on the code: after `ADDI x8, x2, 16` tagged `FrameDestroy` the
frame-fixup step inserts `EADDIX e8, e2, 0` tagged `FrameSetup`, not
`FrameDestroy`. -/
theorem C21_teardown_move_tagged_as_setup :
    PreEmitFixup.frameLoop sampleLayout [sampleFrameDestroyAddi] =
      some ([sampleFrameDestroyAddi,
             { opcode := .EADDIX,
               operands := [.reg (sampleLayout.E 8) true, .reg (sampleLayout.E 2) false, .imm 0],
               FrameSetup := true, FrameDestroy := false }], true) ∧
    sampleFrameDestroyAddi.FrameDestroy = true ∧ sampleFrameDestroyAddi.FrameSetup = false := by
  decide

/-- C23: the lowering of `PseudoZenoSetPtr` or `PseudoZenoSetNSID` yields a
result only if operands 0 and 1 are the same register; when they are
different registers it aborts, and nothing is lowered. -/
theorem C23_write_variants_need_equal_operands (L : RegLayout)
    (copy : Nat → Nat → Option (List MachineInstr)) (done : List MachineInstr)
    (mi : MachineInstr)
    (hop : mi.opcode = .PseudoZenoSetPtr ∨ mi.opcode = .PseudoZenoSetNSID) :
    (∀ r, PreEmitFixup.fixupPseudoNSManagement L copy done mi = some r →
      ∃ r0 d0 d1, mi.getOperand 0 = some (.reg r0 d0) ∧ mi.getOperand 1 = some (.reg r0 d1)) ∧
    (∀ r0 d0 r1 d1, mi.getOperand 0 = some (.reg r0 d0) → mi.getOperand 1 = some (.reg r1 d1) →
      r0 ≠ r1 → PreEmitFixup.fixupPseudoNSManagement L copy done mi = none) := by
  constructor
  · intro r h
    rcases hop with hop | hop
    · simp only [PreEmitFixup.fixupPseudoNSManagement, hop, PreEmitFixup.lowerSetPtr] at h
      split at h
      · rename_i r0 d0 r1 d1 h0 h1
        split_ifs at h with heq
        · subst heq
          exact ⟨r0, d0, d1, h0, h1⟩
      · simp at h
    · simp only [PreEmitFixup.fixupPseudoNSManagement, hop] at h
      split at h
      · rename_i r0 d0 r1 d1 h0 h1
        split_ifs at h with heq
        · subst heq
          exact ⟨r0, d0, d1, h0, h1⟩
      · simp at h
  · intro r0 d0 r1 d1 h0 h1 hne
    rcases hop with hop | hop
    · simp [PreEmitFixup.fixupPseudoNSManagement, hop, PreEmitFixup.lowerSetPtr, h0, h1, hne]
    · simp [PreEmitFixup.fixupPseudoNSManagement, hop, h0, h1, hne]

/-- C23 at `PseudoZenoSetNSID pxe5, pxe6, e7`: the lowering aborts. -/
theorem C23_write_variants_need_equal_operands_witness :
    PreEmitFixup.fixupPseudoNSManagement sampleLayout (PreEmitFixup.sampleCopy sampleLayout) []
      sampleSetNSIDMismatch = none :=
  (C23_write_variants_need_equal_operands sampleLayout (PreEmitFixup.sampleCopy sampleLayout) []
    sampleSetNSIDMismatch (Or.inr rfl)).2 (sampleLayout.PXE 5) true (sampleLayout.PXE 6) false
    rfl rfl (by decide)

/-- C24 as stated fails: on
`ADDI x11, x10, 2; PseudoZenoCombinePtrNSID pxe12, x11, e13`, where the
preceding instruction defines the address source of the combine, the
preceding instruction is left as it is and the address copy
`ADDI x12, x11, 0` is inserted. -/
theorem C24_counterexample_combine_inserts_copy :
    (∃ d, sampleDefX11.getOperand 0 = some (.reg d true) ∧
      sampleCombineX11.getOperand 1 = some (.reg d false)) ∧
    PreEmitFixup.nsLoop sampleLayout (PreEmitFixup.sampleCopy sampleLayout) []
        sampleCombineAfterDef =
      some ([ sampleDefX11,
              BuildMI .ADDI [.reg (sampleLayout.X 12) true, .reg (sampleLayout.X 11) false, .imm 0],
              BuildMI .EADDIX [.reg (sampleLayout.E 12) true, .reg (sampleLayout.E 13) false,
                .imm 0] ], true) := by
  refine ⟨⟨sampleLayout.X 11, ?_, ?_⟩, ?_⟩ <;> decide

/-- C24 (amended): the lowering of `PseudoZenoCombinePtrNSID`, when it
completes, leaves every instruction in front of the placeholder as it is and
puts two copies in its place, the first one into the address register of the
combine destination; the rewrite in place of the destination of the
preceding instruction belongs to the lowering of `PseudoZenoSetPtr`: when the
preceding instruction defines a register whose address register is the one
of the new address, its destination becomes the address register of the
`PseudoZenoSetPtr` destination and no copy is inserted. -/
theorem C24_combine_keeps_preceding_instruction (L : RegLayout)
    (copy : Nat → Nat → Option (List MachineInstr)) (done : List MachineInstr)
    (mi : MachineInstr) :
    (mi.opcode = .PseudoZenoCombinePtrNSID →
      ∀ out m, PreEmitFixup.fixupPseudoNSManagement L copy done mi = some (out, m) →
        ∃ r0 f0 dg de sg se c1 c2, mi.getOperand 0 = some (.reg r0 f0) ∧
          getGPRReg L r0 = some dg ∧ getExtendedReg L r0 = some de ∧
          copy dg sg = some c1 ∧ copy de se = some c2 ∧ out = done ++ c1 ++ c2 ∧ m = true) ∧
    (mi.opcode = .PseudoZenoSetPtr →
      ∀ prev r0 r2 pr g n f0 f1 f2 rest,
        mi.operands = .reg r0 f0 :: .reg r0 f1 :: .reg r2 f2 :: rest →
        prev.getOperand 0 = some (.reg pr true) →
        getGPRReg L r2 = some g → getGPRReg L pr = some g → getGPRReg L r0 = some n →
        PreEmitFixup.fixupPseudoNSManagement L copy (done ++ [prev]) mi =
          some (done ++ [prev.setOperand 0 (.reg n true)], true)) := by
  constructor
  · intro hop out m h
    simp only [PreEmitFixup.fixupPseudoNSManagement, hop] at h
    exact PreEmitFixup.lowerCombine_dest L copy done mi out m h
  · intro hop prev r0 r2 pr g n f0 f1 f2 rest hops hprev h2 hp h0
    simp only [PreEmitFixup.fixupPseudoNSManagement, hop]
    exact PreEmitFixup.lowerSetPtr_forward L copy done prev mi r0 r2 pr g n f0 f1 f2 rest hops
      hprev h2 hp h0

/-- C24 (amended) at `ADDI x11, x10, 2` followed by
`PseudoZenoCombinePtrNSID pxe12, x11, e13`: the lowering completes, and its
result is the preceding instruction followed by two copies. -/
theorem C24_combine_keeps_preceding_instruction_witness :
    ∃ r0 f0 dg de sg se c1 c2, sampleCombineX11.getOperand 0 = some (.reg r0 f0) ∧
      getGPRReg sampleLayout r0 = some dg ∧ getExtendedReg sampleLayout r0 = some de ∧
      PreEmitFixup.sampleCopy sampleLayout dg sg = some c1 ∧
      PreEmitFixup.sampleCopy sampleLayout de se = some c2 ∧
      [ sampleDefX11,
        BuildMI .ADDI [.reg (sampleLayout.X 12) true, .reg (sampleLayout.X 11) false, .imm 0],
        BuildMI .EADDIX [.reg (sampleLayout.E 12) true, .reg (sampleLayout.E 13) false, .imm 0] ] =
        [sampleDefX11] ++ c1 ++ c2 ∧ true = true :=
  (C24_combine_keeps_preceding_instruction sampleLayout (PreEmitFixup.sampleCopy sampleLayout)
    [sampleDefX11] sampleCombineX11).1 rfl _ true (by decide)

/-- C25 fails on the code: the residual-demotion step aborts in
`getExtendedReg` on `FOP f0, pxe1`, whose operand 0 is a register of none of
the three kinds and whose operand 1 is unified, and on the return
`RET implicit $pxe10, implicit $f10`; in both the unified operand is not
demoted. -/
theorem C25_demotion_aborts_on_other_register_kind :
    (∃ op ∈ sampleFloatDest.operands, isUnifiedOp sampleLayout op = true) ∧
    PreEmitFixup.fixupPseudoRegs sampleLayout sampleFloatDest = none ∧
    PreEmitFixup.demotionLoop sampleLayout [sampleFloatDest] = none ∧
    sampleReturnPairAndFloat.isReturn = true ∧
    (∃ op ∈ sampleReturnPairAndFloat.operands, isUnifiedOp sampleLayout op = true) ∧
    PreEmitFixup.fixupPseudoRegs sampleLayout sampleReturnPairAndFloat = none ∧
    PreEmitFixup.demotionLoop sampleLayout [sampleReturnPairAndFloat] = none := by
  decide

/-- C26: when some virtual register has more than one defining instruction
(the function is not in SSA form) the Redundant-Copy Eliminator aborts, so no
rewrite is performed. -/
theorem C26_not_ssa_is_fatal (L : RegLayout) (mf : EliminateExtraCopies.MachineFunction)
    (idx : Nat) (hidx : idx < mf.numVirtRegs)
    (h : 1 < (EliminateExtraCopies.def_instructions mf (index2VirtReg idx)).length) :
    EliminateExtraCopies.isSSA mf = false ∧
    EliminateExtraCopies.runOnMachineFunction L mf = none := by
  have hs := EliminateExtraCopies.isSSA_eq_false mf idx hidx h
  exact ⟨hs, by simp [EliminateExtraCopies.runOnMachineFunction, hs]⟩

/-- C26 at `%0 = COPY $x10; %0 = COPY $x11`. -/
theorem C26_not_ssa_is_fatal_witness :
    EliminateExtraCopies.runOnMachineFunction sampleLayout sampleNotSSA = none :=
  (C26_not_ssa_is_fatal sampleLayout sampleNotSSA 0 (by decide) (by decide)).2

/-- C27: the Pseudo-Op Combiner returns every function unchanged and reports
no change. -/
theorem C27_combiner_is_identity (f : List (List MachineInstr)) :
    FoldPseudo.runOnMachineFunction f = (f, false) :=
  FoldPseudo.runOnMachineFunction_id f

/-- C29 fails on the code: on the function with the single block
`PseudoELD x10, 0(pxe6), slot 9` the Extended-Register Selector inserts
`EADDIX e6, e9, 0`, rewrites the slot operand to -1 and returns `false`. -/
theorem C29_selector_reports_no_change :
    SelectExtReg.runOnMachineFunction sampleLayout [[sampleSlotLoad]] =
      some ([[BuildMI .EADDIX [.reg (sampleLayout.E 6) false, .reg (sampleLayout.E 9) false, .imm 0],
              { sampleSlotLoad with
                operands := [.reg (sampleLayout.X 10) true, .reg (sampleLayout.PXE 6) false,
                  .imm 0, .imm (-1)] }]], false) := by
  decide

/-- C30 fails on the code: from the function with the single block
`ADDI x5, x5, 0; ADDI x5, x5, 4; EADDIX e1, e1, 0; EADDIX e1, e2, 0` the Local
Dead-Instruction Eliminator removes two instructions and returns `false`. -/
theorem C30_eliminator_reports_no_change :
    DCE.runOnMachineFunction [sampleIdentityMoves] =
      some ([[BuildMI .ADDI [.reg (sampleLayout.X 5) true, .reg (sampleLayout.X 5) false, .imm 4],
              BuildMI .EADDIX [.reg (sampleLayout.E 1) true, .reg (sampleLayout.E 2) false,
                .imm 0]]], false) := by
  decide

/-- C31 fails on the code: in `EADDIX e1, e2, 0; EADDIX e1, e1, 4` the two
moves have the same destination, the Local Dead-Instruction Eliminator
deletes the first, and the second reads that destination as its source: the
value written by the deleted instruction is used. -/
theorem C31_deleted_move_is_read_by_next :
    DCE.removes
        (BuildMI .EADDIX [.reg (sampleLayout.E 1) true, .reg (sampleLayout.E 2) false, .imm 0])
        (some (BuildMI .EADDIX
          [.reg (sampleLayout.E 1) true, .reg (sampleLayout.E 1) false, .imm 4])) = some true ∧
    (BuildMI .EADDIX
        [.reg (sampleLayout.E 1) true, .reg (sampleLayout.E 1) false, .imm 4]).getOperand 1 =
      some (.reg (sampleLayout.E 1) false) ∧
    DCE.runOnMBB sampleOverwrittenButRead =
      some ([BuildMI .EADDIX
        [.reg (sampleLayout.E 1) true, .reg (sampleLayout.E 1) false, .imm 4]], false) := by
  decide

/-- C32 fails on the code: in
`%0:gpr = PseudoZenoGetPtr $pxe10; %1:gpr = COPY %0; %2:gpr = ADDI %1, 4` the
`COPY` goes into an address-class virtual register, and the Redundant-Copy
Eliminator replaces the use of `%1` in the `ADDI` with `$pxe10`.  The
direct-extraction loop never asks for the register class of the destination
of the `COPY`. -/
theorem C32_direct_extraction_ignores_register_class :
    (EliminateExtraCopies.directScan sampleCopyToAddressClass).map (fun r => (r.1.insts, r.2)) =
      some ([ { opcode := .PseudoZenoGetPtr,
                operands := [.reg (index2VirtReg 0) true, .reg (sampleLayout.PXE 10) false] },
              { opcode := .COPY,
                operands := [.reg (index2VirtReg 1) true, .reg (index2VirtReg 0) false] },
              { opcode := .ADDI,
                operands := [.reg (index2VirtReg 2) true, .reg (sampleLayout.PXE 10) false,
                  .imm 4] } ], true) ∧
    (EliminateExtraCopies.runOnMachineFunction sampleLayout sampleCopyToAddressClass).map
        (fun r => (r.1.insts.get? 2, r.2)) =
      some (some { opcode := .ADDI,
                   operands := [.reg (index2VirtReg 2) true, .reg (sampleLayout.PXE 10) false,
                     .imm 4] }, true) := by
  decide

/-- C34 fails on the code: on `FLW f0, 0(x10); PseudoZenoSetPtr pxe10, pxe10,
x11` a preceding instruction exists and its operand 0 is the definition of a
register unrelated to the placeholder, one without address-class counterpart;
the lowering aborts in `getGPRReg` instead of placing the copy, whatever the
copy hook. -/
theorem C34_set_ptr_aborts_on_unrelated_definition :
    sampleFloatLoad.getOperand 0 = some (.reg 1000 true) ∧
    getGPRReg sampleLayout 1000 = none ∧
    ∀ copy : Nat → Nat → Option (List MachineInstr),
      PreEmitFixup.nsLoop sampleLayout copy [] [sampleFloatLoad, sampleSetPtr] = none := by
  refine ⟨by decide, by decide, ?_⟩
  intro copy
  have h : PreEmitFixup.lowerSetPtr sampleLayout copy ([] ++ [sampleFloatLoad]) sampleSetPtr =
      none :=
    (PreEmitFixup.lowerSetPtr_cases sampleLayout copy [] sampleFloatLoad sampleSetPtr
      (sampleLayout.PXE 10) (sampleLayout.X 11) (sampleLayout.X 11) true false false [] rfl
      (by decide)).2.2.2.1 1000 rfl (by decide)
  simp only [List.nil_append] at h
  have hf : PreEmitFixup.fixupPseudoNSManagement sampleLayout copy [] sampleFloatLoad =
      some ([sampleFloatLoad], false) := rfl
  have hs : PreEmitFixup.fixupPseudoNSManagement sampleLayout copy [sampleFloatLoad]
      sampleSetPtr = none := h
  simp only [PreEmitFixup.nsLoop, hf, hs]

/-- C35 fails on the code: `PseudoELP pxe5, 16(pxe5)`, whose destination and
base have the same index, is expanded to `ELP x5, 16(x5)` followed by
`ELE e5, 24(x5)`: the first instruction writes `x5` and the second reads `x5`
as its base. -/
theorem C35_second_load_reads_overwritten_base :
    ExpandPseudo.expandMI sampleLayout samplePseudoELPSameIndex =
      some ([BuildMI .ELP [.reg (sampleLayout.X 5) true, .reg (sampleLayout.X 5) false, .imm 16],
             BuildMI .ELE [.reg (sampleLayout.E 5) true, .reg (sampleLayout.X 5) false,
               .imm 24]], true) := by
  decide

/-- C36: whenever the Extended-Register Selector completes on a function,
running it on the result completes and returns the result unchanged, with no
change reported; it completes on every function whose four-operand placeholder
loads and stores have an immediate slot operand and, unless the slot is -1, a
register source. -/
theorem C36_selector_idempotent (L : RegLayout) (f : List (List MachineInstr)) :
    (∀ out m, SelectExtReg.runOnMachineFunction L f = some (out, m) →
      SelectExtReg.runOnMachineFunction L out = some (out, false)) ∧
    ((∀ b ∈ f, ∀ mi ∈ b, SelectExtReg.slotReady mi) →
      ∃ out, SelectExtReg.runOnMachineFunction L f = some (out, false) ∧
        SelectExtReg.runOnMachineFunction L out = some (out, false)) := by
  refine ⟨fun out m h => SelectExtReg.selector_function_idem L f out m h, ?_⟩
  intro h
  obtain ⟨out, hout⟩ := SelectExtReg.selector_function_ready L f h
  exact ⟨out, hout, SelectExtReg.selector_function_idem L f out false hout⟩

/-- C36 at the function with the single block `PseudoELD x10, 0(pxe6), slot 9`:
the second run leaves the move and the marked load as they are. -/
theorem C36_selector_idempotent_witness :
    SelectExtReg.runOnMachineFunction sampleLayout
        [[BuildMI .EADDIX [.reg (sampleLayout.E 6) false, .reg (sampleLayout.E 9) false, .imm 0],
          { sampleSlotLoad with
            operands := [.reg (sampleLayout.X 10) true, .reg (sampleLayout.PXE 6) false,
              .imm 0, .imm (-1)] }]] =
      some ([[BuildMI .EADDIX [.reg (sampleLayout.E 6) false, .reg (sampleLayout.E 9) false,
                .imm 0],
              { sampleSlotLoad with
                operands := [.reg (sampleLayout.X 10) true, .reg (sampleLayout.PXE 6) false,
                  .imm 0, .imm (-1)] }]], false) :=
  (C36_selector_idempotent sampleLayout [[sampleSlotLoad]]).1 _ false (by decide)

/-- C37 as stated fails: from `EADDIX e1, e2, 0; ADDI x5, x5, 0;
EADDIX e1, e3, 0` the first run removes the identity `ADDI` and leaves two
adjacent moves into `e1`; a second run removes the first of them. -/
theorem C37_counterexample_second_run_removes :
    DCE.runOnMBB sampleIdentityBetweenMoves =
      some ([BuildMI .EADDIX [.reg (sampleLayout.E 1) true, .reg (sampleLayout.E 2) false, .imm 0],
             BuildMI .EADDIX [.reg (sampleLayout.E 1) true, .reg (sampleLayout.E 3) false,
               .imm 0]], false) ∧
    DCE.runOnMBB
        [BuildMI .EADDIX [.reg (sampleLayout.E 1) true, .reg (sampleLayout.E 2) false, .imm 0],
         BuildMI .EADDIX [.reg (sampleLayout.E 1) true, .reg (sampleLayout.E 3) false, .imm 0]] =
      some ([BuildMI .EADDIX [.reg (sampleLayout.E 1) true, .reg (sampleLayout.E 3) false,
        .imm 0]], false) := by
  decide

/-- C37 (amended): on a block without zero-offset self-moves, when the Local
Dead-Instruction Eliminator completes, a second run on the result completes
and removes nothing, and no two adjacent `EADDIX` with the same destination
register remain. -/
theorem C37_fixpoint_without_identity_moves (b out : List MachineInstr) (m : Bool)
    (hb : ∀ mi ∈ b, DCE.isSelfMoveZero mi = false) (h : DCE.runOnMBB b = some (out, m)) :
    DCE.runOnMBB out = some (out, false) ∧
    ∀ pre x y post, out = pre ++ x :: y :: post → DCE.overwrittenByNext x (some y) = false :=
  ⟨DCE.runOnMBB_of_settled out (DCE.runOnMBB_settled b hb out m h).1,
   DCE.settled_pairs out (DCE.runOnMBB_settled b hb out m h).1⟩

/-- C37 (amended) at `EADDIX e1, e2, 0; EADDIX e1, e3, 0; EADDIX e1, e4, 0;
ADDI x5, x6, 1`: the first run leaves `EADDIX e1, e4, 0; ADDI x5, x6, 1`, the
second run leaves that as it is. -/
theorem C37_fixpoint_without_identity_moves_witness :
    DCE.runOnMBB
        [BuildMI .EADDIX [.reg (sampleLayout.E 1) true, .reg (sampleLayout.E 4) false, .imm 0],
         BuildMI .ADDI [.reg (sampleLayout.X 5) true, .reg (sampleLayout.X 6) false, .imm 1]] =
      some ([BuildMI .EADDIX [.reg (sampleLayout.E 1) true, .reg (sampleLayout.E 4) false, .imm 0],
             BuildMI .ADDI [.reg (sampleLayout.X 5) true, .reg (sampleLayout.X 6) false,
               .imm 1]], false) :=
  (C37_fixpoint_without_identity_moves sampleThreeMoves _ false (by decide) (by decide)).1

end Zeno
